import Mathlib

/-!
# VFS: scene draw traversal, mip chain generation and the OBJ mesh decoder

A shallow embedding of the parts of `VFS/GLTFScene.cpp` and
`Common/AssetLoader.cpp` that decide the draw-traversal, mip-chain and
normal/texcoord properties, followed by the theorems about them.

Conventions of the embedding.

* `uint32_t` values are natural numbers reduced modulo `2 ^ 32` where the code
  can wrap; `int` values are integers.
* Code that indexes an array out of bounds, or trips an `assert`, yields `none`.
* Recorded GPU commands are appended to a list, oldest first.
-/

namespace vfs

/-! ## Machine integers -/

/-- The largest `uint32_t`. -/
def UINT32_MAX : Nat := 2 ^ 32 - 1

/-- Conversion of an `int` to `uint32_t` (`static_cast<uint32_t>`, or the implicit
conversion of an assignment): reduction modulo `2 ^ 32`. -/
def toU32 (i : Int) : Nat := (i % 2 ^ 32).toNat

/-- The increment `++x` of a `uint32_t`. -/
def incU32 (x : Nat) : Nat := (x + 1) % 2 ^ 32

/-! ## Scene graph (`GLTFScene.cpp`) -/

/-- A draw-call-ready slice of the shared index and vertex buffers. -/
structure GLTFPrimMesh where
  firstIndex : Nat
  indexCount : Nat
  vertexOffset : Nat
  materialIndex : Int
deriving DecidableEq, Repr

/-- A scene node: its world matrix (of an arbitrary matrix type `M`) and the
indices of the primitive meshes it owns. -/
structure GLTFNode (M : Type) where
  world : M
  primMeshes : List Nat
deriving DecidableEq, Repr

/-- The commands `GLTFScene::cmdDraw` records. -/
inductive DrawCmd where
  | bindVertexBuffers
  | bindIndexBuffer
  | bindDescriptorSets
  | scopeLabel
  | pushConstants (offset : Nat) (size : Nat) (values : List Nat)
  | drawIndexed (indexCount instanceCount firstIndex vertexOffset firstInstance : Nat)
deriving DecidableEq, Repr

/-- The local variables of `GLTFScene::cmdDraw` together with the commands
recorded so far. -/
structure DrawState where
  instanceIndex : Nat
  lastMaterialIndex : Nat
  cmds : List DrawCmd
deriving DecidableEq, Repr

/-- The body of the inner loop of `GLTFScene::cmdDraw`, for one `meshIdx`. -/
def cmdDrawMesh (scenePrimMeshes : List GLTFPrimMesh) (pushConstOffset : Nat)
    (st : DrawState) (meshIdx : Nat) : Option DrawState :=
  match scenePrimMeshes[meshIdx]? with
  | none => none
  | some primMesh =>
    let lastMaterialIndex :=
      if toU32 primMesh.materialIndex ≠ st.lastMaterialIndex then toU32 primMesh.materialIndex
      else st.lastMaterialIndex
    some
      { instanceIndex := st.instanceIndex
        lastMaterialIndex := lastMaterialIndex
        cmds := st.cmds ++
          [DrawCmd.pushConstants pushConstOffset 8 [st.instanceIndex, lastMaterialIndex],
           DrawCmd.drawIndexed primMesh.indexCount 1 primMesh.firstIndex primMesh.vertexOffset 0] }

/-- The inner loop of `GLTFScene::cmdDraw`: `for (uint32_t meshIdx : sceneNode.primMeshes)`. -/
def cmdDrawMeshes (scenePrimMeshes : List GLTFPrimMesh) (pushConstOffset : Nat) :
    DrawState → List Nat → Option DrawState
  | st, [] => some st
  | st, meshIdx :: rest =>
    match cmdDrawMesh scenePrimMeshes pushConstOffset st meshIdx with
    | none => none
    | some st1 => cmdDrawMeshes scenePrimMeshes pushConstOffset st1 rest

/-- The outer loop of `GLTFScene::cmdDraw`: `for (const GLTFNode& sceneNode : _sceneNodes)`,
with `++instanceIndex` after the meshes of each node. -/
def cmdDrawNodes {M : Type} (scenePrimMeshes : List GLTFPrimMesh) (pushConstOffset : Nat) :
    DrawState → List (GLTFNode M) → Option DrawState
  | st, [] => some st
  | st, sceneNode :: rest =>
    match cmdDrawMeshes scenePrimMeshes pushConstOffset st sceneNode.primMeshes with
    | none => none
    | some st1 =>
      cmdDrawNodes scenePrimMeshes pushConstOffset
        { st1 with instanceIndex := incU32 st1.instanceIndex } rest

/-- The commands of `GLTFScene::cmdDraw`: the three binds, the debug label, then the
node loop started with `instanceIndex = 0` and `lastMaterialIndex = UINT32_MAX`. What the
destructor of the scoped label records when the function returns is not part of the list. -/
def cmdDraw {M : Type} (sceneNodes : List (GLTFNode M)) (scenePrimMeshes : List GLTFPrimMesh)
    (pushConstOffset : Nat) : Option (List DrawCmd) :=
  (cmdDrawNodes scenePrimMeshes pushConstOffset
    { instanceIndex := 0
      lastMaterialIndex := UINT32_MAX
      cmds := [DrawCmd.bindVertexBuffers, DrawCmd.bindIndexBuffer,
               DrawCmd.bindDescriptorSets, DrawCmd.scopeLabel] }
    sceneNodes).map DrawState.cmds

/-- The matrix array `GLTFScene::uploadMatrixBuffer` builds: one
`(world, transpose (inverse world))` pair for every node that owns a primitive mesh.
`invT` stands for `glm::transpose (glm::inverse ·)`. -/
def matrixBuf {M : Type} (invT : M → M) : List (GLTFNode M) → List (M × M)
  | [] => []
  | node :: rest =>
    if ¬ node.primMeshes.isEmpty then (node.world, invT node.world) :: matrixBuf invT rest
    else matrixBuf invT rest

/-- The count `numMatrices` by which `GLTFScene::initialize` sizes the matrix buffer. -/
def numMatrices {M : Type} : List (GLTFNode M) → Nat
  | [] => 0
  | node :: rest => (if node.primMeshes.isEmpty = false then 1 else 0) + numMatrices rest

/-! ### Reading a recorded command list -/

/-- The indexed draws of a command list, in order. -/
def drawsOf (cmds : List DrawCmd) : List DrawCmd :=
  cmds.filter fun c => match c with
    | DrawCmd.drawIndexed .. => true
    | _ => false

/-- The push-constant blocks of a command list, in order. -/
def pushesOf (cmds : List DrawCmd) : List (List Nat) :=
  cmds.filterMap fun c => match c with
    | DrawCmd.pushConstants _ _ values => some values
    | _ => none

/-- The pushes and draws of a command list, in order (binds and labels dropped). -/
def pushDrawOf (cmds : List DrawCmd) : List DrawCmd :=
  cmds.filter fun c => match c with
    | DrawCmd.drawIndexed .. => true
    | DrawCmd.pushConstants .. => true
    | _ => false

/-- The first value of every push-constant block: the instance indices. -/
def pushedInstanceIndices (cmds : List DrawCmd) : List (Option Nat) :=
  (pushesOf cmds).map fun values => values[0]?

/-- The second value of every push-constant block: the material indices. -/
def pushedMaterialIndices (cmds : List DrawCmd) : List (Option Nat) :=
  (pushesOf cmds).map fun values => values[1]?

/-- Every primitive-mesh index of every node is a valid index of `scenePrimMeshes`. -/
def ValidMeshIndices {M : Type} (sceneNodes : List (GLTFNode M))
    (scenePrimMeshes : List GLTFPrimMesh) : Prop :=
  ∀ node ∈ sceneNodes, ∀ meshIdx ∈ node.primMeshes, meshIdx < scenePrimMeshes.length

/-- The indexed draw the code issues for a primitive mesh. -/
def drawCall (primMesh : GLTFPrimMesh) : DrawCmd :=
  DrawCmd.drawIndexed primMesh.indexCount 1 primMesh.firstIndex primMesh.vertexOffset 0

/-- The primitive-mesh indices of a scene: node after node in declaration order, each
node's list in order. -/
def meshIndicesInOrder {M : Type} (sceneNodes : List (GLTFNode M)) : List Nat :=
  sceneNodes.flatMap fun node => node.primMeshes

/-- The instance index expected with each draw: the position of the owning node, once
per primitive mesh of the node, counting nodes from `start`. -/
def nodePositions {M : Type} : Nat → List (GLTFNode M) → List Nat
  | _, [] => []
  | start, node :: rest =>
    List.replicate node.primMeshes.length start ++ nodePositions (start + 1) rest

/-- The push and the draw expected for one primitive mesh of a node whose instance index
is `instanceIndex`. -/
def meshCmds (scenePrimMeshes : List GLTFPrimMesh) (pushConstOffset instanceIndex meshIdx : Nat) :
    List DrawCmd :=
  match scenePrimMeshes[meshIdx]? with
  | none => []
  | some primMesh =>
    [DrawCmd.pushConstants pushConstOffset 8 [instanceIndex, toU32 primMesh.materialIndex],
     drawCall primMesh]

/-- The pushes and draws expected for a list of nodes, the first of which has instance
index `start` (reduced to 32 bits). -/
def nodeCmdsFrom {M : Type} (scenePrimMeshes : List GLTFPrimMesh) (pushConstOffset : Nat) :
    Nat → List (GLTFNode M) → List DrawCmd
  | _, [] => []
  | start, node :: rest =>
    node.primMeshes.flatMap (meshCmds scenePrimMeshes pushConstOffset (start % 2 ^ 32)) ++
      nodeCmdsFrom scenePrimMeshes pushConstOffset (start + 1) rest

/-- A command list made of pushes each followed by its draw: the list is its pushes
interleaved with its draws, every push is a block of two 32-bit values (8 bytes) at
offset `pushConstOffset`. -/
def PushThenDraw (pushConstOffset : Nat) (cmds : List DrawCmd) : Prop :=
  cmds = ((pushesOf cmds).zip (drawsOf cmds)).flatMap
      (fun pd => [DrawCmd.pushConstants pushConstOffset 8 pd.1, pd.2]) ∧
    (pushesOf cmds).length = (drawsOf cmds).length ∧
    ∀ values ∈ pushesOf cmds, values.length = 2 ∧ ∀ x ∈ values, x < 2 ^ 32

/-- A small scene: a node with three primitive meshes, a node with none, a node with one. -/
def sampleNodes : List (GLTFNode Nat) :=
  [{ world := 10, primMeshes := [0, 1, 2] }, { world := 20, primMeshes := [] },
   { world := 30, primMeshes := [1] }]

/-- Three primitive meshes for `sampleNodes`; the last has material index `-1`. -/
def samplePrimMeshes : List GLTFPrimMesh :=
  [{ firstIndex := 0, indexCount := 6, vertexOffset := 0, materialIndex := 2 },
   { firstIndex := 6, indexCount := 3, vertexOffset := 4, materialIndex := 0 },
   { firstIndex := 9, indexCount := 12, vertexOffset := 7, materialIndex := -1 }]

/-! ## Mip chain (`GLTFScene::uploadImage`) -/

/-- Modelled from the spec: `vfs::max` of `Common/Utils.h`, which is not among the
sources; the larger of its two arguments. -/
protected def max (a b : Int) : Int := if a < b then b else a

/-- The level count of `uploadImage`:
`static_cast<uint32_t>(std::floor(std::log2(vfs::max(width, height)))) + 1`.
For an integer `n ≥ 1`, `std::floor(std::log2(n))` is the position of the highest set
bit of `n`, which is `Nat.log2 n`. -/
def mipLevels (width height : Int) : Nat :=
  Nat.log2 (vfs.max width height).toNat + 1

/-- Image layouts named in `uploadImage`. -/
inductive ImageLayout where
  | undefined
  | transferDstOptimal
  | transferSrcOptimal
  | shaderReadOnlyOptimal
deriving DecidableEq, Repr

/-- Access masks named in `uploadImage` (`none` is the mask `0`). -/
inductive AccessMask where
  | none
  | transferWrite
  | transferRead
  | shaderRead
deriving DecidableEq, Repr

/-- Pipeline stages named in `uploadImage`. -/
inductive PipelineStage where
  | topOfPipe
  | transfer
  | fragmentShader
deriving DecidableEq, Repr

/-- The fields of `VkImageMemoryBarrier` that `uploadImage` sets. -/
structure ImageMemoryBarrier where
  srcAccessMask : AccessMask
  dstAccessMask : AccessMask
  oldLayout : ImageLayout
  newLayout : ImageLayout
  baseMipLevel : Nat
  levelCount : Nat
deriving DecidableEq, Repr

/-- The fields of `VkImageBlit` that `uploadImage` sets; both regions start at the
origin, so each is given by its far corner `(x, y)`. -/
structure ImageBlit where
  srcMipLevel : Nat
  srcExtent : Int × Int
  dstMipLevel : Nat
  dstExtent : Int × Int
deriving DecidableEq, Repr

/-- The commands the mipmap loop of `uploadImage` records. -/
inductive TransferCmd where
  | pipelineBarrier (srcStage dstStage : PipelineStage) (barrier : ImageMemoryBarrier)
  | blitImage (srcLayout dstLayout : ImageLayout) (blit : ImageBlit)
deriving DecidableEq, Repr

/-- The variables the mipmap loop of `uploadImage` updates, and the commands recorded
into `blitCmdBuffer` so far. -/
structure MipLoopState where
  mipWidth : Int
  mipHeight : Int
  mipmapBarrier : ImageMemoryBarrier
  cmds : List TransferCmd
deriving DecidableEq, Repr

/-- One iteration of the mipmap loop of `uploadImage`, for the level `mip` (the loop
starts at `mip = 1`, so `mip - 1` does not wrap). -/
def mipLoopBody (mip : Nat) (st : MipLoopState) : MipLoopState :=
  match st with
  | { mipWidth := mipWidth, mipHeight := mipHeight, mipmapBarrier := mipmapBarrier,
      cmds := cmds } =>
    let barrier1 : ImageMemoryBarrier :=
      { mipmapBarrier with
        baseMipLevel := mip
        oldLayout := ImageLayout.undefined
        newLayout := ImageLayout.transferDstOptimal
        srcAccessMask := AccessMask.none
        dstAccessMask := AccessMask.transferWrite }
    let blit : ImageBlit :=
      { srcMipLevel := mip - 1
        srcExtent := (mipWidth, mipHeight)
        dstMipLevel := mip
        dstExtent := (if mipWidth > 1 then mipWidth >>> (1 : Nat) else 1,
                      if mipHeight > 1 then mipHeight >>> (1 : Nat) else 1) }
    let barrier2 : ImageMemoryBarrier :=
      { barrier1 with
        oldLayout := ImageLayout.transferDstOptimal
        newLayout := ImageLayout.transferSrcOptimal
        srcAccessMask := AccessMask.transferWrite
        dstAccessMask := AccessMask.transferRead }
    { mipWidth := if mipWidth > 1 then mipWidth >>> (1 : Nat) else mipWidth
      mipHeight := if mipHeight > 1 then mipHeight >>> (1 : Nat) else mipHeight
      mipmapBarrier := barrier2
      cmds := cmds ++
        [TransferCmd.pipelineBarrier PipelineStage.transfer PipelineStage.transfer barrier1,
         TransferCmd.blitImage ImageLayout.transferSrcOptimal ImageLayout.transferDstOptimal blit,
         TransferCmd.pipelineBarrier PipelineStage.transfer PipelineStage.transfer barrier2] }

/-- The mipmap loop of `uploadImage`: `for (uint32_t mip = ...; mip < mipLevels; ++mip)`,
entered with the current value of `mip`. -/
def mipLoop (mipLevels : Nat) (mip : Nat) (st : MipLoopState) : MipLoopState :=
  if mip < mipLevels then mipLoop mipLevels (mip + 1) (mipLoopBody mip st) else st
termination_by mipLevels - mip

/-- The commands `uploadImage` records into `blitCmdBuffer` for a texture of the given
size: the mipmap loop from `mip = 1`, with `mipmapBarrier` zero-initialised but for
`levelCount = 1`. -/
def blitCmds (width height : Int) : List TransferCmd :=
  (mipLoop (mipLevels width height) 1
    { mipWidth := width
      mipHeight := height
      mipmapBarrier :=
        { srcAccessMask := AccessMask.none
          dstAccessMask := AccessMask.none
          oldLayout := ImageLayout.undefined
          newLayout := ImageLayout.undefined
          baseMipLevel := 0
          levelCount := 1 }
      cmds := [] }).cmds

/-- The blits of a command list, in order. -/
def blitsOf (cmds : List TransferCmd) : List ImageBlit :=
  cmds.filterMap fun c => match c with
    | TransferCmd.blitImage _ _ blit => some blit
    | _ => none

/-- The blits expected from `count` iterations of the mipmap loop entered at level `mip`
with the extent `(w, h)`. -/
def expectedBlits : Nat → Nat → Int → Int → List ImageBlit
  | 0, _, _, _ => []
  | count + 1, mip, w, h =>
    { srcMipLevel := mip - 1
      srcExtent := (w, h)
      dstMipLevel := mip
      dstExtent := (if w > 1 then w >>> (1 : Nat) else 1, if h > 1 then h >>> (1 : Nat) else 1) } ::
    expectedBlits count (mip + 1) (if w > 1 then w >>> (1 : Nat) else w) (if h > 1 then h >>> (1 : Nat) else h)

/-! ## OBJ mesh decoder (`Common/AssetLoader.cpp`)

Scalars (`float`) are the elements of an arbitrary type `F` carrying the operations the
code uses; `glm::normalize` is a parameter `normalize`. -/

section AssetLoader

variable {F : Type}

/-- The vector `glm::vec3`. -/
structure vec3 (F : Type) where
  x : F
  y : F
  z : F
deriving DecidableEq, Repr

/-- The vector `glm::vec2`. -/
structure vec2 (F : Type) where
  x : F
  y : F
deriving DecidableEq, Repr

/-- The vector `glm::vec3(0.0f)`, also the value of a value-initialised `glm::vec3`. -/
def vec3.zero [Zero F] : vec3 F := { x := 0, y := 0, z := 0 }

/-- The vector `glm::vec2(0.0f, 0.0f)`. -/
def vec2.zero [Zero F] : vec2 F := { x := 0, y := 0 }

/-- Componentwise `operator+` of `glm::vec3`. -/
def vec3.add [Add F] (a b : vec3 F) : vec3 F := { x := a.x + b.x, y := a.y + b.y, z := a.z + b.z }

/-- Componentwise `operator-` of `glm::vec3`. -/
def vec3.sub [Sub F] (a b : vec3 F) : vec3 F := { x := a.x - b.x, y := a.y - b.y, z := a.z - b.z }

/-- The product `glm::cross`. -/
def cross [Sub F] [Mul F] (a b : vec3 F) : vec3 F :=
  { x := a.y * b.z - b.y * a.z
    y := a.z * b.x - b.z * a.x
    z := a.x * b.y - b.x * a.y }

/-- The test `CheckTriangle`. -/
def CheckTriangle [Sub F] [Mul F] [DecidableEq F] (v1 v2 v3 : vec3 F) : Bool :=
  decide ((v2.x - v1.x) * (v3.y - v2.y) ≠ (v3.x - v2.x) * (v2.y - v1.y))

/-- The function `CalculateNormal`. -/
def CalculateNormal [Zero F] [Sub F] [Mul F] [DecidableEq F] (normalize : vec3 F → vec3 F)
    (v1 v2 v3 : vec3 F) : vec3 F :=
  if ¬ CheckTriangle v1 v2 v3 then vec3.zero
  else
    let edge1 := vec3.sub v2 v1
    let edge2 := vec3.sub v3 v2
    normalize (cross edge1 edge2)

/-- The argument with which `CalculateNormal` calls `glm::normalize`, or `none` when it
returns without calling it. -/
def CalculateNormal.normalizeCall [Sub F] [Mul F] [DecidableEq F] (v1 v2 v3 : vec3 F) :
    Option (vec3 F) :=
  if ¬ CheckTriangle v1 v2 v3 then none
  else
    let edge1 := vec3.sub v2 v1
    let edge2 := vec3.sub v3 v2
    some (cross edge1 edge2)

/-- The record `tinyobj::index_t`. -/
structure index_t where
  vertex_index : Int
  normal_index : Int
  texcoord_index : Int
deriving DecidableEq, Repr

/-- The fields of `tinyobj::mesh_t` the loader reads. -/
structure mesh_t where
  indices : List index_t
  smoothing_group_ids : List Nat
deriving DecidableEq, Repr

/-- The fields of `tinyobj::shape_t` the loader reads. -/
structure shape_t where
  mesh : mesh_t
deriving DecidableEq, Repr

/-- The fields of `tinyobj::attrib_t` the loader reads. -/
structure attrib_t (F : Type) where
  vertices : List F
  normals : List F
  texcoords : List F
deriving DecidableEq, Repr

/-- The loop of `HasSmoothingGroup` over the smoothing group ids. -/
def HasSmoothingGroup.loop : List Nat → Bool
  | [] => false
  | id :: rest => if id > 0 then true else HasSmoothingGroup.loop rest

/-- The function `HasSmoothingGroup`. -/
def HasSmoothingGroup (shape : shape_t) : Bool :=
  HasSmoothingGroup.loop shape.mesh.smoothing_group_ids

/-- The element `xs[i]` of a `std::vector` for an `int` index `i`; `none` when the access
is out of bounds. -/
def readAt (xs : List F) (i : Int) : Option F :=
  if i < 0 then none else xs[i.toNat]?

/-- The vector `glm::vec3(xs[3 * f], xs[3 * f + 1], xs[3 * f + 2])`. -/
def readVec3 (xs : List F) (f : Int) : Option (vec3 F) :=
  match readAt xs (3 * f), readAt xs (3 * f + 1), readAt xs (3 * f + 2) with
  | some x, some y, some z => some { x := x, y := y, z := z }
  | _, _, _ => none

/-- The faces of a mesh: the triples `indices[3 * faceIndex + 0 .. 2]` for
`faceIndex < indices.size() / 3`, in order. -/
def meshFaces : List index_t → List (index_t × index_t × index_t)
  | idx0 :: idx1 :: idx2 :: rest => (idx0, idx1, idx2) :: meshFaces rest
  | _ => []

/-- The map `std::map<int, glm::vec3>`, as a list of entries with distinct keys. -/
abbrev NormalMap (F : Type) := List (Int × vec3 F)

/-- The lookup `find` of the map. -/
def NormalMap.find : NormalMap F → Int → Option (vec3 F)
  | [], _ => none
  | (k, v) :: rest, key => if k = key then some v else NormalMap.find rest key

/-- The body of the corner loop of `ComputeSmoothingNormals`: a new entry `normal` when the
key is absent, `+= normal` on the entry otherwise. -/
def NormalMap.accumulate [Add F] (m : NormalMap F) (key : Int) (normal : vec3 F) :
    NormalMap F :=
  match m.find key with
  | none => m ++ [(key, normal)]
  | some _ => m.map fun p => if p.1 = key then (p.1, vec3.add p.2 normal) else p

/-- One iteration of the face loop of `ComputeSmoothingNormals`. -/
def ComputeSmoothingNormals.face [Zero F] [Add F] [Sub F] [Mul F] [DecidableEq F]
    (normalize : vec3 F → vec3 F) (vertices : List F) (smoothVertexNormals : NormalMap F)
    (face : index_t × index_t × index_t) : Option (NormalMap F) :=
  let f0 := face.1.vertex_index
  let f1 := face.2.1.vertex_index
  let f2 := face.2.2.vertex_index
  if ¬ (f0 ≥ 0 ∧ f1 ≥ 0 ∧ f2 ≥ 0) then none
  else
    match readVec3 vertices f0, readVec3 vertices f1, readVec3 vertices f2 with
    | some position0, some position1, some position2 =>
      let normal := CalculateNormal normalize position0 position1 position2
      some (((smoothVertexNormals.accumulate f0 normal).accumulate f1 normal).accumulate f2 normal)
    | _, _, _ => none

/-- The face loop of `ComputeSmoothingNormals`. -/
def ComputeSmoothingNormals.faces [Zero F] [Add F] [Sub F] [Mul F] [DecidableEq F]
    (normalize : vec3 F → vec3 F) (vertices : List F) :
    NormalMap F → List (index_t × index_t × index_t) → Option (NormalMap F)
  | m, [] => some m
  | m, face :: rest =>
    match ComputeSmoothingNormals.face normalize vertices m face with
    | none => none
    | some m1 => ComputeSmoothingNormals.faces normalize vertices m1 rest

/-- The function `ComputeSmoothingNormals`: the map is cleared, every face adds its normal
at its three vertex indices, then every entry is normalized. -/
def ComputeSmoothingNormals [Zero F] [Add F] [Sub F] [Mul F] [DecidableEq F]
    (normalize : vec3 F → vec3 F) (attrib : attrib_t F) (shape : shape_t) :
    Option (NormalMap F) :=
  (ComputeSmoothingNormals.faces normalize attrib.vertices [] (meshFaces shape.mesh.indices)).map
    fun m => m.map fun p => (p.1, normalize p.2)

/-- The tests `format & VertexFormat::Position3`, `format & VertexFormat::Normal3` and
`format & VertexFormat::TexCoord2` of a vertex format (the enumeration is declared in a
header that is not among the sources). -/
structure VertexFormat where
  Position3 : Bool
  Normal3 : Bool
  TexCoord2 : Bool
deriving DecidableEq, Repr

/-- The arrays `position`, `normal` and `texCoord` of one face in `LoadObjFile`. -/
structure FaceArrays (F : Type) where
  position : vec3 F × vec3 F × vec3 F
  normal : vec3 F × vec3 F × vec3 F
  texCoord : vec2 F × vec2 F × vec2 F
deriving DecidableEq, Repr

/-- The `Position3` block of a face in `LoadObjFile`. -/
def LoadObjFile.positions [Zero F] (attrib : attrib_t F) (format : VertexFormat)
    (idx0 idx1 idx2 : index_t) : Option (vec3 F × vec3 F × vec3 F) :=
  if format.Position3 then
    let f0 := idx0.vertex_index
    let f1 := idx1.vertex_index
    let f2 := idx2.vertex_index
    if ¬ (f0 ≥ 0 ∧ f1 ≥ 0 ∧ f2 ≥ 0) then none
    else
      match readVec3 attrib.vertices f0, readVec3 attrib.vertices f1,
          readVec3 attrib.vertices f2 with
      | some position0, some position1, some position2 => some (position0, position1, position2)
      | _, _, _ => none
  else some (vec3.zero, vec3.zero, vec3.zero)

/-- The value `smoothVertexNormals[f]` read in `LoadObjFile` (`operator[]` yields a
value-initialised vector for an absent key). -/
def NormalMap.get [Zero F] (m : NormalMap F) (f : Int) : vec3 F :=
  (m.find f).getD vec3.zero

/-- The `Normal3` block of a face in `LoadObjFile`. -/
def LoadObjFile.normals [Zero F] [Sub F] [Mul F] [DecidableEq F]
    (normalize : vec3 F → vec3 F) (attrib : attrib_t F) (smoothVertexNormals : NormalMap F)
    (format : VertexFormat) (idx0 idx1 idx2 : index_t)
    (position : vec3 F × vec3 F × vec3 F) : Option (vec3 F × vec3 F × vec3 F) :=
  if format.Normal3 then
    let invalidNormal : Bool :=
      if attrib.normals.length > 0 then
        decide (idx0.normal_index < 0 ∨ idx1.normal_index < 0 ∨ idx2.normal_index < 0)
      else true
    if invalidNormal then
      if ¬ smoothVertexNormals.isEmpty then
        let f0 := idx0.vertex_index
        let f1 := idx1.vertex_index
        let f2 := idx2.vertex_index
        if f0 ≥ 0 ∧ f1 ≥ 0 ∧ f2 ≥ 0 then
          some (smoothVertexNormals.get f0, smoothVertexNormals.get f1, smoothVertexNormals.get f2)
        else some (vec3.zero, vec3.zero, vec3.zero)
      else
        let normal0 := CalculateNormal normalize position.1 position.2.1 position.2.2
        some (normal0, normal0, normal0)
    else
      match readVec3 attrib.normals idx0.normal_index, readVec3 attrib.normals idx1.normal_index,
          readVec3 attrib.normals idx2.normal_index with
      | some normal0, some normal1, some normal2 => some (normal0, normal1, normal2)
      | _, _, _ => none
  else some (vec3.zero, vec3.zero, vec3.zero)

/-- The texture coordinate `glm::vec2(texcoords[2 * f], 1.0f - texcoords[2 * f + 1])`. -/
def readTexCoord [One F] [Sub F] (texcoords : List F) (f : Int) : Option (vec2 F) :=
  match readAt texcoords (2 * f), readAt texcoords (2 * f + 1) with
  | some u, some v => some { x := u, y := 1 - v }
  | _, _ => none

/-- The `TexCoord2` block of a face in `LoadObjFile`. -/
def LoadObjFile.texCoords [Zero F] [One F] [Sub F] (attrib : attrib_t F) (format : VertexFormat)
    (idx0 idx1 idx2 : index_t) : Option (vec2 F × vec2 F × vec2 F) :=
  if format.TexCoord2 then
    if attrib.texcoords.length > 0 then
      let f0 := idx0.texcoord_index
      let f1 := idx1.texcoord_index
      let f2 := idx2.texcoord_index
      if f0 < 0 ∨ f1 < 0 ∨ f2 < 0 then some (vec2.zero, vec2.zero, vec2.zero)
      else
        match readTexCoord attrib.texcoords f0, readTexCoord attrib.texcoords f1,
            readTexCoord attrib.texcoords f2 with
        | some texCoord0, some texCoord1, some texCoord2 => some (texCoord0, texCoord1, texCoord2)
        | _, _, _ => none
    else some (vec2.zero, vec2.zero, vec2.zero)
  else some (vec2.zero, vec2.zero, vec2.zero)

/-- The three attribute blocks of a face in `LoadObjFile`, before the face is emitted. -/
def LoadObjFile.faceArrays [Zero F] [One F] [Sub F] [Mul F] [DecidableEq F]
    (normalize : vec3 F → vec3 F) (attrib : attrib_t F) (smoothVertexNormals : NormalMap F)
    (format : VertexFormat) (face : index_t × index_t × index_t) : Option (FaceArrays F) :=
  match LoadObjFile.positions attrib format face.1 face.2.1 face.2.2 with
  | none => none
  | some position =>
    match LoadObjFile.normals normalize attrib smoothVertexNormals format face.1 face.2.1
        face.2.2 position with
    | none => none
    | some normal =>
      match LoadObjFile.texCoords attrib format face.1 face.2.1 face.2.2 with
      | none => none
      | some texCoord => some { position := position, normal := normal, texCoord := texCoord }

end AssetLoader

section LoadObjFile

variable {F : Type}

/-- The function `std::min`. -/
def std.min [LT F] [∀ a b : F, Decidable (a < b)] (a b : F) : F := if b < a then b else a

/-- The function `std::max`. -/
def std.max [LT F] [∀ a b : F, Decidable (a < b)] (a b : F) : F := if a < b then b else a

/-- The four output parameters of `LoadObjFile`. -/
structure ObjBuffers (F : Type) where
  vertices : List F
  indices : List Nat
  minCorner : vec3 F
  maxCorner : vec3 F
deriving DecidableEq, Repr

/-- One iteration of the emission loop of `LoadObjFile` (`for (unsigned int k ...)`): the
position, which also widens the bounding box, then the normal, then the texture
coordinate, each only if the format has it. The index buffer is not written. -/
def LoadObjFile.emitCorner [LT F] [∀ a b : F, Decidable (a < b)] (format : VertexFormat)
    (out : ObjBuffers F) (position normal : vec3 F) (texCoord : vec2 F) : ObjBuffers F :=
  let out1 : ObjBuffers F :=
    if format.Position3 then
      { vertices := out.vertices ++ [position.x, position.y, position.z]
        indices := out.indices
        minCorner :=
          { x := std.min position.x out.minCorner.x
            y := std.min position.y out.minCorner.y
            z := std.min position.z out.minCorner.z }
        maxCorner :=
          { x := std.max position.x out.maxCorner.x
            y := std.max position.y out.maxCorner.y
            z := std.max position.z out.maxCorner.z } }
    else out
  let out2 : ObjBuffers F :=
    if format.Normal3 then
      { out1 with vertices := out1.vertices ++ [normal.x, normal.y, normal.z] }
    else out1
  if format.TexCoord2 then
    { out2 with vertices := out2.vertices ++ [texCoord.x, texCoord.y] }
  else out2

/-- The emission loop of `LoadObjFile` for one face: corners `0`, `1`, `2` in order. -/
def LoadObjFile.emitFace [LT F] [∀ a b : F, Decidable (a < b)] (format : VertexFormat)
    (out : ObjBuffers F) (arrays : FaceArrays F) : ObjBuffers F :=
  let out0 := LoadObjFile.emitCorner format out arrays.position.1 arrays.normal.1
    arrays.texCoord.1
  let out1 := LoadObjFile.emitCorner format out0 arrays.position.2.1 arrays.normal.2.1
    arrays.texCoord.2.1
  LoadObjFile.emitCorner format out1 arrays.position.2.2 arrays.normal.2.2 arrays.texCoord.2.2

/-- The face loop of `LoadObjFile` for one shape. -/
def LoadObjFile.faces [Zero F] [One F] [Sub F] [Mul F] [DecidableEq F] [LT F]
    [∀ a b : F, Decidable (a < b)] (normalize : vec3 F → vec3 F) (attrib : attrib_t F)
    (smoothVertexNormals : NormalMap F) (format : VertexFormat) :
    ObjBuffers F → List (index_t × index_t × index_t) → Option (ObjBuffers F)
  | out, [] => some out
  | out, face :: rest =>
    match LoadObjFile.faceArrays normalize attrib smoothVertexNormals format face with
    | none => none
    | some arrays =>
      LoadObjFile.faces normalize attrib smoothVertexNormals format
        (LoadObjFile.emitFace format out arrays) rest

/-- The map `smoothVertexNormals` of a shape in `LoadObjFile`: empty unless the shape has
a smoothing group. -/
def LoadObjFile.smoothVertexNormals [Zero F] [Add F] [Sub F] [Mul F] [DecidableEq F]
    (normalize : vec3 F → vec3 F) (attrib : attrib_t F) (shape : shape_t) :
    Option (NormalMap F) :=
  if HasSmoothingGroup shape then ComputeSmoothingNormals normalize attrib shape else some []

/-- The body of the shape loop of `LoadObjFile`. -/
def LoadObjFile.shape [Zero F] [One F] [Add F] [Sub F] [Mul F] [DecidableEq F] [LT F]
    [∀ a b : F, Decidable (a < b)] (normalize : vec3 F → vec3 F) (attrib : attrib_t F)
    (format : VertexFormat) (out : ObjBuffers F) (shape : shape_t) : Option (ObjBuffers F) :=
  match LoadObjFile.smoothVertexNormals normalize attrib shape with
  | none => none
  | some smoothVertexNormals =>
    LoadObjFile.faces normalize attrib smoothVertexNormals format out
      (meshFaces shape.mesh.indices)

/-- The shape loop of `LoadObjFile`. -/
def LoadObjFile.shapes [Zero F] [One F] [Add F] [Sub F] [Mul F] [DecidableEq F] [LT F]
    [∀ a b : F, Decidable (a < b)] (normalize : vec3 F → vec3 F) (attrib : attrib_t F)
    (format : VertexFormat) : ObjBuffers F → List shape_t → Option (ObjBuffers F)
  | out, [] => some out
  | out, shape :: rest =>
    match LoadObjFile.shape normalize attrib format out shape with
    | none => none
    | some out1 => LoadObjFile.shapes normalize attrib format out1 rest

/-- The function `AssetLoader::LoadObjFile`. `parsed` is what `tinyobj::LoadObj` produced
(`none` when it reports failure), `out` the output parameters as the caller passed them,
`floatMax` and `floatMin` the values `std::numeric_limits<float>::max()` and
`std::numeric_limits<float>::min()`. The result is the returned flag with the output
parameters, or `none` when an access is out of bounds or an assertion fails. -/
def LoadObjFile [Zero F] [One F] [Add F] [Sub F] [Mul F] [DecidableEq F] [LT F]
    [∀ a b : F, Decidable (a < b)] (normalize : vec3 F → vec3 F) (floatMax floatMin : F)
    (parsed : Option (attrib_t F × List shape_t)) (out : ObjBuffers F)
    (format : VertexFormat) : Option (Bool × ObjBuffers F) :=
  match parsed with
  | none => some (false, out)
  | some (attrib, shapes) =>
    if shapes.isEmpty then some (false, out)
    else
      (LoadObjFile.shapes normalize attrib format
        { out with
          minCorner := { x := floatMax, y := floatMax, z := floatMax }
          maxCorner := { x := floatMin, y := floatMin, z := floatMin } }
        shapes).map fun out1 => (true, out1)

end LoadObjFile

/-! ### Statement vocabulary for the decoder -/

section AssetLoaderSpec

variable {F : Type}

/-- Three points are collinear (coincident points included): the cross product of
`v2 - v1` and `v3 - v1` vanishes. -/
def Collinear [Zero F] [Sub F] [Mul F] (v1 v2 v3 : vec3 F) : Prop :=
  cross (vec3.sub v2 v1) (vec3.sub v3 v1) = vec3.zero

/-- The floats the emission loop appends for one corner. -/
def cornerFloats (format : VertexFormat) (position normal : vec3 F) (texCoord : vec2 F) :
    List F :=
  (if format.Position3 then [position.x, position.y, position.z] else []) ++
  (if format.Normal3 then [normal.x, normal.y, normal.z] else []) ++
  (if format.TexCoord2 then [texCoord.x, texCoord.y] else [])

/-- A stand-in for `glm::normalize` on integer vectors: exact on the vectors that are
parallel to a coordinate axis, which are the only ones it is evaluated on below; other
vectors are left unchanged. -/
def normalizeAxis (v : vec3 Int) : vec3 Int :=
  if v.x = 0 ∧ v.y = 0 then { x := 0, y := 0, z := Int.sign v.z }
  else if v.x = 0 ∧ v.z = 0 then { x := 0, y := Int.sign v.y, z := 0 }
  else if v.y = 0 ∧ v.z = 0 then { x := Int.sign v.x, y := 0, z := 0 }
  else v

end AssetLoaderSpec

section SmoothingSpec

variable {F : Type}

/-- The geometric normal of a face: `CalculateNormal` of the positions of its three
vertex indices (`none` when a position is out of range). -/
def faceNormal [Zero F] [Sub F] [Mul F] [DecidableEq F] (normalize : vec3 F → vec3 F)
    (vertices : List F) (face : index_t × index_t × index_t) : Option (vec3 F) :=
  match readVec3 vertices face.1.vertex_index, readVec3 vertices face.2.1.vertex_index,
      readVec3 vertices face.2.2.vertex_index with
  | some position0, some position1, some position2 =>
    some (CalculateNormal normalize position0 position1 position2)
  | _, _, _ => none

/-- The geometric normals of the face corners that reference the vertex index `v`, in
face order then corner order (a face contributes once per corner that references `v`). -/
def cornerNormals [Zero F] [Sub F] [Mul F] [DecidableEq F] (normalize : vec3 F → vec3 F)
    (vertices : List F) (faces : List (index_t × index_t × index_t)) (v : Int) :
    List (vec3 F) :=
  faces.flatMap fun face =>
    match faceNormal normalize vertices face with
    | none => []
    | some normal =>
      ([face.1.vertex_index, face.2.1.vertex_index, face.2.2.vertex_index].filter
        fun f => decide (f = v)).map fun _ => normal

/-- The sum of a list of vectors, added from the left in list order; `none` for the
empty list. -/
def sumInOrder [Add F] : List (vec3 F) → Option (vec3 F)
  | [] => none
  | first :: rest => some (rest.foldl vec3.add first)

/-- Every vertex index of every face is non-negative and its three coordinates lie
inside `vertices`. -/
def VertexIndicesInRange (vertices : List F) (faces : List (index_t × index_t × index_t)) :
    Prop :=
  ∀ face ∈ faces, ∀ f ∈ [face.1.vertex_index, face.2.1.vertex_index, face.2.2.vertex_index],
    0 ≤ f ∧ 3 * f + 2 < vertices.length

end SmoothingSpec

/-! ### Sample OBJ data -/

/-- Seven vertices in the plane `z = 0`; no normals; three texture coordinates. -/
def sampleAttrib : attrib_t Int :=
  { vertices := [0, 0, 0,  1, 0, 0,  0, 1, 0,  0, -1, 0,  -1, 0, 0,  0, -2, 0,  -2, 0, 0]
    normals := []
    texcoords := [2, 5,  7, 3,  4, 9] }

/-- A vertex reference without normal, with texture coordinate `t`. -/
def sampleIndex (v t : Int) : index_t :=
  { vertex_index := v, normal_index := -1, texcoord_index := t }

/-- Three triangles that share vertex `0`: the first is counter-clockwise (normal `+z`)
and has smoothing group id `0`, the other two are clockwise (normal `-z`) and are in
smoothing group `1`. -/
def sampleShape : shape_t :=
  { mesh :=
    { indices := [sampleIndex 0 0, sampleIndex 1 1, sampleIndex 2 2,
                  sampleIndex 0 0, sampleIndex 3 1, sampleIndex 4 2,
                  sampleIndex 0 0, sampleIndex 5 1, sampleIndex 6 2]
      smoothing_group_ids := [0, 1, 1] } }

/-- The triangles of `sampleShape` with every smoothing group id `0`. -/
def sampleFlatShape : shape_t :=
  { mesh := { sampleShape.mesh with smoothing_group_ids := [0, 0, 0] } }

/-- The first triangle of `sampleShape`, whose smoothing group id is `0`. -/
def sampleFace : index_t × index_t × index_t :=
  (sampleIndex 0 0, sampleIndex 1 1, sampleIndex 2 2)

/-- The first triangle with the texture coordinate of its second corner missing. -/
def sampleFaceNoTexCoord : index_t × index_t × index_t :=
  (sampleIndex 0 0, sampleIndex 1 (-1), sampleIndex 2 2)

/-- Output parameters as a caller may pass them: empty buffers, zero corners. -/
def emptyBuffers : ObjBuffers Int :=
  { vertices := [], indices := [], minCorner := vec3.zero, maxCorner := vec3.zero }

/-! ### Statement vocabulary for the vertex and index buffers -/

section BuffersSpec

variable {F : Type}

/-- The number of floats of one vertex in a format:
`3 * [Position3] + 3 * [Normal3] + 2 * [TexCoord2]`. -/
def floatsPerVertex (format : VertexFormat) : Nat :=
  (if format.Position3 then 3 else 0) + (if format.Normal3 then 3 else 0) +
  (if format.TexCoord2 then 2 else 0)

/-- The floats expected for one face: its three corners in order, each laid out as
position, normal, texture coordinate. -/
def faceFloats (format : VertexFormat) (arrays : FaceArrays F) : List F :=
  cornerFloats format arrays.position.1 arrays.normal.1 arrays.texCoord.1 ++
  cornerFloats format arrays.position.2.1 arrays.normal.2.1 arrays.texCoord.2.1 ++
  cornerFloats format arrays.position.2.2 arrays.normal.2.2 arrays.texCoord.2.2

/-- The floats expected for a list of faces processed with the smoothing map `m`: those of
each face in order. -/
def facesFloats [Zero F] [One F] [Sub F] [Mul F] [DecidableEq F]
    (normalize : vec3 F → vec3 F) (attrib : attrib_t F) (m : NormalMap F)
    (format : VertexFormat) (faces : List (index_t × index_t × index_t)) : List F :=
  faces.flatMap fun face =>
    match LoadObjFile.faceArrays normalize attrib m format face with
    | none => []
    | some arrays => faceFloats format arrays

/-- The floats expected for one shape: those of its faces in order, processed with the
shape's smoothing map. -/
def shapeFloats [Zero F] [One F] [Add F] [Sub F] [Mul F] [DecidableEq F]
    (normalize : vec3 F → vec3 F) (attrib : attrib_t F) (format : VertexFormat)
    (shape : shape_t) : List F :=
  match LoadObjFile.smoothVertexNormals normalize attrib shape with
  | none => []
  | some m => facesFloats normalize attrib m format (meshFaces shape.mesh.indices)

/-- The number of triangles of a list of shapes: `indices.size() / 3` summed over the
shapes. -/
def triangleCount (shapes : List shape_t) : Nat :=
  (shapes.map fun shape => shape.mesh.indices.length / 3).sum

/-- The normal and texcoord references of the three corners of a face are either negative
(absent) or inside `normals` and `texcoords`. -/
def AttributeIndicesInRange (attrib : attrib_t F) (face : index_t × index_t × index_t) :
    Prop :=
  ∀ idx ∈ [face.1, face.2.1, face.2.2],
    (idx.normal_index < 0 ∨ 3 * idx.normal_index + 2 < attrib.normals.length) ∧
    (idx.texcoord_index < 0 ∨ 2 * idx.texcoord_index + 1 < attrib.texcoords.length)

/-- A parse result all of whose references are in range: in every shape the vertex
indices are inside `vertices` and the normal and texcoord indices are absent or in
range. -/
def ShapesInRange (attrib : attrib_t F) (shapes : List shape_t) : Prop :=
  ∀ shape ∈ shapes,
    VertexIndicesInRange attrib.vertices (meshFaces shape.mesh.indices) ∧
    ∀ face ∈ meshFaces shape.mesh.indices, AttributeIndicesInRange attrib face

end BuffersSpec

/-- A triangle all of whose coordinates are negative. -/
def negativeAttrib : attrib_t Int :=
  { vertices := [-1, -1, -1,  -2, -1, -1,  -1, -2, -1]
    normals := []
    texcoords := [] }

/-- The shape made of the one triangle of `negativeAttrib`. -/
def negativeShape : shape_t :=
  { mesh :=
    { indices := [sampleIndex 0 (-1), sampleIndex 1 (-1), sampleIndex 2 (-1)]
      smoothing_group_ids := [0] } }

/-! ## Scene upload (`GLTFScene::initialize` and the upload functions)

The effects on the device are recorded as a list of events, oldest first. The result of
the `k`-th fence wait (`Fence::waitForAllFences`) is given by a function `waitOk`. Sizes
and contents of the copied regions are left out. -/

/-- The device-local buffers of a scene. -/
inductive BufferName where
  | position
  | normal
  | texCoord
  | tangent
  | index
  | matrix
  | material
deriving DecidableEq, Repr

/-- The upload functions `GLTFScene::initialize` calls. -/
inductive UploadStep where
  | uploadBuffer
  | uploadImage
  | uploadMaterialBuffer
  | uploadMatrixBuffer
deriving DecidableEq, Repr

/-- The three command buffers `uploadImage` records for one texture. -/
inductive ImageStage where
  | copy
  | blit
  | finalTransition
deriving DecidableEq, Repr

/-- The events of a scene upload. `call` marks the entry into an upload function. -/
inductive UploadEvent where
  | createBuffer (buffer : BufferName)
  | call (step : UploadStep)
  | copyBuffer (dst : BufferName)
  | recordImage (image : Nat) (stage : ImageStage)
  | submitCmdBuffer (cmdBuffers : Nat) (fence : Nat)
  | waitForAllFences (fence : Nat) (ok : Bool)
  | addTexture (image : Nat)
  | releaseSourceData
deriving DecidableEq, Repr

/-- The number of fences created so far and the events so far. -/
structure UploadState where
  nextFence : Nat
  events : List UploadEvent
deriving DecidableEq, Repr

/-- The sequence `Fence fence(_device, 1, 0); _queue->submitCmdBuffer({ cmdBuffer }, &fence);
fence.waitForAllFences(UINT64_MAX)`: a new fence, one command buffer submitted with it,
and the result of the wait. -/
def submitAndWait (waitOk : Nat → Bool) (st : UploadState) : Bool × UploadState :=
  (waitOk st.nextFence,
   { nextFence := st.nextFence + 1
     events := st.events ++
       [UploadEvent.submitCmdBuffer 1 st.nextFence,
        UploadEvent.waitForAllFences st.nextFence (waitOk st.nextFence)] })

/-- The function `GLTFScene::uploadBuffer`. -/
def GLTFScene.uploadBuffer (waitOk : Nat → Bool) (st : UploadState) : Bool × UploadState :=
  let st1 : UploadState :=
    { st with events := st.events ++
        [UploadEvent.call UploadStep.uploadBuffer,
         UploadEvent.copyBuffer BufferName.position, UploadEvent.copyBuffer BufferName.normal,
         UploadEvent.copyBuffer BufferName.texCoord, UploadEvent.copyBuffer BufferName.tangent,
         UploadEvent.copyBuffer BufferName.index] }
  match submitAndWait waitOk st1 with
  | (ok, st2) => if ¬ ok then (false, st2) else (true, st2)

/-- The body of the texture loop of `GLTFScene::uploadImage` for the image `i`: three
command buffers, each submitted with its own fence; the results of the three waits are
discarded. -/
def GLTFScene.uploadImage.texture (waitOk : Nat → Bool) (st : UploadState) (i : Nat) :
    UploadState :=
  let st1 := (submitAndWait waitOk
    { st with events := st.events ++ [UploadEvent.recordImage i ImageStage.copy] }).2
  let st2 := (submitAndWait waitOk
    { st1 with events := st1.events ++ [UploadEvent.recordImage i ImageStage.blit] }).2
  let st3 := (submitAndWait waitOk
    { st2 with events := st2.events ++
        [UploadEvent.recordImage i ImageStage.finalTransition] }).2
  { st3 with events := st3.events ++ [UploadEvent.addTexture i] }

/-- The function `GLTFScene::uploadImage` for `numImages` images:
`for (size_t i = 0; i < _images.size(); ++i)`, then `return true`. -/
def GLTFScene.uploadImage (waitOk : Nat → Bool) (numImages : Nat) (st : UploadState) :
    Bool × UploadState :=
  let st1 : UploadState :=
    { st with events := st.events ++ [UploadEvent.call UploadStep.uploadImage] }
  (true, (List.range numImages).foldl (GLTFScene.uploadImage.texture waitOk) st1)

/-- The function `GLTFScene::uploadMaterialBuffer`. -/
def GLTFScene.uploadMaterialBuffer (waitOk : Nat → Bool) (st : UploadState) :
    Bool × UploadState :=
  let st1 : UploadState :=
    { st with events := st.events ++
        [UploadEvent.call UploadStep.uploadMaterialBuffer,
         UploadEvent.copyBuffer BufferName.material] }
  match submitAndWait waitOk st1 with
  | (ok, st2) => if ¬ ok then (false, st2) else (true, st2)

/-- The function `GLTFScene::uploadMatrixBuffer`. -/
def GLTFScene.uploadMatrixBuffer (waitOk : Nat → Bool) (st : UploadState) :
    Bool × UploadState :=
  let st1 : UploadState :=
    { st with events := st.events ++
        [UploadEvent.call UploadStep.uploadMatrixBuffer,
         UploadEvent.copyBuffer BufferName.matrix] }
  match submitAndWait waitOk st1 with
  | (ok, st2) => if ¬ ok then (false, st2) else (true, st2)

/-- The function `GLTFScene::initialize`. `loadSceneOk` is the result of `loadScene`
(which is not among the sources). After a successful `loadScene` the seven buffers are
created, the four upload functions are called as statements, their results unused, the
source data is released and `true` is returned. -/
def GLTFScene.initialize (waitOk : Nat → Bool) (loadSceneOk : Bool) (numImages : Nat)
    (st : UploadState) : Bool × UploadState :=
  if ¬ loadSceneOk then (false, st)
  else
    let st1 : UploadState :=
      { st with events := st.events ++
          [UploadEvent.createBuffer BufferName.position,
           UploadEvent.createBuffer BufferName.normal,
           UploadEvent.createBuffer BufferName.texCoord,
           UploadEvent.createBuffer BufferName.tangent,
           UploadEvent.createBuffer BufferName.index,
           UploadEvent.createBuffer BufferName.matrix,
           UploadEvent.createBuffer BufferName.material] }
    let st2 := (GLTFScene.uploadBuffer waitOk st1).2
    let st3 := (GLTFScene.uploadImage waitOk numImages st2).2
    let st4 := (GLTFScene.uploadMaterialBuffer waitOk st3).2
    let st5 := (GLTFScene.uploadMatrixBuffer waitOk st4).2
    (true, { st5 with events := st5.events ++ [UploadEvent.releaseSourceData] })

/-- The submissions among a list of events: number of command buffers and fence. -/
def submitsOf (events : List UploadEvent) : List (Nat × Nat) :=
  events.filterMap fun e => match e with
    | UploadEvent.submitCmdBuffer cmdBuffers fence => some (cmdBuffers, fence)
    | _ => none

/-- The upload functions entered among a list of events. -/
def callsOf (events : List UploadEvent) : List UploadStep :=
  events.filterMap fun e => match e with
    | UploadEvent.call step => some step
    | _ => none

/-- The state before any upload. -/
def UploadState.initial : UploadState := { nextFence := 0, events := [] }

/-! ## Camera (`VFS/Camera.cpp`)

Scalars (`float`; the `double` cursor coordinates share the type) are the elements of a
type `F` carrying the operations the code uses, with no law assumed of them, so that `F` may
be an exact field or `float` with its rounding (`Float32` below). The functions the `glm`
library computes with `sin`, `cos` and `sqrt` take these three functions, and the constant
`π / 180`, from a record `GlmMath`; the quaternion operations are written out as `glm`
defines them. -/

section Camera

variable {F : Type} [Zero F] [One F] [NatCast F] [Add F] [Sub F] [Mul F] [Div F] [LE F]
  [DecidableRel (fun a b : F => a ≤ b)]

/-- The functions `sin`, `cos`, `sqrt` and the constant `π / 180` used by `glm`. -/
structure GlmMath (F : Type) where
  sin : F → F
  cos : F → F
  sqrt : F → F
  degreesToRadians : F

/-- The quaternion `glm::quat`, with the components `w`, `x`, `y`, `z`. -/
structure quat (F : Type) where
  w : F
  x : F
  y : F
  z : F
deriving DecidableEq, Repr

/-- The product `vec3 * float` of `glm`. -/
def vec3.mulScalar (v : vec3 F) (s : F) : vec3 F := { x := v.x * s, y := v.y * s, z := v.z * s }

/-- The function `glm::radians`. -/
def glm.radians (M : GlmMath F) (degrees : F) : F := degrees * M.degreesToRadians

/-- The function `glm::angleAxis`. -/
def glm.angleAxis (M : GlmMath F) (angle : F) (v : vec3 F) : quat F :=
  let s := M.sin (angle * (1 / 2))
  { w := M.cos (angle * (1 / 2)), x := v.x * s, y := v.y * s, z := v.z * s }

/-- The product `quat * quat` of `glm`. -/
def quat.mul (p q : quat F) : quat F :=
  { w := p.w * q.w - p.x * q.x - p.y * q.y - p.z * q.z
    x := p.w * q.x + p.x * q.w + p.y * q.z - p.z * q.y
    y := p.w * q.y + p.y * q.w + p.z * q.x - p.x * q.z
    z := p.w * q.z + p.z * q.w + p.x * q.y - p.y * q.x }

/-- The function `glm::normalize` on quaternions. -/
def glm.normalizeQuat (M : GlmMath F) (q : quat F) : quat F :=
  let len := M.sqrt ((q.w * q.w + q.x * q.x) + (q.y * q.y + q.z * q.z))
  if len ≤ 0 then { w := 1, x := 0, y := 0, z := 0 }
  else
    let oneOverLen := 1 / len
    { w := q.w * oneOverLen, x := q.x * oneOverLen, y := q.y * oneOverLen,
      z := q.z * oneOverLen }

/-- The product `quat * vec3` of `glm`: the rotation of `v` by `q`. -/
def quat.rotate (q : quat F) (v : vec3 F) : vec3 F :=
  let quatVector : vec3 F := { x := q.x, y := q.y, z := q.z }
  let uv := cross quatVector v
  let uuv := cross quatVector uv
  vec3.add v (vec3.mulScalar (vec3.add (vec3.mulScalar uv q.w) uuv) 2)

/-- The members of `Camera` that `processInput` reads and writes. -/
structure Camera (F : Type) where
  position : vec3 F
  direction : vec3 F
  up : vec3 F
  speed : F
  lastCursorPos : vec2 F
  firstCall : Bool
deriving DecidableEq, Repr

/-- What the window reports during one `processInput` call: the cursor position, whether
the right mouse button is pressed, and whether each of the five keys is pressed. -/
structure CameraInput (F : Type) where
  cursorPos : vec2 F
  rightButton : Bool
  keyW : Bool
  keyA : Bool
  keyS : Bool
  keyD : Bool
  keySpace : Bool
deriving DecidableEq, Repr

/-- The value of `_lastCursorPos` after the `if (_firstCall)` block of `processInput`. -/
def Camera.processInput.seededCursorPos (camera : Camera F) (input : CameraInput F) : vec2 F :=
  if camera.firstCall then input.cursorPos else camera.lastCursorPos

/-- The values `xoffset` and `yoffset` of `processInput`, with `sensitivity = 8e-2`. -/
def Camera.processInput.offsets (camera : Camera F) (input : CameraInput F) : F × F :=
  let lastCursorPos := Camera.processInput.seededCursorPos camera input
  ((input.cursorPos.x - lastCursorPos.x) * (8 / 100),
   (input.cursorPos.y - lastCursorPos.y) * (8 / 100))

/-- The value of `_direction` after the mouse block of `processInput`. -/
def Camera.processInput.direction (M : GlmMath F) (camera : Camera F) (input : CameraInput F) :
    vec3 F :=
  let xoffset := (Camera.processInput.offsets camera input).1
  let yoffset := (Camera.processInput.offsets camera input).2
  if input.rightButton then
    let yawQuat := glm.angleAxis M (glm.radians M xoffset) camera.up
    let pitchQuat := glm.angleAxis M (glm.radians M yoffset) (cross camera.direction camera.up)
    quat.rotate (glm.normalizeQuat M (quat.mul yawQuat pitchQuat)) camera.direction
  else camera.direction

/-- The function `Camera::processInput`. -/
def Camera.processInput (M : GlmMath F) (camera : Camera F) (input : CameraInput F)
    (deltaTime : F) : Camera F :=
  let direction := Camera.processInput.direction M camera input
  let position0 := camera.position
  let position1 :=
    if input.keyW then
      vec3.add position0 (vec3.mulScalar (vec3.mulScalar direction camera.speed) deltaTime)
    else position0
  let position2 :=
    if input.keyA then
      vec3.add position1
        (vec3.mulScalar (vec3.mulScalar (cross direction camera.up) camera.speed) deltaTime)
    else position1
  let position3 :=
    if input.keyS then
      vec3.sub position2 (vec3.mulScalar (vec3.mulScalar direction camera.speed) deltaTime)
    else position2
  let position4 :=
    if input.keyD then
      vec3.sub position3
        (vec3.mulScalar (vec3.mulScalar (cross direction camera.up) camera.speed) deltaTime)
    else position3
  let position5 :=
    if input.keySpace then
      vec3.sub position4 (vec3.mulScalar (vec3.mulScalar camera.up camera.speed) deltaTime)
    else position4
  { position := position5
    direction := direction
    up := camera.up
    speed := camera.speed
    lastCursorPos := input.cursorPos
    firstCall := if camera.firstCall then false else camera.firstCall }

/-- The value `1` for a pressed key and `0` otherwise. -/
def pressed (key : Bool) : F := if key then 1 else 0

/-- The statement `if (key) position += term;`. -/
def addIfPressed (key : Bool) (term position : vec3 F) : vec3 F :=
  if key then vec3.add position term else position

/-- The statement `if (key) position -= term;`. -/
def subIfPressed (key : Bool) (term position : vec3 F) : vec3 F :=
  if key then vec3.sub position term else position

end Camera

/-- Rational stand-ins for the functions of `GlmMath`: the first terms of the series of
`sin` and `cos`, one Newton step from `1` for `sqrt`, and `355 / 113` for `π`. -/
def sampleMath : GlmMath ℚ :=
  { sin := fun x => x - x * x * x / 6
    cos := fun x => 1 - x * x / 2
    sqrt := fun x => (1 + x) / 2
    degreesToRadians := 355 / (113 * 180) }

/-- A camera before its first `processInput` call, looking along `-z` with `y` up. -/
def sampleCamera : Camera ℚ :=
  { position := { x := 0, y := 0, z := 5 }
    direction := { x := 0, y := 0, z := -1 }
    up := { x := 0, y := 1, z := 0 }
    speed := 2
    lastCursorPos := { x := 0, y := 0 }
    firstCall := true }

/-- An input with the cursor at `(400, 300)`, the right button and the key `W` pressed. -/
def sampleInput : CameraInput ℚ :=
  { cursorPos := { x := 400, y := 300 }
    rightButton := true
    keyW := true
    keyA := false
    keyS := false
    keyD := false
    keySpace := false }



/-! ### The commands of one texture and their effect on the layouts -/

/-- The state of the mipmap loop of `uploadImage` when it ends, for a texture of the given
size; `blitCmds` is its command list. -/
def mipLoopEnd (width height : Int) : MipLoopState :=
  mipLoop (mipLevels width height) 1
    { mipWidth := width
      mipHeight := height
      mipmapBarrier :=
        { srcAccessMask := AccessMask.none
          dstAccessMask := AccessMask.none
          oldLayout := ImageLayout.undefined
          newLayout := ImageLayout.undefined
          baseMipLevel := 0
          levelCount := 1 }
      cmds := [] }

/-- The three commands one iteration of the mipmap loop records for the level `mip` with the
extent `(w, h)` of level `mip - 1`, followed by those of the `count - 1` iterations after
it. -/
def expectedCmds : Nat → Nat → Int → Int → List TransferCmd
  | 0, _, _, _ => []
  | count + 1, mip, w, h =>
    [TransferCmd.pipelineBarrier PipelineStage.transfer PipelineStage.transfer
       { srcAccessMask := AccessMask.none
         dstAccessMask := AccessMask.transferWrite
         oldLayout := ImageLayout.undefined
         newLayout := ImageLayout.transferDstOptimal
         baseMipLevel := mip
         levelCount := 1 },
     TransferCmd.blitImage ImageLayout.transferSrcOptimal ImageLayout.transferDstOptimal
       { srcMipLevel := mip - 1
         srcExtent := (w, h)
         dstMipLevel := mip
         dstExtent := (if w > 1 then w >>> (1 : Nat) else 1, if h > 1 then h >>> (1 : Nat) else 1) },
     TransferCmd.pipelineBarrier PipelineStage.transfer PipelineStage.transfer
       { srcAccessMask := AccessMask.transferWrite
         dstAccessMask := AccessMask.transferRead
         oldLayout := ImageLayout.transferDstOptimal
         newLayout := ImageLayout.transferSrcOptimal
         baseMipLevel := mip
         levelCount := 1 }] ++
    expectedCmds count (mip + 1) (if w > 1 then w >>> (1 : Nat) else w)
      (if h > 1 then h >>> (1 : Nat) else h)

/-- Modelled from the spec: `Image::generateMemoryBarrier` of `Images/Image.cpp`, which is
not among the sources. The barrier it returns carries the access masks and layouts it is
given; the mip range it covers is not visible in `uploadImage` and is the parameter
`range = (baseMipLevel, levelCount)` (the spec names mip 0). -/
def Image.generateMemoryBarrier (range : Nat × Nat) (srcAccessMask dstAccessMask : AccessMask)
    (oldLayout newLayout : ImageLayout) : ImageMemoryBarrier :=
  { srcAccessMask := srcAccessMask
    dstAccessMask := dstAccessMask
    oldLayout := oldLayout
    newLayout := newLayout
    baseMipLevel := range.1
    levelCount := range.2 }

/-- The commands `uploadImage` records for one texture, over its three command buffers. -/
inductive ImageCmd where
  | copyBufferToImage (mipLevel : Nat)
  | transfer (cmd : TransferCmd)
deriving DecidableEq, Repr

/-- The commands recorded into `coypCmdBuffer`: the barrier before the copy, the copy of
the staging buffer into level `0`, and the barrier after it. -/
def GLTFScene.uploadImage.copyCmds (range : Nat × Nat) : List ImageCmd :=
  [ImageCmd.transfer (TransferCmd.pipelineBarrier PipelineStage.topOfPipe PipelineStage.transfer
      (Image.generateMemoryBarrier range AccessMask.none AccessMask.transferWrite
        ImageLayout.undefined ImageLayout.transferDstOptimal)),
   ImageCmd.copyBufferToImage 0,
   ImageCmd.transfer (TransferCmd.pipelineBarrier PipelineStage.transfer PipelineStage.transfer
      (Image.generateMemoryBarrier range AccessMask.transferWrite AccessMask.transferRead
        ImageLayout.transferDstOptimal ImageLayout.transferSrcOptimal))]

/-- The command recorded into `finalTransitionCmdBuffer`: `mipmapBarrier`, as the loop left
it, with the six fields `uploadImage` assigns after the loop. -/
def GLTFScene.uploadImage.finalTransitionCmds (width height : Int) : List ImageCmd :=
  [ImageCmd.transfer
    (TransferCmd.pipelineBarrier PipelineStage.transfer PipelineStage.fragmentShader
      { (mipLoopEnd width height).mipmapBarrier with
        baseMipLevel := 0
        levelCount := mipLevels width height
        oldLayout := ImageLayout.transferSrcOptimal
        newLayout := ImageLayout.shaderReadOnlyOptimal
        srcAccessMask := AccessMask.transferRead
        dstAccessMask := AccessMask.shaderRead })]

/-- All commands `uploadImage` records for one texture, in submission order. -/
def GLTFScene.uploadImage.textureCmds (range : Nat × Nat) (width height : Int) :
    List ImageCmd :=
  GLTFScene.uploadImage.copyCmds range ++ (blitCmds width height).map ImageCmd.transfer ++
    GLTFScene.uploadImage.finalTransitionCmds width height

/-- The layout of every mip level of one image. -/
abbrev MipLayouts := Nat → ImageLayout

/-- The image as created by `uploadImage`: `initialLayout = VK_IMAGE_LAYOUT_UNDEFINED`. -/
def MipLayouts.initial : MipLayouts := fun _ => ImageLayout.undefined

/-- Whether the level lies in the subresource range of the barrier. -/
def ImageMemoryBarrier.covers (barrier : ImageMemoryBarrier) (level : Nat) : Bool :=
  decide (barrier.baseMipLevel ≤ level) && decide (level < barrier.baseMipLevel + barrier.levelCount)

/-- The effect of a barrier on an image with `levels` mip levels. Every level it covers
must be in the declared old layout; with `strict = false` the old layout
`VK_IMAGE_LAYOUT_UNDEFINED` is accepted for a level in any layout (the contents are then
discarded), as Vulkan allows. The covered levels change to the new layout. -/
def applyBarrier (strict : Bool) (levels : Nat) (barrier : ImageMemoryBarrier)
    (layouts : MipLayouts) : Option MipLayouts :=
  if ∀ level < levels, barrier.covers level = true →
      (layouts level = barrier.oldLayout ∨
        (strict = false ∧ barrier.oldLayout = ImageLayout.undefined)) then
    some fun level =>
      if level < levels ∧ barrier.covers level = true then barrier.newLayout else layouts level
  else none

/-- The effect of one command on the layouts: a blit must find its source and destination
level in the layouts it declares; the copy declares no layout in `uploadImage`. -/
def applyCmd (strict : Bool) (levels : Nat) (layouts : MipLayouts) : ImageCmd → Option MipLayouts
  | ImageCmd.copyBufferToImage _ => some layouts
  | ImageCmd.transfer (TransferCmd.pipelineBarrier _ _ barrier) =>
    applyBarrier strict levels barrier layouts
  | ImageCmd.transfer (TransferCmd.blitImage srcLayout dstLayout blit) =>
    if layouts blit.srcMipLevel = srcLayout ∧ layouts blit.dstMipLevel = dstLayout ∧
        blit.srcMipLevel < levels ∧ blit.dstMipLevel < levels then some layouts
    else none

/-- The layouts after a command list, or `none` as soon as a command declares a layout a
level does not have. -/
def trackLayouts (strict : Bool) (levels : Nat) : List ImageCmd → MipLayouts → Option MipLayouts
  | [], layouts => some layouts
  | cmd :: cmds, layouts =>
    (applyCmd strict levels layouts cmd).bind (trackLayouts strict levels cmds)







/-! ### Sample triangles for the normal computation -/

/-- A triangle in the plane `y = 0`: its corners are not collinear, but their projections
to the `xy` plane are. -/
def verticalTriangle : vec3 Int × vec3 Int × vec3 Int :=
  ({ x := 0, y := 0, z := 0 }, { x := 1, y := 0, z := 0 }, { x := 0, y := 0, z := 1 })

/-- Three vertices on the `x` axis. -/
def degenerateAttrib : attrib_t Int :=
  { vertices := [0, 0, 0,  1, 0, 0,  2, 0, 0]
    normals := []
    texcoords := [] }

/-- The shape made of the one, collinear, triangle of `degenerateAttrib`, in smoothing
group `1`. -/
def degenerateShape : shape_t :=
  { mesh :=
    { indices := [sampleIndex 0 (-1), sampleIndex 1 (-1), sampleIndex 2 (-1)]
      smoothing_group_ids := [1] } }

/-- The first triangle of `sampleAttrib` twice, counter-clockwise and clockwise (the two
sides of a sheet), in smoothing group `1`. -/
def twoSidedShape : shape_t :=
  { mesh :=
    { indices := [sampleIndex 0 (-1), sampleIndex 1 (-1), sampleIndex 2 (-1),
                  sampleIndex 0 (-1), sampleIndex 2 (-1), sampleIndex 1 (-1)]
      smoothing_group_ids := [1, 1] } }

/-! ## Device (`VulkanFramework/Device.cpp`)

Handles are natural numbers; `none` is `VK_NULL_HANDLE` (or `nullptr`). -/

/-- The members of `Device` that `initialize` and `destroyDevice` read and write. -/
structure Device where
  enableValidationLayer : Bool
  instanceHandle : Option Nat
  debugMessenger : Option Nat
  physicalDevice : Option Nat
  device : Option Nat
  memoryAllocator : Option Nat
deriving DecidableEq, Repr

/-- The destroy calls of `Device::destroyDevice`, with the handles they are given. -/
inductive DeviceEvent where
  | vmaDestroyAllocator (allocator : Nat)
  | vkDestroyDevice (device : Nat)
  | vkDestroyDebugUtilsMessengerEXT (instanceHandle : Option Nat) (messenger : Nat)
  | vkDestroyInstance (instanceHandle : Nat)
deriving DecidableEq, Repr

/-- The first block of `destroyDevice`: the memory allocator. -/
def Device.destroyDevice.allocator (d : Device) : Device × List DeviceEvent :=
  match d.memoryAllocator with
  | some allocator => ({ d with memoryAllocator := none }, [DeviceEvent.vmaDestroyAllocator allocator])
  | none => (d, [])

/-- The second block of `destroyDevice`: the logical device. -/
def Device.destroyDevice.logicalDevice (d : Device) : Device × List DeviceEvent :=
  match d.device with
  | some device => ({ d with device := none }, [DeviceEvent.vkDestroyDevice device])
  | none => (d, [])

/-- The third block of `destroyDevice`: the debug messenger, under
`_enableValidationLayer`. -/
def Device.destroyDevice.messenger (d : Device) : Device × List DeviceEvent :=
  if d.enableValidationLayer then
    match d.debugMessenger with
    | some messenger =>
      ({ d with debugMessenger := none },
       [DeviceEvent.vkDestroyDebugUtilsMessengerEXT d.instanceHandle messenger])
    | none => (d, [])
  else (d, [])

/-- The fourth block of `destroyDevice`: the instance. -/
def Device.destroyDevice.instanceBlock (d : Device) : Device × List DeviceEvent :=
  match d.instanceHandle with
  | some handle => ({ d with instanceHandle := none }, [DeviceEvent.vkDestroyInstance handle])
  | none => (d, [])

/-- The function `Device::destroyDevice`: the object after the call and the destroy calls
made, in order. -/
def Device.destroyDevice (d : Device) : Device × List DeviceEvent :=
  let r1 := Device.destroyDevice.allocator d
  let r2 := Device.destroyDevice.logicalDevice r1.1
  let r3 := Device.destroyDevice.messenger r2.1
  let r4 := Device.destroyDevice.instanceBlock r3.1
  (r4.1, r1.2 ++ r2.2 ++ r3.2 ++ r4.2)

/-- A sequence of `calls` calls of `destroyDevice` (the last one may be the destructor's):
the object after them and all destroy calls made, in order. -/
def Device.destroyDevice.repeated : Nat → Device → Device × List DeviceEvent
  | 0, d => (d, [])
  | calls + 1, d =>
    let first := Device.destroyDevice d
    let rest := Device.destroyDevice.repeated calls first.1
    (rest.1, first.2 ++ rest.2)

/-- What the Vulkan and allocator calls of `Device` return: whether the validation layer is
among the enumerated layers, the handle each create call yields (`none` when it fails), and
the enumerated physical devices. -/
structure VulkanCalls where
  layerFound : Bool
  vkCreateInstance : Option Nat
  vkCreateDebugUtilsMessengerEXT : Option Nat
  physicalDevices : List Nat
  vkCreateDevice : Option Nat
  vmaCreateAllocator : Option Nat
deriving DecidableEq, Repr

/-- The function `Device::initializeInstance`; `checkExtensionSupport` returns `true`. -/
def Device.initializeInstance (vk : VulkanCalls) (d : Device) : Bool × Device :=
  match vk.vkCreateInstance with
  | none => (false, d)
  | some handle => (true, { d with instanceHandle := some handle })

/-- The function `Device::pickPhysicalDevice`; `checkDeviceSuitable` returns `true`, so the
loop takes the first enumerated device. -/
def Device.pickPhysicalDevice (vk : VulkanCalls) (d : Device) : Bool × Device :=
  let d1 :=
    match vk.physicalDevices with
    | [] => d
    | physicalDevice :: _ => { d with physicalDevice := some physicalDevice }
  if d1.physicalDevice = none then (false, d1) else (true, d1)

/-- The function `Device::initialize`; `ndebug` tells whether `NDEBUG` is defined.
`initializeVulkanExtensions` loads function pointers and writes no member. -/
def Device.initialize (ndebug : Bool) (vk : VulkanCalls) (d : Device) : Bool × Device :=
  let d1 := { d with enableValidationLayer := !ndebug }
  let d2 :=
    if d1.enableValidationLayer then
      if !vk.layerFound then { d1 with enableValidationLayer := false } else d1
    else d1
  match Device.initializeInstance vk d2 with
  | (false, d3) => (false, d3)
  | (true, d3) =>
    if d3.enableValidationLayer then
      match vk.vkCreateDebugUtilsMessengerEXT with
      | none => (false, d3)
      | some messenger => Device.pickPhysicalDevice vk { d3 with debugMessenger := some messenger }
    else Device.pickPhysicalDevice vk d3

/-- The function `Device::initializeLogicalDevice`. -/
def Device.initializeLogicalDevice (vk : VulkanCalls) (d : Device) : Bool × Device :=
  match vk.vkCreateDevice with
  | none => (false, d)
  | some handle => (true, { d with device := some handle })

/-- The function `Device::initializeMemoryAllocator`. -/
def Device.initializeMemoryAllocator (vk : VulkanCalls) (d : Device) : Bool × Device :=
  match vk.vmaCreateAllocator with
  | none => (false, d)
  | some handle => (true, { d with memoryAllocator := some handle })

/-- A `Device` whose handles are all null. -/
def Device.null : Device :=
  { enableValidationLayer := false
    instanceHandle := none
    debugMessenger := none
    physicalDevice := none
    device := none
    memoryAllocator := none }

/-- Calls that all succeed, with the validation layer present. -/
def sampleVulkanCalls : VulkanCalls :=
  { layerFound := true
    vkCreateInstance := some 1
    vkCreateDebugUtilsMessengerEXT := some 2
    physicalDevices := [3]
    vkCreateDevice := some 4
    vmaCreateAllocator := some 5 }

/-- A debug-build `Device` after `initialize`, `initializeLogicalDevice` and
`initializeMemoryAllocator` with `sampleVulkanCalls`. -/
def sampleDevice : Device :=
  (Device.initializeMemoryAllocator sampleVulkanCalls
    (Device.initializeLogicalDevice sampleVulkanCalls
      ( Device.initialize false sampleVulkanCalls Device.null).2).2).2



/-! ## Pipelines (`VulkanFramework/Pipelines/PipelineBase.cpp`) -/

/-- The members of `PipelineBase`: the device handle the shared pointer `_device` leads to
(`none` for an empty pointer), the module of each attached shader stage, the pipeline
handle. -/
structure PipelineBase where
  device : Option Nat
  shaderStages : List (Option Nat)
  pipeline : Option Nat
deriving DecidableEq, Repr

/-- The destroy calls of `PipelineBase::destroyPipeline`. -/
inductive PipelineEvent where
  | vkDestroyShaderModule (device : Nat) (module : Nat)
  | vkDestroyPipeline (device : Nat) (pipeline : Nat)
deriving DecidableEq, Repr

/-- The function `PipelineBase::initialize`. -/
def PipelineBase.initialize (device : Nat) (p : PipelineBase) : Bool × PipelineBase :=
  (true, { p with device := some device })

/-- The shader-module loop of `destroyPipeline`. -/
def PipelineBase.destroyPipeline.modules (device : Nat) : List (Option Nat) → List PipelineEvent
  | [] => []
  | some module :: rest =>
    PipelineEvent.vkDestroyShaderModule device module ::
      PipelineBase.destroyPipeline.modules device rest
  | none :: rest => PipelineBase.destroyPipeline.modules device rest

/-- The function `PipelineBase::destroyPipeline`: the object after the call and the destroy
calls made, or `none` when `_device->getDeviceHandle()` dereferences an empty `_device`. -/
def PipelineBase.destroyPipeline (p : PipelineBase) : Option (PipelineBase × List PipelineEvent) :=
  match p.device with
  | none => none
  | some device =>
    let moduleEvents := PipelineBase.destroyPipeline.modules device p.shaderStages
    let pipelineEvents :=
      match p.pipeline with
      | some pipeline => [PipelineEvent.vkDestroyPipeline device pipeline]
      | none => []
    some ({ device := none, shaderStages := [], pipeline := none }, moduleEvents ++ pipelineEvents)

/-- A pipeline on device `4` with two shader modules, one failed stage and a pipeline
handle. -/
def samplePipeline : PipelineBase :=
  { device := some 4, shaderStages := [some 10, none, some 11], pipeline := some 20 }

/-! ## Constructors

Each constructor body is the single statement `assert(initialize(...))`. -/

/-- The macro `assert` of `<cassert>` applied to an expression with side effects on a state:
with `NDEBUG` defined it expands to `((void)0)` and the expression is not evaluated;
otherwise the expression is evaluated and a `false` result aborts the program (`none`). -/
def assert {σ : Type} (ndebug : Bool) (expr : σ → Bool × σ) (st : σ) : Option σ :=
  if ndebug then some st
  else
    match expr st with
    | (true, st1) => some st1
    | (false, _) => none

/-- The constructor `PipelineBase::PipelineBase`, run on the members as their
initialisers left them. -/
def PipelineBase.construct (ndebug : Bool) (device : Nat) (members : PipelineBase) :
    Option PipelineBase :=
  assert ndebug ( PipelineBase.initialize device) members

/-- The constructor `Device::Device`. -/
def Device.construct (ndebug : Bool) (vk : VulkanCalls) (members : Device) : Option Device :=
  assert ndebug ( Device.initialize ndebug vk) members

/-- The constructor `GLTFScene::GLTFScene`. -/
def GLTFScene.construct (ndebug : Bool) (waitOk : Nat → Bool) (loadSceneOk : Bool)
    (numImages : Nat) (members : UploadState) : Option UploadState :=
  assert ndebug ( GLTFScene.initialize waitOk loadSceneOk numImages) members

/-- The members of `Camera` that `Camera::initialize` writes: the window, the number of
uniform buffers and of descriptor sets, and whether the descriptor pool and the descriptor
layout have been made. -/
structure CameraResources where
  window : Option Nat
  uniformBuffers : Nat
  descriptorPool : Bool
  descriptorLayout : Bool
  descriptorSets : Nat
deriving DecidableEq, Repr

/-- The function `Camera::initialize`; `createDescriptorSetLayoutOk` is the result of
`createDescriptorSetLayout`. -/
def Camera.initialize (createDescriptorSetLayoutOk : Bool) (window : Nat) (frameCount : Nat)
    (c : CameraResources) : Bool × CameraResources :=
  let c1 := { c with window := some window }
  let c2 := { c1 with uniformBuffers := c1.uniformBuffers + frameCount }
  let c3 := { c2 with descriptorPool := true }
  let c4 := { c3 with descriptorLayout := true }
  if ¬ createDescriptorSetLayoutOk then (false, c4)
  else (true, { c4 with descriptorSets := c4.descriptorSets + frameCount })

/-- The constructor `Camera::Camera`. -/
def Camera.construct (ndebug : Bool) (createDescriptorSetLayoutOk : Bool) (window : Nat)
    (frameCount : Nat) (members : CameraResources) : Option CameraResources :=
  assert ndebug ( Camera.initialize createDescriptorSetLayoutOk window frameCount) members

/-- A `PipelineBase` before its constructor body runs. -/
def PipelineBase.null : PipelineBase := { device := none, shaderStages := [], pipeline := none }

/-- A `Camera` before its constructor body runs. -/
def CameraResources.null : CameraResources :=
  { window := none, uniformBuffers := 0, descriptorPool := false, descriptorLayout := false,
    descriptorSets := 0 }



/-! ## GUI (`GLTFScene::drawGUI`)

The values the sliders edit, and the world matrix recomputed from them, are not
represented: `drawGUI` decides on the uploads from the flags the sliders return. -/

/-- The two trees of `drawGUI`. -/
inductive GuiTree where
  | transform
  | material
deriving DecidableEq, Repr

/-- What the GUI library returns during one `drawGUI` call: whether each tree node is
open, and the changed flag of each slider (sliders are numbered in call order within a
node). -/
structure GuiInput where
  transformOpen : Bool
  nodeOpen : Nat → Bool
  nodeSlider : Nat → Nat → Bool
  materialOpen : Bool
  materialNodeOpen : Nat → Bool
  materialSlider : Nat → Nat → Bool

/-- The slider calls and upload calls of one `drawGUI` call. `uploadMaterialBuffer` carries
the number of materials it copies into the staging buffer. -/
inductive GuiEvent where
  | slider (tree : GuiTree) (index : Nat) (slider : Nat) (changed : Bool)
  | uploadMatrixBuffer
  | uploadMaterialBuffer (materials : Nat)
deriving DecidableEq, Repr

/-- The body of the node loop of `drawGUI` for the node at position `index`; the state is
`bModified` and the events so far. -/
def GLTFScene.drawGUI.node {M : Type} (gui : GuiInput) (index : Nat) (node : GLTFNode M)
    (st : Bool × List GuiEvent) : Bool × List GuiEvent :=
  if gui.nodeOpen index then
    if ¬ node.primMeshes.isEmpty then
      let translation := gui.nodeSlider index 0
      let scale := gui.nodeSlider index 1
      let rotation := gui.nodeSlider index 2
      (((st.1 || translation) || scale) || rotation,
       st.2 ++ [GuiEvent.slider GuiTree.transform index 0 translation,
                GuiEvent.slider GuiTree.transform index 1 scale,
                GuiEvent.slider GuiTree.transform index 2 rotation])
    else st
  else st

/-- The node loop of `drawGUI`, entered at the node position `index`. -/
def GLTFScene.drawGUI.nodes {M : Type} (gui : GuiInput) :
    Nat → List (GLTFNode M) → Bool × List GuiEvent → Bool × List GuiEvent
  | _, [], st => st
  | index, node :: rest, st =>
    GLTFScene.drawGUI.nodes gui (index + 1) rest (GLTFScene.drawGUI.node gui index node st)

/-- The body of the material loop of `drawGUI` for the material at position `index`. -/
def GLTFScene.drawGUI.material (gui : GuiInput) (index : Nat) (st : Bool × List GuiEvent) :
    Bool × List GuiEvent :=
  if gui.materialNodeOpen index then
    let baseColorFactor := gui.materialSlider index 0
    let emissiveFactor := gui.materialSlider index 1
    let metallicFactor := gui.materialSlider index 2
    let roughnessFactor := gui.materialSlider index 3
    ((((st.1 || baseColorFactor) || emissiveFactor) || metallicFactor) || roughnessFactor,
     st.2 ++ [GuiEvent.slider GuiTree.material index 0 baseColorFactor,
              GuiEvent.slider GuiTree.material index 1 emissiveFactor,
              GuiEvent.slider GuiTree.material index 2 metallicFactor,
              GuiEvent.slider GuiTree.material index 3 roughnessFactor])
  else st

/-- The material loop of `drawGUI` over the material positions `index, index + 1, ...`. -/
def GLTFScene.drawGUI.materials (gui : GuiInput) :
    Nat → Nat → Bool × List GuiEvent → Bool × List GuiEvent
  | _, 0, st => st
  | index, count + 1, st =>
    GLTFScene.drawGUI.materials gui (index + 1) count (GLTFScene.drawGUI.material gui index st)

/-- The transform tree of `drawGUI`. -/
def GLTFScene.drawGUI.transformTree {M : Type} (gui : GuiInput) (sceneNodes : List (GLTFNode M))
    (events : List GuiEvent) : List GuiEvent :=
  if gui.transformOpen then
    let st := GLTFScene.drawGUI.nodes gui 0 sceneNodes (false, events)
    if st.1 then st.2 ++ [GuiEvent.uploadMatrixBuffer] else st.2
  else events

/-- The material tree of `drawGUI`; `numMaterials` is `_sceneMaterials.size()`. -/
def GLTFScene.drawGUI.materialTree (gui : GuiInput) (numMaterials : Nat)
    (events : List GuiEvent) : List GuiEvent :=
  if gui.materialOpen then
    let st := GLTFScene.drawGUI.materials gui 0 numMaterials (false, events)
    if st.1 then st.2 ++ [GuiEvent.uploadMaterialBuffer numMaterials] else st.2
  else events

/-- The function `GLTFScene::drawGUI`: the slider and upload calls it makes, in order. -/
def GLTFScene.drawGUI {M : Type} (gui : GuiInput) (sceneNodes : List (GLTFNode M))
    (numMaterials : Nat) : List GuiEvent :=
  GLTFScene.drawGUI.materialTree gui numMaterials
    (GLTFScene.drawGUI.transformTree gui sceneNodes [])

/-- Whether some slider of the tree reported a change. -/
def sliderChanged (tree : GuiTree) (events : List GuiEvent) : Bool :=
  events.any fun e =>
    match e with
    | GuiEvent.slider t _ _ changed => decide (t = tree) && changed
    | _ => false

/-- The `uploadMatrixBuffer` calls among the events. -/
def matrixUploads (events : List GuiEvent) : List GuiEvent :=
  events.filter fun e =>
    match e with
    | GuiEvent.uploadMatrixBuffer => true
    | _ => false

/-- The `uploadMaterialBuffer` calls among the events. -/
def materialUploads (events : List GuiEvent) : List GuiEvent :=
  events.filter fun e =>
    match e with
    | GuiEvent.uploadMaterialBuffer _ => true
    | _ => false

/-- A GUI state with both trees and every node open, in which only the rotation slider of
node `2` reports a change. -/
def sampleGui : GuiInput :=
  { transformOpen := true
    nodeOpen := fun _ => true
    nodeSlider := fun index slider => decide (index = 2 ∧ slider = 2)
    materialOpen := true
    materialNodeOpen := fun _ => true
    materialSlider := fun _ _ => false }



/-! ## Single-precision arithmetic

The finite values of `float` (IEEE 754 binary32) are the integer multiples `n * 2^-149` of
the smallest subnormal that have at most 24 significant bits and lie below `2^128`. A value
is represented by its count `n` of such units, and every operation returns the correctly
rounded result (to nearest, ties to even), as the default rounding mode does. Infinities,
NaN and the sign of zero are not represented: a result beyond the largest finite value is
left unclamped, and division by zero gives zero. -/

/-- A finite `float` value, as its count of units `2^-149`. -/
structure Float32 where
  units : Int
deriving DecidableEq, Repr

/-- The number of low bits that do not fit in a 24-bit significand: the least `k` with
`n / 2^k < 2^24`, searched upwards from `k` with `n` already shifted. -/
def Float32.dropBits : Nat → Nat → Nat → Nat
  | 0, _, k => k
  | fuel + 1, n, k => if n < 2 ^ 24 then k else Float32.dropBits fuel (n / 2) (k + 1)

/-- The representable count of units nearest to `num / den` for `den > 0`, ties to the even
significand. -/
def Float32.roundNat (num den : Nat) : Nat :=
  let k := Float32.dropBits 512 (num / den) 0
  let scale := den * 2 ^ k
  let q := num / scale
  let r := num % scale
  let rounded :=
    if 2 * r < scale then q
    else if scale < 2 * r then q + 1
    else if q % 2 = 0 then q else q + 1
  rounded * 2 ^ k

/-- The `float` nearest to `num / den` units. -/
def Float32.round (num den : Int) : Float32 :=
  { units := Int.sign num * Int.sign den * (Float32.roundNat num.natAbs den.natAbs : Nat) }

/-- The `float` with the value `m * 2^e`, for a significand `|m| < 2^24` and `e ≥ -149`. -/
def Float32.ofDyadic (m : Int) (e : Int) : Float32 := { units := m * 2 ^ (e + 149).toNat }

instance : Zero Float32 := ⟨{ units := 0 }⟩

instance : One Float32 := ⟨{ units := 2 ^ 149 }⟩

instance : NatCast Float32 := ⟨fun n => Float32.round ((n : Int) * 2 ^ 149) 1⟩

instance : Add Float32 := ⟨fun a b => Float32.round (a.units + b.units) 1⟩

instance : Sub Float32 := ⟨fun a b => Float32.round (a.units - b.units) 1⟩

instance : Mul Float32 := ⟨fun a b => Float32.round (a.units * b.units) (2 ^ 149)⟩

instance : Div Float32 := ⟨fun a b => Float32.round (a.units * 2 ^ 149) b.units⟩

instance : LE Float32 := ⟨fun a b => a.units ≤ b.units⟩

instance : LT Float32 := ⟨fun a b => a.units < b.units⟩

instance : DecidableRel (fun a b : Float32 => a ≤ b) := fun a b =>
  inferInstanceAs (Decidable (a.units ≤ b.units))

instance : DecidableRel (fun a b : Float32 => a < b) := fun a b =>
  inferInstanceAs (Decidable (a.units < b.units))

/-- A camera at `z = 0.1f` (the `float` `13421773 * 2^-27`) looking along `+z`, with speed
`1`, after its first call. -/
def floatCamera : Camera Float32 :=
  { position := { x := 0, y := 0, z := Float32.ofDyadic 13421773 (-27) }
    direction := { x := 0, y := 0, z := 1 }
    up := { x := 0, y := 1, z := 0 }
    speed := 1
    lastCursorPos := { x := 0, y := 0 }
    firstCall := false }

/-- Single-precision stand-ins for the functions of `GlmMath`, built like `sampleMath`;
`processInput` calls none of them while the right button is released. -/
def floatMath : GlmMath Float32 :=
  { sin := fun x => x - x * x * x / 6
    cos := fun x => 1 - x * x / 2
    sqrt := fun x => (1 + x) / 2
    degreesToRadians := 355 / (113 * 180) }

/-- An input with the cursor at rest, the right button released and the keys `W` and `S`
both pressed. -/
def floatInput : CameraInput Float32 :=
  { cursorPos := { x := 0, y := 0 }
    rightButton := false
    keyW := true
    keyA := false
    keyS := true
    keyD := false
    keySpace := false }



end vfs

/-! # Theorems -/

namespace vfs

/-! ## Draw traversal -/

theorem cmdDrawMesh_eq (prims : List GLTFPrimMesh) (off : Nat) (st : DrawState) (m : Nat)
    (hm : m < prims.length) :
    ∃ last, cmdDrawMesh prims off st m =
      some { instanceIndex := st.instanceIndex, lastMaterialIndex := last,
             cmds := st.cmds ++ meshCmds prims off st.instanceIndex m } := by
  have hget : prims[m]? = some prims[m] := List.getElem?_eq_getElem hm
  refine ⟨toU32 prims[m].materialIndex, ?_⟩
  simp only [cmdDrawMesh, meshCmds, hget, drawCall]
  by_cases h : toU32 prims[m].materialIndex = st.lastMaterialIndex
  · simp [h]
  · simp [h]

theorem cmdDrawMeshes_eq (prims : List GLTFPrimMesh) (off : Nat) (ms : List Nat) :
    ∀ st : DrawState, (∀ m ∈ ms, m < prims.length) →
    ∃ last, cmdDrawMeshes prims off st ms =
      some { instanceIndex := st.instanceIndex, lastMaterialIndex := last,
             cmds := st.cmds ++ ms.flatMap (meshCmds prims off st.instanceIndex) } := by
  induction ms with
  | nil => intro st _; exact ⟨st.lastMaterialIndex, by simp [cmdDrawMeshes]⟩
  | cons m rest ih =>
    intro st hv
    obtain ⟨last1, h1⟩ := cmdDrawMesh_eq prims off st m (hv m (List.mem_cons_self _ _))
    obtain ⟨last2, h2⟩ := ih
      { instanceIndex := st.instanceIndex, lastMaterialIndex := last1,
        cmds := st.cmds ++ meshCmds prims off st.instanceIndex m }
      (fun x hx => hv x (List.mem_cons_of_mem _ hx))
    refine ⟨last2, ?_⟩
    simp only [cmdDrawMeshes, h1, h2, List.flatMap_cons, List.append_assoc]

theorem cmdDrawNodes_eq {M : Type} (prims : List GLTFPrimMesh) (off : Nat)
    (nodes : List (GLTFNode M)) :
    ∀ (st : DrawState) (start : Nat), st.instanceIndex = start % 2 ^ 32 →
    ValidMeshIndices nodes prims →
    ∃ st1, cmdDrawNodes prims off st nodes = some st1 ∧
      st1.cmds = st.cmds ++ nodeCmdsFrom prims off start nodes := by
  induction nodes with
  | nil => intro st start _ _; exact ⟨st, by simp [cmdDrawNodes, nodeCmdsFrom]⟩
  | cons node rest ih =>
    intro st start hst hv
    obtain ⟨last, h1⟩ := cmdDrawMeshes_eq prims off node.primMeshes st
      (hv node (List.mem_cons_self _ _))
    obtain ⟨st2, h2, h3⟩ := ih
      { instanceIndex := incU32 st.instanceIndex, lastMaterialIndex := last,
        cmds := st.cmds ++ node.primMeshes.flatMap (meshCmds prims off st.instanceIndex) }
      (start + 1) (by simp [incU32, hst, Nat.add_mod])
      (fun n hn => hv n (List.mem_cons_of_mem _ hn))
    refine ⟨st2, ?_, ?_⟩
    · simp only [cmdDrawNodes, h1, h2]
    · rw [h3, nodeCmdsFrom, hst, List.append_assoc]

/-- The whole command list of `cmdDraw` on a scene with valid mesh indices. -/
theorem cmdDraw_eq {M : Type} (nodes : List (GLTFNode M)) (prims : List GLTFPrimMesh)
    (off : Nat) (hv : ValidMeshIndices nodes prims) :
    cmdDraw nodes prims off =
      some ([DrawCmd.bindVertexBuffers, DrawCmd.bindIndexBuffer, DrawCmd.bindDescriptorSets,
             DrawCmd.scopeLabel] ++ nodeCmdsFrom prims off 0 nodes) := by
  obtain ⟨st1, h1, h2⟩ := cmdDrawNodes_eq prims off nodes
    { instanceIndex := 0, lastMaterialIndex := UINT32_MAX,
      cmds := [DrawCmd.bindVertexBuffers, DrawCmd.bindIndexBuffer,
               DrawCmd.bindDescriptorSets, DrawCmd.scopeLabel] } 0 (by simp) hv
  simp only [cmdDraw, h1, Option.map_some', h2]

theorem pushesOf_append (a b : List DrawCmd) : pushesOf (a ++ b) = pushesOf a ++ pushesOf b := by
  simp [pushesOf, List.filterMap_append]

theorem drawsOf_append (a b : List DrawCmd) : drawsOf (a ++ b) = drawsOf a ++ drawsOf b := by
  simp [drawsOf, List.filter_append]

theorem pushDrawOf_append (a b : List DrawCmd) :
    pushDrawOf (a ++ b) = pushDrawOf a ++ pushDrawOf b := by
  simp [pushDrawOf, List.filter_append]

theorem pushesOf_meshes (prims : List GLTFPrimMesh) (off i : Nat) (ms : List Nat)
    (hv : ∀ m ∈ ms, m < prims.length) :
    (pushesOf (ms.flatMap (meshCmds prims off i))).map some =
      ms.map fun m => prims[m]?.map fun p => [i, toU32 p.materialIndex] := by
  induction ms with
  | nil => simp [pushesOf]
  | cons m rest ih =>
    have hm : m < prims.length := hv m (List.mem_cons_self _ _)
    have hget : prims[m]? = some prims[m] := List.getElem?_eq_getElem hm
    rw [List.flatMap_cons, pushesOf_append, List.map_append,
      ih (fun x hx => hv x (List.mem_cons_of_mem _ hx))]
    simp [meshCmds, hget, pushesOf, drawCall]

theorem drawsOf_meshes (prims : List GLTFPrimMesh) (off i : Nat) (ms : List Nat)
    (hv : ∀ m ∈ ms, m < prims.length) :
    (drawsOf (ms.flatMap (meshCmds prims off i))).map some =
      ms.map fun m => prims[m]?.map drawCall := by
  induction ms with
  | nil => simp [drawsOf]
  | cons m rest ih =>
    have hm : m < prims.length := hv m (List.mem_cons_self _ _)
    have hget : prims[m]? = some prims[m] := List.getElem?_eq_getElem hm
    rw [List.flatMap_cons, drawsOf_append, List.map_append,
      ih (fun x hx => hv x (List.mem_cons_of_mem _ hx))]
    simp [meshCmds, hget, drawsOf, drawCall]

theorem pushDrawOf_meshes (prims : List GLTFPrimMesh) (off i : Nat) (ms : List Nat) :
    pushDrawOf (ms.flatMap (meshCmds prims off i)) = ms.flatMap (meshCmds prims off i) := by
  induction ms with
  | nil => simp [pushDrawOf]
  | cons m rest ih =>
    rw [List.flatMap_cons, pushDrawOf_append, ih]
    congr 1
    unfold meshCmds
    cases prims[m]? <;> simp [pushDrawOf, drawCall]

theorem pushDrawOf_nodes {M : Type} (prims : List GLTFPrimMesh) (off : Nat)
    (nodes : List (GLTFNode M)) :
    ∀ start, pushDrawOf (nodeCmdsFrom prims off start nodes) =
      nodeCmdsFrom prims off start nodes := by
  induction nodes with
  | nil => intro start; simp [nodeCmdsFrom, pushDrawOf]
  | cons node rest ih =>
    intro start
    rw [nodeCmdsFrom, pushDrawOf_append, pushDrawOf_meshes, ih]

theorem drawsOf_nodes {M : Type} (prims : List GLTFPrimMesh) (off : Nat)
    (nodes : List (GLTFNode M)) :
    ∀ start, ValidMeshIndices nodes prims →
    (drawsOf (nodeCmdsFrom prims off start nodes)).map some =
      (meshIndicesInOrder nodes).map fun m => prims[m]?.map drawCall := by
  induction nodes with
  | nil => intro start _; simp [nodeCmdsFrom, drawsOf, meshIndicesInOrder]
  | cons node rest ih =>
    intro start hv
    have ih1 := ih (start + 1) (fun n hn => hv n (List.mem_cons_of_mem _ hn))
    simp only [meshIndicesInOrder] at ih1 ⊢
    rw [nodeCmdsFrom, drawsOf_append, List.map_append,
      drawsOf_meshes prims off _ _ (hv node (List.mem_cons_self _ _)), ih1,
      List.flatMap_cons, List.map_append]

theorem pushesOf_nodes_instance {M : Type} (prims : List GLTFPrimMesh) (off : Nat)
    (nodes : List (GLTFNode M)) :
    ∀ start, ValidMeshIndices nodes prims → start + nodes.length ≤ 2 ^ 32 →
    pushedInstanceIndices (nodeCmdsFrom prims off start nodes) =
      (nodePositions start nodes).map some := by
  induction nodes with
  | nil => intro start _ _; simp [nodeCmdsFrom, pushedInstanceIndices, pushesOf, nodePositions]
  | cons node rest ih =>
    intro start hv hlen
    simp only [List.length_cons] at hlen
    have ih1 := ih (start + 1) (fun n hn => hv n (List.mem_cons_of_mem _ hn)) (by omega)
    have hmod : start % 2 ^ 32 = start := Nat.mod_eq_of_lt (by omega)
    have hp := pushesOf_meshes prims off start node.primMeshes (hv node (List.mem_cons_self _ _))
    have hq : (pushesOf (node.primMeshes.flatMap (meshCmds prims off start))).map
        (fun values => values[0]?) = List.replicate node.primMeshes.length (some start) := by
      have := congrArg (List.map fun o : Option (List Nat) => o.bind fun v => v[0]?) hp
      simp only [List.map_map] at this
      have h2 : ((fun o : Option (List Nat) => o.bind fun v => v[0]?) ∘ some) =
          fun values : List Nat => values[0]? := by funext v; rfl
      rw [h2] at this
      rw [this]
      apply List.ext_getElem
      · simp
      · intro n h1 h2
        have hn : n < node.primMeshes.length := by simpa using h1
        have hlt := hv node (List.mem_cons_self _ _) _ (List.getElem_mem hn)
        simp [List.getElem?_eq_getElem hlt]
    simp only [pushedInstanceIndices] at ih1 ⊢
    rw [nodeCmdsFrom, hmod, pushesOf_append, List.map_append, hq, ih1, nodePositions]
    simp

theorem pushesOf_nodes_material {M : Type} (prims : List GLTFPrimMesh) (off : Nat)
    (nodes : List (GLTFNode M)) :
    ∀ start, ValidMeshIndices nodes prims →
    pushedMaterialIndices (nodeCmdsFrom prims off start nodes) =
      (meshIndicesInOrder nodes).map fun m => prims[m]?.map fun p => toU32 p.materialIndex := by
  induction nodes with
  | nil =>
    intro start _
    simp [nodeCmdsFrom, pushedMaterialIndices, pushesOf, meshIndicesInOrder]
  | cons node rest ih =>
    intro start hv
    have ih1 := ih (start + 1) (fun n hn => hv n (List.mem_cons_of_mem _ hn))
    have hp := pushesOf_meshes prims off (start % 2 ^ 32) node.primMeshes
      (hv node (List.mem_cons_self _ _))
    have hq : (pushesOf (node.primMeshes.flatMap (meshCmds prims off (start % 2 ^ 32)))).map
        (fun values => values[1]?) =
        node.primMeshes.map fun m => prims[m]?.map fun p => toU32 p.materialIndex := by
      have := congrArg (List.map fun o : Option (List Nat) => o.bind fun v => v[1]?) hp
      simp only [List.map_map] at this
      have h2 : ((fun o : Option (List Nat) => o.bind fun v => v[1]?) ∘ some) =
          fun values : List Nat => values[1]? := by funext v; rfl
      rw [h2] at this
      rw [this]
      apply List.map_congr_left
      intro m hm
      have hlt := hv node (List.mem_cons_self _ _) m hm
      simp [List.getElem?_eq_getElem hlt]
    simp only [pushedMaterialIndices, meshIndicesInOrder] at ih1 ⊢
    rw [nodeCmdsFrom, pushesOf_append, List.map_append, hq, ih1, List.flatMap_cons,
      List.map_append]

theorem nodePositions_eq_enumFrom {M : Type} (nodes : List (GLTFNode M)) :
    ∀ start, nodePositions start nodes =
      (nodes.enumFrom start).flatMap fun p => List.replicate p.2.primMeshes.length p.1 := by
  induction nodes with
  | nil => intro start; simp [nodePositions]
  | cons node rest ih => intro start; simp [nodePositions, ih, List.enumFrom_cons]

theorem length_meshIndicesInOrder {M : Type} (nodes : List (GLTFNode M)) :
    (meshIndicesInOrder nodes).length = (nodes.map fun n => n.primMeshes.length).sum := by
  induction nodes with
  | nil => simp [meshIndicesInOrder]
  | cons node rest ih =>
    simp only [meshIndicesInOrder] at ih ⊢
    simp [List.flatMap_cons, ih]

theorem pushThenDraw_nil (off : Nat) : PushThenDraw off [] := by
  simp [PushThenDraw, pushesOf, drawsOf]

theorem pushThenDraw_append (off : Nat) (a b : List DrawCmd)
    (ha : PushThenDraw off a) (hb : PushThenDraw off b) : PushThenDraw off (a ++ b) := by
  obtain ⟨ha1, ha2, ha3⟩ := ha
  obtain ⟨hb1, hb2, hb3⟩ := hb
  refine ⟨?_, ?_, ?_⟩
  · rw [pushesOf_append, drawsOf_append, List.zip_append ha2, List.flatMap_append, ← ha1, ← hb1]
  · simp [pushesOf_append, drawsOf_append, ha2, hb2]
  · intro v hv
    rw [pushesOf_append, List.mem_append] at hv
    rcases hv with hv | hv
    · exact ha3 v hv
    · exact hb3 v hv

theorem toU32_lt (i : Int) : toU32 i < 2 ^ 32 := by
  unfold toU32
  have h1 : 0 ≤ i % 2 ^ 32 := Int.emod_nonneg _ (by norm_num)
  have h2 : i % 2 ^ 32 < 2 ^ 32 := Int.emod_lt_of_pos _ (by norm_num)
  omega

theorem pushThenDraw_meshes (prims : List GLTFPrimMesh) (off i : Nat) (hi : i < 2 ^ 32)
    (ms : List Nat) : PushThenDraw off (ms.flatMap (meshCmds prims off i)) := by
  induction ms with
  | nil => simpa using pushThenDraw_nil off
  | cons m rest ih =>
    rw [List.flatMap_cons]
    refine pushThenDraw_append off _ _ ?_ ih
    unfold meshCmds
    cases prims[m]? with
    | none => exact pushThenDraw_nil off
    | some p =>
      refine ⟨by simp [pushesOf, drawsOf, drawCall], by simp [pushesOf, drawsOf, drawCall], ?_⟩
      intro v hv
      have hv1 : v = [i, toU32 p.materialIndex] := by simpa [pushesOf, drawCall] using hv
      subst hv1
      refine ⟨rfl, ?_⟩
      intro x hx
      have hx1 : x = i ∨ x = toU32 p.materialIndex := by simpa using hx
      rcases hx1 with h | h
      · omega
      · rw [h]; exact toU32_lt _

theorem pushThenDraw_nodes {M : Type} (prims : List GLTFPrimMesh) (off : Nat)
    (nodes : List (GLTFNode M)) :
    ∀ start, PushThenDraw off (nodeCmdsFrom prims off start nodes) := by
  induction nodes with
  | nil => intro start; simpa [nodeCmdsFrom] using pushThenDraw_nil off
  | cons node rest ih =>
    intro start
    rw [nodeCmdsFrom]
    exact pushThenDraw_append off _ _
      (pushThenDraw_meshes prims off _ (Nat.mod_lt _ (by norm_num)) _) (ih _)

theorem pushesOf_binds (cmds : List DrawCmd) :
    pushesOf ([DrawCmd.bindVertexBuffers, DrawCmd.bindIndexBuffer, DrawCmd.bindDescriptorSets,
      DrawCmd.scopeLabel] ++ cmds) = pushesOf cmds := by
  simp [pushesOf]

theorem drawsOf_binds (cmds : List DrawCmd) :
    drawsOf ([DrawCmd.bindVertexBuffers, DrawCmd.bindIndexBuffer, DrawCmd.bindDescriptorSets,
      DrawCmd.scopeLabel] ++ cmds) = drawsOf cmds := by
  simp [drawsOf]

theorem pushDrawOf_binds (cmds : List DrawCmd) :
    pushDrawOf ([DrawCmd.bindVertexBuffers, DrawCmd.bindIndexBuffer, DrawCmd.bindDescriptorSets,
      DrawCmd.scopeLabel] ++ cmds) = pushDrawOf cmds := by
  simp [pushDrawOf]

theorem validMeshIndices_sample : ValidMeshIndices sampleNodes samplePrimMeshes := by
  intro node hn m hm
  simp only [sampleNodes, List.mem_cons, List.mem_singleton, List.not_mem_nil, or_false] at hn
  rcases hn with rfl | rfl | rfl <;> simp at hm <;> simp [samplePrimMeshes] <;> omega

/-- C1: on a scene whose mesh indices are valid and that has at most `2 ^ 32` nodes,
`cmdDraw` returns, and the instance indices it pushes, draw after draw, are the position
of the owning node repeated once per primitive mesh of that node: every draw of the node
at position `i` carries `i`, whatever the number of meshes of the nodes before it. -/
theorem cmdDraw_instance_index_is_node_position {M : Type} (nodes : List (GLTFNode M))
    (prims : List GLTFPrimMesh) (off : Nat) (hv : ValidMeshIndices nodes prims)
    (hlen : nodes.length ≤ 2 ^ 32) :
    ∃ cmds, cmdDraw nodes prims off = some cmds ∧
      pushedInstanceIndices cmds =
        nodes.enum.flatMap fun p => List.replicate p.2.primMeshes.length (some p.1) := by
  refine ⟨_, cmdDraw_eq nodes prims off hv, ?_⟩
  have h := pushesOf_nodes_instance prims off nodes 0 hv (by omega)
  simp only [pushedInstanceIndices] at h ⊢
  rw [pushesOf_binds, h, nodePositions_eq_enumFrom, List.enum]
  simp [List.map_flatMap]

theorem cmdDraw_instance_index_is_node_position_witness :
    ValidMeshIndices sampleNodes samplePrimMeshes ∧ sampleNodes.length ≤ 2 ^ 32 ∧
    ∃ cmds, cmdDraw sampleNodes samplePrimMeshes 0 = some cmds ∧
      pushedInstanceIndices cmds =
        sampleNodes.enum.flatMap fun p => List.replicate p.2.primMeshes.length (some p.1) :=
  ⟨validMeshIndices_sample, by simp [sampleNodes],
   cmdDraw_instance_index_is_node_position sampleNodes samplePrimMeshes 0
     validMeshIndices_sample (by simp [sampleNodes])⟩

/-- C2 (evaluation at the failing input): for the scene made of a node without primitive
meshes followed by a node with one, `cmdDraw` pushes instance index `1` with the only draw,
while `uploadMatrixBuffer` stores a single matrix pair, that of the second node, at
position `0`, and `initialize` sizes the buffer for one pair. -/
theorem cmdDraw_instance_index_past_matrixBuf :
    cmdDraw [{ world := 10, primMeshes := [] }, { world := 20, primMeshes := [0] }]
        [{ firstIndex := 0, indexCount := 3, vertexOffset := 0, materialIndex := 0 }] 0 =
      some [DrawCmd.bindVertexBuffers, DrawCmd.bindIndexBuffer, DrawCmd.bindDescriptorSets,
            DrawCmd.scopeLabel, DrawCmd.pushConstants 0 8 [1, 0], DrawCmd.drawIndexed 3 1 0 0 0] ∧
    matrixBuf (fun w => w + 1)
        [{ world := 10, primMeshes := [] }, { world := 20, primMeshes := [0] }] = [(20, 21)] ∧
    numMatrices [({ world := 10, primMeshes := [] } : GLTFNode Nat),
        { world := 20, primMeshes := [0] }] = 1 := by
  refine ⟨by decide, by decide, by decide⟩

/-- C3: on a scene whose mesh indices are valid, `cmdDraw` returns, and its indexed draws
are, in order, `drawIndexed(indexCount, 1, firstIndex, vertexOffset, 0)` of the primitive
meshes referenced node after node; their number is the sum of the nodes' mesh counts; and
the pushes and draws alternate, each draw directly after its own push of two 32-bit
values. -/
theorem cmdDraw_draw_sequence {M : Type} (nodes : List (GLTFNode M))
    (prims : List GLTFPrimMesh) (off : Nat) (hv : ValidMeshIndices nodes prims) :
    ∃ cmds, cmdDraw nodes prims off = some cmds ∧
      (drawsOf cmds).map some =
        (nodes.flatMap fun node => node.primMeshes).map
          (fun m => prims[m]?.map fun primMesh =>
            DrawCmd.drawIndexed primMesh.indexCount 1 primMesh.firstIndex
              primMesh.vertexOffset 0) ∧
      (drawsOf cmds).length = (nodes.map fun node => node.primMeshes.length).sum ∧
      PushThenDraw off (pushDrawOf cmds) := by
  refine ⟨_, cmdDraw_eq nodes prims off hv, ?_, ?_, ?_⟩
  · rw [drawsOf_binds]
    exact drawsOf_nodes prims off nodes 0 hv
  · have h := congrArg List.length (drawsOf_nodes prims off nodes 0 hv)
    rw [drawsOf_binds]
    simpa [length_meshIndicesInOrder] using h
  · rw [pushDrawOf_binds, pushDrawOf_nodes]
    exact pushThenDraw_nodes prims off nodes 0

theorem cmdDraw_draw_sequence_witness :
    ValidMeshIndices sampleNodes samplePrimMeshes ∧
    ∃ cmds, cmdDraw sampleNodes samplePrimMeshes 0 = some cmds ∧
      (drawsOf cmds).map some =
        (sampleNodes.flatMap fun node => node.primMeshes).map
          (fun m => samplePrimMeshes[m]?.map fun primMesh =>
            DrawCmd.drawIndexed primMesh.indexCount 1 primMesh.firstIndex
              primMesh.vertexOffset 0) ∧
      (drawsOf cmds).length = (sampleNodes.map fun node => node.primMeshes.length).sum ∧
      PushThenDraw 0 (pushDrawOf cmds) :=
  ⟨validMeshIndices_sample,
   cmdDraw_draw_sequence sampleNodes samplePrimMeshes 0 validMeshIndices_sample⟩

/-- C4: on a scene whose mesh indices are valid, `cmdDraw` returns, and the material
indices it pushes, draw after draw, are the `materialIndex` of the primitive mesh being
drawn converted to `uint32_t`: a function of that mesh alone. -/
theorem cmdDraw_material_index_of_mesh {M : Type} (nodes : List (GLTFNode M))
    (prims : List GLTFPrimMesh) (off : Nat) (hv : ValidMeshIndices nodes prims) :
    ∃ cmds, cmdDraw nodes prims off = some cmds ∧
      pushedMaterialIndices cmds =
        (nodes.flatMap fun node => node.primMeshes).map
          (fun m => prims[m]?.map fun primMesh => toU32 primMesh.materialIndex) := by
  refine ⟨_, cmdDraw_eq nodes prims off hv, ?_⟩
  have h := pushesOf_nodes_material prims off nodes 0 hv
  simp only [pushedMaterialIndices] at h ⊢
  rw [pushesOf_binds, h]
  rfl

theorem cmdDraw_material_index_of_mesh_witness :
    ValidMeshIndices sampleNodes samplePrimMeshes ∧
    ∃ cmds, cmdDraw sampleNodes samplePrimMeshes 0 = some cmds ∧
      pushedMaterialIndices cmds =
        (sampleNodes.flatMap fun node => node.primMeshes).map
          (fun m => samplePrimMeshes[m]?.map fun primMesh => toU32 primMesh.materialIndex) :=
  ⟨validMeshIndices_sample,
   cmdDraw_material_index_of_mesh sampleNodes samplePrimMeshes 0 validMeshIndices_sample⟩

/-! ## Mip chain -/

theorem blitsOf_append (a b : List TransferCmd) : blitsOf (a ++ b) = blitsOf a ++ blitsOf b := by
  simp [blitsOf, List.filterMap_append]

theorem blitsOf_mipLoop (mipLevels : Nat) :
    ∀ (count mip : Nat) (st : MipLoopState), mipLevels - mip = count →
    blitsOf (mipLoop mipLevels mip st).cmds =
      blitsOf st.cmds ++ expectedBlits count mip st.mipWidth st.mipHeight := by
  intro count
  induction count with
  | zero =>
    intro mip st h
    rw [mipLoop, if_neg (by omega)]
    simp [expectedBlits]
  | succ n ih =>
    intro mip st h
    rw [mipLoop, if_pos (by omega), ih (mip + 1) (mipLoopBody mip st) (by omega)]
    simp [mipLoopBody, expectedBlits, blitsOf_append, blitsOf]

theorem blitsOf_blitCmds (width height : Int) :
    blitsOf (blitCmds width height) =
      expectedBlits (mipLevels width height - 1) 1 width height := by
  rw [blitCmds, blitsOf_mipLoop _ (mipLevels width height - 1) 1 _ rfl]
  simp [blitsOf]

theorem vfs_max_eq (a b : Int) : vfs.max a b = max a b := by
  unfold vfs.max
  split_ifs with h
  · exact (max_eq_right (le_of_lt h)).symm
  · exact (max_eq_left (not_lt.mp h)).symm

theorem mipLevels_bounds (n : Nat) (hn : 1 ≤ n) :
    2 ^ (Nat.log2 n + 1 - 1) ≤ n ∧ n < 2 ^ (Nat.log2 n + 1) ∧
    ∀ L : Nat, 2 ^ (L - 1) ≤ n → n < 2 ^ L → L = Nat.log2 n + 1 := by
  have hne : n ≠ 0 := by omega
  refine ⟨by simpa using Nat.log2_self_le hne, Nat.lt_log2_self, ?_⟩
  intro L h1 h2
  have h3 : Nat.log2 n < L := (Nat.log2_lt hne).mpr h2
  have h4 : ¬ Nat.log2 n < L - 1 := fun hlt => by
    have := (Nat.log2_lt hne).mp hlt
    omega
  omega

/-- C5: for a texture with `width ≥ 1` and `height ≥ 1` the level count of `uploadImage`
is `⌊log₂ (max width height)⌋ + 1` (logarithm over the reals), it is the unique `L` with
`2 ^ (L - 1) ≤ max width height < 2 ^ L`, and it is `11` for `1024 × 600` and `1` for
`1 × 1`. -/
theorem mipLevels_eq_floor_log2 (w h : Int) (hw : 1 ≤ w) (_hh : 1 ≤ h) :
    (mipLevels w h : ℤ) = ⌊Real.logb 2 ((max w h : ℤ) : ℝ)⌋ + 1 ∧
    (2 : ℤ) ^ (mipLevels w h - 1) ≤ max w h ∧ max w h < (2 : ℤ) ^ mipLevels w h ∧
    (∀ L : ℕ, (2 : ℤ) ^ (L - 1) ≤ max w h → max w h < (2 : ℤ) ^ L → L = mipLevels w h) ∧
    mipLevels 1024 600 = 11 ∧ mipLevels 1 1 = 1 := by
  have hpos : 1 ≤ max w h := le_trans hw (le_max_left w h)
  obtain ⟨n, hn⟩ : ∃ n : ℕ, max w h = (n : ℤ) := ⟨(max w h).toNat, (Int.toNat_of_nonneg (by omega)).symm⟩
  have hn1 : 1 ≤ n := by omega
  have hL : mipLevels w h = Nat.log2 n + 1 := by
    simp [mipLevels, vfs_max_eq, hn]
  obtain ⟨b1, b2, b3⟩ := mipLevels_bounds n hn1
  refine ⟨?_, ?_, ?_, ?_, ?_, ?_⟩
  · rw [hL, hn]
    have := @Real.floor_logb_natCast 2 ((n : ℤ) : ℝ) (by positivity)
    simp only [Nat.cast_ofNat] at this
    rw [this]
    simp [Int.log_natCast, Nat.log2_eq_log_two]
  · rw [hL, hn]; exact_mod_cast b1
  · rw [hL, hn]; exact_mod_cast b2
  · intro L h1 h2
    rw [hL]
    rw [hn] at h1 h2
    exact b3 L (by exact_mod_cast h1) (by exact_mod_cast h2)
  · have e : Nat.log2 1024 = 10 := by
      rw [Nat.log2_eq_log_two]
      exact (Nat.log_eq_iff (by norm_num)).mpr ⟨by norm_num, by norm_num⟩
    have hmax : (vfs.max 1024 600).toNat = 1024 := by decide
    rw [mipLevels, hmax, e]
  · have e : Nat.log2 1 = 0 := by
      rw [Nat.log2_eq_log_two]
      simp
    have hmax : (vfs.max 1 1).toNat = 1 := by decide
    rw [mipLevels, hmax, e]

theorem mipLevels_eq_floor_log2_witness :
    (1 : Int) ≤ 1024 ∧ (1 : Int) ≤ 600 ∧
    (mipLevels 1024 600 : ℤ) = ⌊Real.logb 2 ((max 1024 600 : ℤ) : ℝ)⌋ + 1 ∧
    (2 : ℤ) ^ (mipLevels 1024 600 - 1) ≤ max 1024 600 ∧
    max 1024 600 < (2 : ℤ) ^ mipLevels 1024 600 ∧
    (∀ L : ℕ, (2 : ℤ) ^ (L - 1) ≤ max 1024 600 → max 1024 600 < (2 : ℤ) ^ L →
      L = mipLevels 1024 600) ∧
    mipLevels 1024 600 = 11 ∧ mipLevels 1 1 = 1 :=
  ⟨by decide, by decide, mipLevels_eq_floor_log2 1024 600 (by decide) (by decide)⟩

theorem shiftRight_one (x : Int) : x >>> (1 : Nat) = x / 2 := by
  rw [Int.shiftRight_eq_div_pow]; norm_num

theorem halve_eq_max (x : Int) : (if x > 1 then x >>> (1 : Nat) else 1) = max (1 : Int) (x >>> (1 : Nat)) := by
  rw [shiftRight_one]
  split_ifs with h
  · exact (max_eq_right (by omega)).symm
  · exact (max_eq_left (by omega)).symm

theorem halve_pos (x : Int) (hx : 1 ≤ x) : 1 ≤ (if x > 1 then x >>> (1 : Nat) else x) := by
  rw [shiftRight_one]
  split_ifs with h <;> omega

theorem halve_next (x : Int) (hx : 1 ≤ x) :
    (if x > 1 then x >>> (1 : Nat) else x) = (if x > 1 then x >>> (1 : Nat) else 1) := by
  split_ifs with h
  · rfl
  · omega

theorem length_expectedBlits (count : Nat) :
    ∀ (mip : Nat) (w h : Int), (expectedBlits count mip w h).length = count := by
  induction count with
  | zero => intro mip w h; rfl
  | succ n ih => intro mip w h; simp [expectedBlits, ih]

theorem expectedBlits_getElem (count : Nat) :
    ∀ (mip : Nat) (w h : Int) (k : Nat) (blit : ImageBlit), 1 ≤ mip →
    (expectedBlits count mip w h)[k]? = some blit →
    blit.srcMipLevel = mip - 1 + k ∧ blit.dstMipLevel = mip + k ∧ k < count ∧
    blit.dstExtent = (max (1 : Int) (blit.srcExtent.1 >>> (1 : Nat)), max (1 : Int) (blit.srcExtent.2 >>> (1 : Nat))) := by
  induction count with
  | zero => intro mip w h k blit _ hk; simp [expectedBlits] at hk
  | succ n ih =>
    intro mip w h k blit hmip hk
    cases k with
    | zero =>
      simp only [expectedBlits, List.getElem?_cons_zero, Option.some.injEq] at hk
      subst hk
      simp [halve_eq_max]
    | succ j =>
      simp only [expectedBlits, List.getElem?_cons_succ] at hk
      obtain ⟨h1, h2, h3, h4⟩ := ih (mip + 1) _ _ j blit (by omega) hk
      refine ⟨by omega, by omega, by omega, h4⟩

theorem expectedBlits_chain (count : Nat) :
    ∀ (mip : Nat) (w h : Int) (k : Nat) (prev blit : ImageBlit), 1 ≤ w → 1 ≤ h →
    (expectedBlits count mip w h)[k]? = some prev →
    (expectedBlits count mip w h)[k + 1]? = some blit →
    blit.srcExtent = prev.dstExtent := by
  induction count with
  | zero => intro mip w h k prev blit _ _ hk; simp [expectedBlits] at hk
  | succ n ih =>
    intro mip w h k prev blit hw hh hk hk1
    cases k with
    | zero =>
      simp only [expectedBlits, List.getElem?_cons_zero, Option.some.injEq] at hk
      simp only [expectedBlits, List.getElem?_cons_succ] at hk1
      subst hk
      cases n with
      | zero => simp [expectedBlits] at hk1
      | succ m =>
        simp only [expectedBlits, List.getElem?_cons_zero, Option.some.injEq] at hk1
        subst hk1
        simp [halve_next w hw, halve_next h hh]
    | succ j =>
      simp only [expectedBlits, List.getElem?_cons_succ] at hk hk1
      exact ih (mip + 1) _ _ j prev blit (halve_pos w hw) (halve_pos h hh) hk hk1

/-- C6: for a texture of size `w × h` (`w, h ≥ 1`) with `L = mipLevels w h` levels, the
mipmap loop records exactly `L - 1` blits; the blit at position `k` (counting from `0`)
reads level `k` and writes level `k + 1 < L`; its destination extent is
`(max 1 (pw >> 1), max 1 (ph >> 1))` for its source extent `(pw, ph)`; the first source
extent is `(w, h)` and every later one is the destination extent of the blit before. -/
theorem mipLoop_blit_chain (w h : Int) (hw : 1 ≤ w) (hh : 1 ≤ h) :
    (blitsOf (blitCmds w h)).length = mipLevels w h - 1 ∧
    (∀ (k : Nat) (blit : ImageBlit), (blitsOf (blitCmds w h))[k]? = some blit →
      blit.srcMipLevel = k ∧ blit.dstMipLevel = k + 1 ∧ blit.dstMipLevel < mipLevels w h ∧
      blit.dstExtent = (max (1 : Int) (blit.srcExtent.1 >>> (1 : Nat)),
        max (1 : Int) (blit.srcExtent.2 >>> (1 : Nat)))) ∧
    (∀ blit : ImageBlit, (blitsOf (blitCmds w h))[0]? = some blit → blit.srcExtent = (w, h)) ∧
    (∀ (k : Nat) (prev blit : ImageBlit), (blitsOf (blitCmds w h))[k]? = some prev →
      (blitsOf (blitCmds w h))[k + 1]? = some blit → blit.srcExtent = prev.dstExtent) := by
  rw [blitsOf_blitCmds]
  refine ⟨length_expectedBlits _ _ _ _, ?_, ?_, ?_⟩
  · intro k blit hk
    obtain ⟨h1, h2, h3, h4⟩ := expectedBlits_getElem _ 1 w h k blit (le_refl 1) hk
    refine ⟨by omega, by omega, by omega, h4⟩
  · intro blit hk
    cases hc : mipLevels w h - 1 with
    | zero => rw [hc] at hk; simp [expectedBlits] at hk
    | succ n =>
      rw [hc] at hk
      simp only [expectedBlits, List.getElem?_cons_zero, Option.some.injEq] at hk
      subst hk
      rfl
  · intro k prev blit hk hk1
    exact expectedBlits_chain _ 1 w h k prev blit hw hh hk hk1


theorem mipLoop_blit_chain_witness :
    (1 : Int) ≤ 5 ∧ (1 : Int) ≤ 3 ∧
    (blitsOf (blitCmds 5 3)).length = mipLevels 5 3 - 1 ∧
    (∀ (k : Nat) (blit : ImageBlit), (blitsOf (blitCmds 5 3))[k]? = some blit →
      blit.srcMipLevel = k ∧ blit.dstMipLevel = k + 1 ∧ blit.dstMipLevel < mipLevels 5 3 ∧
      blit.dstExtent = (max (1 : Int) (blit.srcExtent.1 >>> (1 : Nat)),
        max (1 : Int) (blit.srcExtent.2 >>> (1 : Nat)))) ∧
    (∀ blit : ImageBlit, (blitsOf (blitCmds 5 3))[0]? = some blit → blit.srcExtent = (5, 3)) ∧
    (∀ (k : Nat) (prev blit : ImageBlit), (blitsOf (blitCmds 5 3))[k]? = some prev →
      (blitsOf (blitCmds 5 3))[k + 1]? = some blit → blit.srcExtent = prev.dstExtent) :=
  ⟨by decide, by decide, mipLoop_blit_chain 5 3 (by decide) (by decide)⟩





/-! ## OBJ decoder: texture coordinates and degenerate triangles -/

theorem emitCorner_vertices {F : Type} [LT F] [∀ a b : F, Decidable (a < b)]
    (format : VertexFormat) (out : ObjBuffers F) (position normal : vec3 F)
    (texCoord : vec2 F) :
    (LoadObjFile.emitCorner format out position normal texCoord).vertices =
      out.vertices ++ cornerFloats format position normal texCoord := by
  unfold LoadObjFile.emitCorner cornerFloats
  cases format.Position3 <;> cases format.Normal3 <;> cases format.TexCoord2 <;> simp

/-- The floats `LoadObjFile` appends for one face are those of its three corners, in
order, each laid out as position, normal, texture coordinate. -/
theorem emitFace_vertices {F : Type} [LT F] [∀ a b : F, Decidable (a < b)]
    (format : VertexFormat) (out : ObjBuffers F) (arrays : FaceArrays F) :
    (LoadObjFile.emitFace format out arrays).vertices =
      out.vertices ++
        (cornerFloats format arrays.position.1 arrays.normal.1 arrays.texCoord.1 ++
         cornerFloats format arrays.position.2.1 arrays.normal.2.1 arrays.texCoord.2.1 ++
         cornerFloats format arrays.position.2.2 arrays.normal.2.2 arrays.texCoord.2.2) := by
  simp [LoadObjFile.emitFace, emitCorner_vertices, List.append_assoc]

/-- C7: when the format has `TexCoord2` and the position and normal blocks of a face
succeed, the face's texture coordinates are `(u, 1 - v)` of the referenced inputs if the
file has texcoords and the three texcoord indices are non-negative (and in range), and
are `(0, 0)` for all three corners if the file has no texcoords or an index is negative. -/
theorem LoadObjFile_texCoord_flip {F : Type} [Zero F] [One F] [Sub F] [Mul F] [DecidableEq F]
    (normalize : vec3 F → vec3 F) (attrib : attrib_t F) (smooth : NormalMap F)
    (format : VertexFormat) (face : index_t × index_t × index_t)
    (position normal : vec3 F × vec3 F × vec3 F)
    (hfmt : format.TexCoord2 = true)
    (hp : LoadObjFile.positions attrib format face.1 face.2.1 face.2.2 = some position)
    (hn : LoadObjFile.normals normalize attrib smooth format face.1 face.2.1 face.2.2 position =
      some normal) :
    (attrib.texcoords ≠ [] → 0 ≤ face.1.texcoord_index → 0 ≤ face.2.1.texcoord_index →
      0 ≤ face.2.2.texcoord_index →
      ∀ u0 v0 u1 v1 u2 v2 : F,
        readAt attrib.texcoords (2 * face.1.texcoord_index) = some u0 →
        readAt attrib.texcoords (2 * face.1.texcoord_index + 1) = some v0 →
        readAt attrib.texcoords (2 * face.2.1.texcoord_index) = some u1 →
        readAt attrib.texcoords (2 * face.2.1.texcoord_index + 1) = some v1 →
        readAt attrib.texcoords (2 * face.2.2.texcoord_index) = some u2 →
        readAt attrib.texcoords (2 * face.2.2.texcoord_index + 1) = some v2 →
        LoadObjFile.faceArrays normalize attrib smooth format face =
          some { position := position, normal := normal,
                 texCoord := ({ x := u0, y := 1 - v0 }, { x := u1, y := 1 - v1 },
                              { x := u2, y := 1 - v2 }) }) ∧
    ((attrib.texcoords = [] ∨ face.1.texcoord_index < 0 ∨ face.2.1.texcoord_index < 0 ∨
        face.2.2.texcoord_index < 0) →
      LoadObjFile.faceArrays normalize attrib smooth format face =
        some { position := position, normal := normal,
               texCoord := (vec2.zero, vec2.zero, vec2.zero) }) := by
  constructor
  · intro hne h0 h1 h2 u0 v0 u1 v1 u2 v2 r0 r0' r1 r1' r2 r2'
    have hlen : attrib.texcoords.length > 0 := List.length_pos.mpr hne
    have hneg : ¬ (face.1.texcoord_index < 0 ∨ face.2.1.texcoord_index < 0 ∨
        face.2.2.texcoord_index < 0) := by omega
    simp [LoadObjFile.faceArrays, hp, hn, LoadObjFile.texCoords, hfmt, hlen, hneg,
      readTexCoord, r0, r0', r1, r1', r2, r2']
  · intro h
    by_cases hlen : attrib.texcoords.length > 0
    · have hne : attrib.texcoords ≠ [] := List.length_pos.mp hlen
      have hneg : face.1.texcoord_index < 0 ∨ face.2.1.texcoord_index < 0 ∨
          face.2.2.texcoord_index < 0 := by
        rcases h with h | h
        · exact absurd h hne
        · exact h
      simp [LoadObjFile.faceArrays, hp, hn, LoadObjFile.texCoords, hfmt, hlen, hneg]
    · simp [LoadObjFile.faceArrays, hp, hn, LoadObjFile.texCoords, hfmt, hlen]

theorem CheckTriangle_eq_false_of_collinear {R : Type} [CommRing R] [DecidableEq R]
    (v1 v2 v3 : vec3 R) (h : Collinear v1 v2 v3) : CheckTriangle v1 v2 v3 = false := by
  have hz := congrArg vec3.z h
  simp only [cross, vec3.sub, vec3.zero] at hz
  have : (v2.x - v1.x) * (v3.y - v2.y) = (v3.x - v2.x) * (v2.y - v1.y) := by
    linear_combination hz
  simp [CheckTriangle, this]

/-- In exact arithmetic (a commutative ring), for three collinear points `CalculateNormal`
returns the zero vector and does not call `glm::normalize` at all; and for any three
points, an argument it does pass to `glm::normalize` is not the zero vector. -/
theorem CalculateNormal_collinear {R : Type} [CommRing R] [DecidableEq R]
    (normalize : vec3 R → vec3 R) (v1 v2 v3 : vec3 R) (h : Collinear v1 v2 v3) :
    CalculateNormal normalize v1 v2 v3 = vec3.zero ∧
    CalculateNormal.normalizeCall v1 v2 v3 = none ∧
    ∀ w1 w2 w3 c : vec3 R, CalculateNormal.normalizeCall w1 w2 w3 = some c → c ≠ vec3.zero := by
  have hc := CheckTriangle_eq_false_of_collinear v1 v2 v3 h
  refine ⟨by simp [CalculateNormal, hc], by simp [CalculateNormal.normalizeCall, hc], ?_⟩
  intro w1 w2 w3 c hcall hzero
  unfold CalculateNormal.normalizeCall at hcall
  split_ifs at hcall with hchk
  simp only [Option.some.injEq] at hcall
  have hz : c.z = 0 := by rw [hzero]; rfl
  rw [← hcall] at hz
  simp only [cross, vec3.sub] at hz
  have : (w2.x - w1.x) * (w3.y - w2.y) = (w3.x - w2.x) * (w2.y - w1.y) := by
    linear_combination hz
  simp [CheckTriangle, this] at hchk

/-! ## OBJ decoder: smoothing normals -/

section Smoothing

variable {F : Type}

theorem NormalMap.find_append (a b : NormalMap F) (k : Int) :
    NormalMap.find (a ++ b) k =
      match NormalMap.find a k with
      | some v => some v
      | none => NormalMap.find b k := by
  induction a with
  | nil => simp [NormalMap.find]
  | cons p rest ih =>
    obtain ⟨k1, v1⟩ := p
    simp only [List.cons_append, NormalMap.find]
    split_ifs with h
    · rfl
    · exact ih

theorem NormalMap.find_map_add [Add F] (m : NormalMap F) (key : Int) (n : vec3 F) (k : Int) :
    NormalMap.find (m.map fun p => if p.1 = key then (p.1, vec3.add p.2 n) else p) k =
      if k = key then (NormalMap.find m k).map (fun s => vec3.add s n)
      else NormalMap.find m k := by
  induction m with
  | nil => simp [NormalMap.find]
  | cons p rest ih =>
    obtain ⟨k1, v1⟩ := p
    rw [List.map_cons]
    by_cases h1 : k1 = key
    · have e : (if (k1, v1).1 = key then ((k1, v1).1, vec3.add (k1, v1).2 n) else (k1, v1)) =
          (k1, vec3.add v1 n) := by simp [h1]
      rw [e]
      by_cases h2 : k1 = k
      · have h3 : k = key := by omega
        simp [NormalMap.find, h2, h3]
      · have h3 : ¬ k = key := by omega
        simp only [NormalMap.find, h2, if_false, ih, h3]
    · have e : (if (k1, v1).1 = key then ((k1, v1).1, vec3.add (k1, v1).2 n) else (k1, v1)) =
          (k1, v1) := by simp [h1]
      rw [e]
      by_cases h2 : k1 = k
      · have h3 : ¬ k = key := by omega
        simp [NormalMap.find, h2, h3]
      · simp only [NormalMap.find, h2, if_false, ih]

theorem NormalMap.find_map_normalize (normalize : vec3 F → vec3 F) (m : NormalMap F) (k : Int) :
    NormalMap.find (m.map fun p => (p.1, normalize p.2)) k =
      (NormalMap.find m k).map normalize := by
  induction m with
  | nil => simp [NormalMap.find]
  | cons p rest ih =>
    obtain ⟨k1, v1⟩ := p
    by_cases h : k1 = k
    · simp [NormalMap.find, h]
    · simpa [NormalMap.find, h] using ih

theorem sumInOrder_append_singleton [Add F] (l : List (vec3 F)) (n : vec3 F) :
    sumInOrder (l ++ [n]) =
      some (match sumInOrder l with
        | none => n
        | some s => vec3.add s n) := by
  cases l with
  | nil => rfl
  | cons a rest => simp [sumInOrder, List.foldl_append]

/-- One `accumulate` step keeps the map equal to the per-key sums. -/
theorem NormalMap.accumulate_sum [Add F] (m : NormalMap F) (L : Int → List (vec3 F))
    (hinv : ∀ k, NormalMap.find m k = sumInOrder (L k)) (key : Int) (n : vec3 F) :
    ∀ k, NormalMap.find (m.accumulate key n) k =
      sumInOrder (L k ++ ([key].filter fun f => decide (f = k)).map fun _ => n) := by
  intro k
  unfold NormalMap.accumulate
  by_cases hk : key = k
  · subst hk
    have hfil : ([key].filter fun f => decide (f = key)).map (fun _ => n) = [n] := by simp
    rw [hfil, sumInOrder_append_singleton, ← hinv key]
    cases hf : NormalMap.find m key with
    | none => simp [NormalMap.find_append, hf, NormalMap.find]
    | some s => simp [NormalMap.find_map_add, hf]
  · have hfil : ([key].filter fun f => decide (f = k)).map (fun _ => n) = [] := by simp [hk]
    have hk2 : ¬ k = key := fun h => hk h.symm
    rw [hfil, List.append_nil, ← hinv k]
    cases hf : NormalMap.find m key with
    | none =>
      simp only [NormalMap.find_append, NormalMap.find, hk, if_false]
      cases NormalMap.find m k <;> rfl
    | some s => simp [NormalMap.find_map_add, hk2]

end Smoothing

section Smoothing2
variable {F : Type}

theorem readAt_of_lt (xs : List F) (i : Int) (h0 : 0 ≤ i) (h1 : i < xs.length) :
    ∃ x, readAt xs i = some x := by
  have hlt : i.toNat < xs.length := by omega
  exact ⟨xs[i.toNat], by simp [readAt, not_lt.mpr h0, List.getElem?_eq_getElem hlt]⟩

theorem readVec3_of_inRange (xs : List F) (f : Int) (h0 : 0 ≤ f) (h1 : 3 * f + 2 < xs.length) :
    ∃ p, readVec3 xs f = some p := by
  obtain ⟨x, hx⟩ := readAt_of_lt xs (3 * f) (by omega) (by omega)
  obtain ⟨y, hy⟩ := readAt_of_lt xs (3 * f + 1) (by omega) (by omega)
  obtain ⟨z, hz⟩ := readAt_of_lt xs (3 * f + 2) (by omega) (by omega)
  exact ⟨⟨x, y, z⟩, by simp [readVec3, hx, hy, hz]⟩

theorem faceNormal_of_inRange [Zero F] [Sub F] [Mul F] [DecidableEq F]
    (normalize : vec3 F → vec3 F) (vertices : List F) (face : index_t × index_t × index_t)
    (h : ∀ f ∈ [face.1.vertex_index, face.2.1.vertex_index, face.2.2.vertex_index],
      0 ≤ f ∧ 3 * f + 2 < vertices.length) :
    ∃ p0 p1 p2, readVec3 vertices face.1.vertex_index = some p0 ∧
      readVec3 vertices face.2.1.vertex_index = some p1 ∧
      readVec3 vertices face.2.2.vertex_index = some p2 ∧
      faceNormal normalize vertices face = some (CalculateNormal normalize p0 p1 p2) := by
  obtain ⟨p0, h0⟩ := readVec3_of_inRange vertices face.1.vertex_index
    (h _ (by simp)).1 (h _ (by simp)).2
  obtain ⟨p1, h1⟩ := readVec3_of_inRange vertices face.2.1.vertex_index
    (h _ (by simp)).1 (h _ (by simp)).2
  obtain ⟨p2, h2⟩ := readVec3_of_inRange vertices face.2.2.vertex_index
    (h _ (by simp)).1 (h _ (by simp)).2
  exact ⟨p0, p1, p2, h0, h1, h2, by simp [faceNormal, h0, h1, h2]⟩

theorem ComputeSmoothingNormals_face_sum [Zero F] [Add F] [Sub F] [Mul F] [DecidableEq F]
    (normalize : vec3 F → vec3 F) (vertices : List F) (m : NormalMap F)
    (L : Int → List (vec3 F)) (hinv : ∀ k, NormalMap.find m k = sumInOrder (L k))
    (face : index_t × index_t × index_t)
    (h : ∀ f ∈ [face.1.vertex_index, face.2.1.vertex_index, face.2.2.vertex_index],
      0 ≤ f ∧ 3 * f + 2 < vertices.length) :
    ∃ m1, ComputeSmoothingNormals.face normalize vertices m face = some m1 ∧
      ∀ k, NormalMap.find m1 k = sumInOrder (L k ++ cornerNormals normalize vertices [face] k) := by
  obtain ⟨p0, p1, p2, h0, h1, h2, hn⟩ := faceNormal_of_inRange normalize vertices face h
  have g0 := (h face.1.vertex_index (by simp)).1
  have g1 := (h face.2.1.vertex_index (by simp)).1
  have g2 := (h face.2.2.vertex_index (by simp)).1
  refine ⟨_, by simp [ComputeSmoothingNormals.face, g0, g1, g2, h0, h1, h2]; rfl, ?_⟩
  intro k
  have s1 := NormalMap.accumulate_sum m L hinv face.1.vertex_index
    (CalculateNormal normalize p0 p1 p2)
  have s2 := NormalMap.accumulate_sum _ _ s1 face.2.1.vertex_index
    (CalculateNormal normalize p0 p1 p2)
  have s3 := NormalMap.accumulate_sum _ _ s2 face.2.2.vertex_index
    (CalculateNormal normalize p0 p1 p2)
  rw [s3 k]
  congr 1
  simp only [cornerNormals, List.flatMap_cons, List.flatMap_nil, List.append_nil, hn,
    List.append_assoc]
  congr 1
  simp only [List.filter_cons, List.filter_nil]
  split_ifs <;> simp

theorem cornerNormals_cons [Zero F] [Sub F] [Mul F] [DecidableEq F]
    (normalize : vec3 F → vec3 F) (vertices : List F) (face : index_t × index_t × index_t)
    (rest : List (index_t × index_t × index_t)) (k : Int) :
    cornerNormals normalize vertices (face :: rest) k =
      cornerNormals normalize vertices [face] k ++ cornerNormals normalize vertices rest k := by
  simp [cornerNormals]

theorem ComputeSmoothingNormals_faces_sum [Zero F] [Add F] [Sub F] [Mul F] [DecidableEq F]
    (normalize : vec3 F → vec3 F) (vertices : List F)
    (faces : List (index_t × index_t × index_t)) :
    ∀ (m : NormalMap F) (L : Int → List (vec3 F)),
      (∀ k, NormalMap.find m k = sumInOrder (L k)) → VertexIndicesInRange vertices faces →
      ∃ m1, ComputeSmoothingNormals.faces normalize vertices m faces = some m1 ∧
        ∀ k, NormalMap.find m1 k =
          sumInOrder (L k ++ cornerNormals normalize vertices faces k) := by
  induction faces with
  | nil =>
    intro m L hinv _
    exact ⟨m, rfl, fun k => by simpa [cornerNormals] using hinv k⟩
  | cons face rest ih =>
    intro m L hinv hr
    obtain ⟨m1, e1, inv1⟩ := ComputeSmoothingNormals_face_sum normalize vertices m L hinv face
      (hr face (List.mem_cons_self _ _))
    obtain ⟨m2, e2, inv2⟩ := ih m1 _ inv1 (fun f hf => hr f (List.mem_cons_of_mem _ hf))
    refine ⟨m2, by simp [ComputeSmoothingNormals.faces, e1, e2], ?_⟩
    intro k
    rw [inv2 k, cornerNormals_cons normalize vertices face rest k, List.append_assoc]

/-- The map computed by `ComputeSmoothingNormals` on a shape whose vertex indices are in
range: at every key, the normalized in-order sum of the normals of the corners that
reference the key. -/
theorem ComputeSmoothingNormals_find [Zero F] [Add F] [Sub F] [Mul F] [DecidableEq F]
    (normalize : vec3 F → vec3 F) (attrib : attrib_t F) (shape : shape_t)
    (hr : VertexIndicesInRange attrib.vertices (meshFaces shape.mesh.indices)) :
    ∃ m, ComputeSmoothingNormals normalize attrib shape = some m ∧
      ∀ k, NormalMap.find m k =
        (sumInOrder (cornerNormals normalize attrib.vertices
          (meshFaces shape.mesh.indices) k)).map normalize := by
  obtain ⟨m1, e1, inv1⟩ := ComputeSmoothingNormals_faces_sum normalize attrib.vertices
    (meshFaces shape.mesh.indices) [] (fun _ => []) (fun k => rfl) hr
  refine ⟨_, by simp [ComputeSmoothingNormals, e1]; rfl, ?_⟩
  intro k
  rw [NormalMap.find_map_normalize, inv1 k]
  simp

end Smoothing2

section Smoothing3
variable {F : Type}

theorem cornerNormals_eq_nil [Zero F] [Sub F] [Mul F] [DecidableEq F]
    (normalize : vec3 F → vec3 F) (vertices : List F)
    (faces : List (index_t × index_t × index_t)) (v : Int)
    (h : ∀ face ∈ faces, v ≠ face.1.vertex_index ∧ v ≠ face.2.1.vertex_index ∧
      v ≠ face.2.2.vertex_index) :
    cornerNormals normalize vertices faces v = [] := by
  unfold cornerNormals
  rw [List.flatMap_eq_nil_iff]
  intro face hf
  obtain ⟨h0, h1, h2⟩ := h face hf
  cases faceNormal normalize vertices face with
  | none => rfl
  | some n => simp [List.filter_cons, Ne.symm h0, Ne.symm h1, Ne.symm h2]

theorem sumInOrder_cornerNormals_isSome [Zero F] [Add F] [Sub F] [Mul F] [DecidableEq F]
    (normalize : vec3 F → vec3 F) (vertices : List F)
    (faces : List (index_t × index_t × index_t))
    (hr : VertexIndicesInRange vertices faces) (face : index_t × index_t × index_t)
    (hf : face ∈ faces) (v : Int)
    (hv : v ∈ [face.1.vertex_index, face.2.1.vertex_index, face.2.2.vertex_index]) :
    ∃ s, sumInOrder (cornerNormals normalize vertices faces v) = some s := by
  obtain ⟨p0, p1, p2, _, _, _, hn⟩ := faceNormal_of_inRange normalize vertices face (hr face hf)
  have hmem : CalculateNormal normalize p0 p1 p2 ∈ cornerNormals normalize vertices faces v := by
    unfold cornerNormals
    rw [List.mem_flatMap]
    refine ⟨face, hf, ?_⟩
    rw [hn]
    exact List.mem_map.mpr ⟨v, List.mem_filter.mpr ⟨hv, by simp⟩, rfl⟩
  cases hc : cornerNormals normalize vertices faces v with
  | nil => rw [hc] at hmem; cases hmem
  | cons a rest => exact ⟨_, rfl⟩

theorem NormalMap.isEmpty_eq_false_of_find (m : NormalMap F) (k : Int) (s : vec3 F)
    (h : NormalMap.find m k = some s) : m.isEmpty = false := by
  cases m with
  | nil => simp [NormalMap.find] at h
  | cons p rest => rfl

/-- C9: for a shape that has a smoothing group and whose vertex indices are in range,
`ComputeSmoothingNormals` returns a map (the map `LoadObjFile` uses for the shape) that
sends every vertex index `v` to the normalization of the sum, over the face corners that
reference `v`, of the face's geometric normal, and has no entry for an index no face
references; and for a face of the shape without usable normal (the file has no normals,
or a normal index of the face is negative), the `Normal3` block of `LoadObjFile` gives
each corner the map's value at the corner's vertex index. -/
theorem ComputeSmoothingNormals_renormalized_sum [Zero F] [Add F] [Sub F] [Mul F]
    [DecidableEq F] (normalize : vec3 F → vec3 F) (attrib : attrib_t F) (shape : shape_t)
    (hs : HasSmoothingGroup shape = true)
    (hr : VertexIndicesInRange attrib.vertices (meshFaces shape.mesh.indices)) :
    ∃ m, ComputeSmoothingNormals normalize attrib shape = some m ∧
      LoadObjFile.smoothVertexNormals normalize attrib shape = some m ∧
      (∀ v, NormalMap.find m v =
        (sumInOrder (cornerNormals normalize attrib.vertices
          (meshFaces shape.mesh.indices) v)).map normalize) ∧
      (∀ v, (∀ face ∈ meshFaces shape.mesh.indices, v ≠ face.1.vertex_index ∧
          v ≠ face.2.1.vertex_index ∧ v ≠ face.2.2.vertex_index) →
        NormalMap.find m v = none) ∧
      (∀ face ∈ meshFaces shape.mesh.indices,
        ∀ (format : VertexFormat) (position : vec3 F × vec3 F × vec3 F),
        format.Normal3 = true →
        (attrib.normals = [] ∨ face.1.normal_index < 0 ∨ face.2.1.normal_index < 0 ∨
          face.2.2.normal_index < 0) →
        ∃ s0 s1 s2,
          sumInOrder (cornerNormals normalize attrib.vertices (meshFaces shape.mesh.indices)
            face.1.vertex_index) = some s0 ∧
          sumInOrder (cornerNormals normalize attrib.vertices (meshFaces shape.mesh.indices)
            face.2.1.vertex_index) = some s1 ∧
          sumInOrder (cornerNormals normalize attrib.vertices (meshFaces shape.mesh.indices)
            face.2.2.vertex_index) = some s2 ∧
          LoadObjFile.normals normalize attrib m format face.1 face.2.1 face.2.2 position =
            some (normalize s0, normalize s1, normalize s2)) := by
  obtain ⟨m, hm, hfind⟩ := ComputeSmoothingNormals_find normalize attrib shape hr
  refine ⟨m, hm, by simp [LoadObjFile.smoothVertexNormals, hs, hm], hfind, ?_, ?_⟩
  · intro v hv
    rw [hfind v, cornerNormals_eq_nil normalize attrib.vertices _ v hv]
    rfl
  · intro face hf format position hfmt hinv
    obtain ⟨s0, e0⟩ := sumInOrder_cornerNormals_isSome normalize attrib.vertices _ hr face hf
      face.1.vertex_index (by simp)
    obtain ⟨s1, e1⟩ := sumInOrder_cornerNormals_isSome normalize attrib.vertices _ hr face hf
      face.2.1.vertex_index (by simp)
    obtain ⟨s2, e2⟩ := sumInOrder_cornerNormals_isSome normalize attrib.vertices _ hr face hf
      face.2.2.vertex_index (by simp)
    refine ⟨s0, s1, s2, e0, e1, e2, ?_⟩
    have g0 := (hr face hf face.1.vertex_index (by simp)).1
    have g1 := (hr face hf face.2.1.vertex_index (by simp)).1
    have g2 := (hr face hf face.2.2.vertex_index (by simp)).1
    have f0 : NormalMap.find m face.1.vertex_index = some (normalize s0) := by
      rw [hfind, e0]; rfl
    have f1 : NormalMap.find m face.2.1.vertex_index = some (normalize s1) := by
      rw [hfind, e1]; rfl
    have f2 : NormalMap.find m face.2.2.vertex_index = some (normalize s2) := by
      rw [hfind, e2]; rfl
    have hne : m.isEmpty = false := NormalMap.isEmpty_eq_false_of_find m _ _ f0
    have hflag : (if attrib.normals.length > 0 then
        decide (face.1.normal_index < 0 ∨ face.2.1.normal_index < 0 ∨
          face.2.2.normal_index < 0) else true) = true := by
      by_cases hlen : attrib.normals.length > 0
      · have hnn : attrib.normals ≠ [] := List.length_pos.mp hlen
        rcases hinv with h | h
        · exact absurd h hnn
        · simp [hlen, h]
      · simp [hlen]
    unfold LoadObjFile.normals
    simp only [hfmt, hflag, hne, if_true, g0, g1, g2, and_self, NormalMap.get, f0, f1, f2,
      Option.getD_some]
    simp

end Smoothing3

section Flat
variable {F : Type}

theorem HasSmoothingGroup_loop_eq_false (ids : List Nat) (h : ∀ id ∈ ids, id = 0) :
    HasSmoothingGroup.loop ids = false := by
  induction ids with
  | nil => rfl
  | cons id rest ih =>
    have h0 : id = 0 := h id (List.mem_cons_self _ _)
    simp [HasSmoothingGroup.loop, h0, ih (fun x hx => h x (List.mem_cons_of_mem _ hx))]

/-- C10 (as stated, refuted): in `sampleShape` the first face has smoothing group id `0`
and the file has no normals, yet, because two other faces of the shape are in smoothing
group `1`, `LoadObjFile` gives the first corner of that face the smoothed normal
`(0, 0, -1)` and not the face's flat normal `CalculateNormal(p0, p1, p2) = (0, 0, 1)`. -/
theorem LoadObjFile_group_zero_face_smoothed :
    sampleShape.mesh.smoothing_group_ids[0]? = some 0 ∧
    sampleAttrib.normals = [] ∧
    (meshFaces sampleShape.mesh.indices)[0]? = some sampleFace ∧
    (∃ m arrays,
      LoadObjFile.smoothVertexNormals normalizeAxis sampleAttrib sampleShape = some m ∧
      LoadObjFile.faceArrays normalizeAxis sampleAttrib m
        { Position3 := true, Normal3 := true, TexCoord2 := false } sampleFace = some arrays ∧
      arrays.normal.1 = { x := 0, y := 0, z := -1 } ∧
      CalculateNormal normalizeAxis arrays.position.1 arrays.position.2.1 arrays.position.2.2 =
        { x := 0, y := 0, z := 1 } ∧
      arrays.normal.1 ≠
        CalculateNormal normalizeAxis arrays.position.1 arrays.position.2.1
          arrays.position.2.2) ∧
    (LoadObjFile.shape normalizeAxis sampleAttrib
        { Position3 := true, Normal3 := true, TexCoord2 := false } emptyBuffers sampleShape).map
      (fun out => out.vertices.take 6) = some [0, 0, 0, 0, 0, -1] := by
  refine ⟨by decide, by decide, by decide, ?_, by decide⟩
  refine ⟨[(0, ⟨0, 0, -1⟩), (1, ⟨0, 0, 1⟩), (2, ⟨0, 0, 1⟩), (3, ⟨0, 0, -1⟩), (4, ⟨0, 0, -1⟩),
      (5, ⟨0, 0, -1⟩), (6, ⟨0, 0, -1⟩)],
    { position := (⟨0, 0, 0⟩, ⟨1, 0, 0⟩, ⟨0, 1, 0⟩),
      normal := (⟨0, 0, -1⟩, ⟨0, 0, 1⟩, ⟨0, 0, 1⟩),
      texCoord := (vec2.zero, vec2.zero, vec2.zero) }, ?_, ?_, ?_, ?_, ?_⟩ <;> decide

/-- C10 (amended): for a shape none of whose smoothing group ids is positive, the map
`smoothVertexNormals` is empty, and for every face whose vertex indices are in range and
for which the file supplies no usable normal, with `Position3` and `Normal3` in the
format, each of the three corners receives the flat normal `CalculateNormal(p0, p1, p2)`
of the face's positions. -/
theorem LoadObjFile_flat_normal_without_smoothing_group [Zero F] [One F] [Add F] [Sub F]
    [Mul F] [DecidableEq F] (normalize : vec3 F → vec3 F) (attrib : attrib_t F)
    (shape : shape_t) (format : VertexFormat) (face : index_t × index_t × index_t)
    (texCoord : vec2 F × vec2 F × vec2 F)
    (hs : ∀ id ∈ shape.mesh.smoothing_group_ids, id = 0)
    (hpos : format.Position3 = true) (hnor : format.Normal3 = true)
    (hinv : attrib.normals = [] ∨ face.1.normal_index < 0 ∨ face.2.1.normal_index < 0 ∨
      face.2.2.normal_index < 0)
    (hr : ∀ f ∈ [face.1.vertex_index, face.2.1.vertex_index, face.2.2.vertex_index],
      0 ≤ f ∧ 3 * f + 2 < attrib.vertices.length)
    (ht : LoadObjFile.texCoords attrib format face.1 face.2.1 face.2.2 = some texCoord) :
    LoadObjFile.smoothVertexNormals normalize attrib shape = some [] ∧
    ∃ p0 p1 p2,
      readVec3 attrib.vertices face.1.vertex_index = some p0 ∧
      readVec3 attrib.vertices face.2.1.vertex_index = some p1 ∧
      readVec3 attrib.vertices face.2.2.vertex_index = some p2 ∧
      LoadObjFile.faceArrays normalize attrib [] format face =
        some { position := (p0, p1, p2)
               normal := (CalculateNormal normalize p0 p1 p2, CalculateNormal normalize p0 p1 p2,
                          CalculateNormal normalize p0 p1 p2)
               texCoord := texCoord } := by
  have hgrp : HasSmoothingGroup shape = false := HasSmoothingGroup_loop_eq_false _ hs
  refine ⟨by simp [LoadObjFile.smoothVertexNormals, hgrp], ?_⟩
  obtain ⟨p0, p1, p2, h0, h1, h2, _⟩ := faceNormal_of_inRange normalize attrib.vertices face hr
  refine ⟨p0, p1, p2, h0, h1, h2, ?_⟩
  have g0 := (hr face.1.vertex_index (by simp)).1
  have g1 := (hr face.2.1.vertex_index (by simp)).1
  have g2 := (hr face.2.2.vertex_index (by simp)).1
  have hP : LoadObjFile.positions attrib format face.1 face.2.1 face.2.2 =
      some (p0, p1, p2) := by
    simp [LoadObjFile.positions, hpos, g0, g1, g2, h0, h1, h2]
  have hflag : (if attrib.normals.length > 0 then
      decide (face.1.normal_index < 0 ∨ face.2.1.normal_index < 0 ∨
        face.2.2.normal_index < 0) else true) = true := by
    by_cases hlen : attrib.normals.length > 0
    · have hnn : attrib.normals ≠ [] := List.length_pos.mp hlen
      rcases hinv with h | h
      · exact absurd h hnn
      · simp [hlen, h]
    · simp [hlen]
  have hN : LoadObjFile.normals normalize attrib [] format face.1 face.2.1 face.2.2
      (p0, p1, p2) = some (CalculateNormal normalize p0 p1 p2,
        CalculateNormal normalize p0 p1 p2, CalculateNormal normalize p0 p1 p2) := by
    unfold LoadObjFile.normals
    simp only [hnor, hflag, if_true]
    simp
  simp [LoadObjFile.faceArrays, hP, hN, ht]

theorem LoadObjFile_flat_normal_without_smoothing_group_witness :
    LoadObjFile.smoothVertexNormals normalizeAxis sampleAttrib sampleFlatShape = some [] ∧
    ∃ p0 p1 p2,
      readVec3 sampleAttrib.vertices sampleFace.1.vertex_index = some p0 ∧
      readVec3 sampleAttrib.vertices sampleFace.2.1.vertex_index = some p1 ∧
      readVec3 sampleAttrib.vertices sampleFace.2.2.vertex_index = some p2 ∧
      LoadObjFile.faceArrays normalizeAxis sampleAttrib []
          { Position3 := true, Normal3 := true, TexCoord2 := true } sampleFace =
        some { position := (p0, p1, p2)
               normal := (CalculateNormal normalizeAxis p0 p1 p2,
                          CalculateNormal normalizeAxis p0 p1 p2,
                          CalculateNormal normalizeAxis p0 p1 p2)
               texCoord := (⟨2, -4⟩, ⟨7, -2⟩, ⟨4, -8⟩) } :=
  LoadObjFile_flat_normal_without_smoothing_group normalizeAxis sampleAttrib sampleFlatShape
    { Position3 := true, Normal3 := true, TexCoord2 := true } sampleFace
    (⟨2, -4⟩, ⟨7, -2⟩, ⟨4, -8⟩) (by decide) rfl rfl (Or.inl rfl) (by decide) (by decide)

end Flat

section Witnesses

theorem vertexIndicesInRange_sample :
    VertexIndicesInRange sampleAttrib.vertices (meshFaces sampleShape.mesh.indices) := by
  unfold VertexIndicesInRange
  decide

theorem LoadObjFile_texCoord_flip_witness :
    LoadObjFile.faceArrays normalizeAxis sampleAttrib []
        { Position3 := false, Normal3 := false, TexCoord2 := true } sampleFace =
      some { position := (vec3.zero, vec3.zero, vec3.zero)
             normal := (vec3.zero, vec3.zero, vec3.zero)
             texCoord := ({ x := 2, y := 1 - 5 }, { x := 7, y := 1 - 3 },
                          { x := 4, y := 1 - 9 }) } ∧
    LoadObjFile.faceArrays normalizeAxis sampleAttrib []
        { Position3 := false, Normal3 := false, TexCoord2 := true } sampleFaceNoTexCoord =
      some { position := (vec3.zero, vec3.zero, vec3.zero)
             normal := (vec3.zero, vec3.zero, vec3.zero)
             texCoord := (vec2.zero, vec2.zero, vec2.zero) } :=
  ⟨(LoadObjFile_texCoord_flip normalizeAxis sampleAttrib []
      { Position3 := false, Normal3 := false, TexCoord2 := true } sampleFace
      (vec3.zero, vec3.zero, vec3.zero) (vec3.zero, vec3.zero, vec3.zero) rfl rfl rfl).1
      (by decide) (by decide) (by decide) (by decide) 2 5 7 3 4 9 rfl rfl rfl rfl rfl rfl,
   (LoadObjFile_texCoord_flip normalizeAxis sampleAttrib []
      { Position3 := false, Normal3 := false, TexCoord2 := true } sampleFaceNoTexCoord
      (vec3.zero, vec3.zero, vec3.zero) (vec3.zero, vec3.zero, vec3.zero) rfl rfl rfl).2
      (Or.inr (Or.inr (Or.inl (by decide))))⟩

theorem CalculateNormal_collinear_witness :
    Collinear ({ x := 0, y := 0, z := 0 } : vec3 Int) { x := 1, y := 2, z := 3 }
      { x := 2, y := 4, z := 6 } ∧
    CalculateNormal normalizeAxis { x := 0, y := 0, z := 0 } { x := 1, y := 2, z := 3 }
      { x := 2, y := 4, z := 6 } = vec3.zero ∧
    CalculateNormal.normalizeCall ({ x := 0, y := 0, z := 0 } : vec3 Int)
      { x := 1, y := 2, z := 3 } { x := 2, y := 4, z := 6 } = none ∧
    ∀ w1 w2 w3 c : vec3 Int, CalculateNormal.normalizeCall w1 w2 w3 = some c → c ≠ vec3.zero :=
  ⟨by simp [Collinear, cross, vec3.sub, vec3.zero],
   CalculateNormal_collinear normalizeAxis _ _ _ (by simp [Collinear, cross, vec3.sub, vec3.zero])⟩

theorem ComputeSmoothingNormals_renormalized_sum_witness :
    HasSmoothingGroup sampleShape = true ∧
    VertexIndicesInRange sampleAttrib.vertices (meshFaces sampleShape.mesh.indices) ∧
    ∃ m, ComputeSmoothingNormals normalizeAxis sampleAttrib sampleShape = some m ∧
      LoadObjFile.smoothVertexNormals normalizeAxis sampleAttrib sampleShape = some m ∧
      (∀ v, NormalMap.find m v =
        (sumInOrder (cornerNormals normalizeAxis sampleAttrib.vertices
          (meshFaces sampleShape.mesh.indices) v)).map normalizeAxis) ∧
      (∀ v, (∀ face ∈ meshFaces sampleShape.mesh.indices, v ≠ face.1.vertex_index ∧
          v ≠ face.2.1.vertex_index ∧ v ≠ face.2.2.vertex_index) →
        NormalMap.find m v = none) ∧
      (∀ face ∈ meshFaces sampleShape.mesh.indices,
        ∀ (format : VertexFormat) (position : vec3 Int × vec3 Int × vec3 Int),
        format.Normal3 = true →
        (sampleAttrib.normals = [] ∨ face.1.normal_index < 0 ∨ face.2.1.normal_index < 0 ∨
          face.2.2.normal_index < 0) →
        ∃ s0 s1 s2,
          sumInOrder (cornerNormals normalizeAxis sampleAttrib.vertices
            (meshFaces sampleShape.mesh.indices) face.1.vertex_index) = some s0 ∧
          sumInOrder (cornerNormals normalizeAxis sampleAttrib.vertices
            (meshFaces sampleShape.mesh.indices) face.2.1.vertex_index) = some s1 ∧
          sumInOrder (cornerNormals normalizeAxis sampleAttrib.vertices
            (meshFaces sampleShape.mesh.indices) face.2.2.vertex_index) = some s2 ∧
          LoadObjFile.normals normalizeAxis sampleAttrib m format face.1 face.2.1 face.2.2
              position =
            some (normalizeAxis s0, normalizeAxis s1, normalizeAxis s2)) :=
  ⟨by decide, vertexIndicesInRange_sample,
   ComputeSmoothingNormals_renormalized_sum normalizeAxis sampleAttrib sampleShape (by decide)
     vertexIndicesInRange_sample⟩

end Witnesses




/-! ## OBJ decoder: vertex buffer, index buffer, bounding box, failure -/

section Buffers
variable {F : Type}

theorem length_meshFaces (indices : List index_t) :
    (meshFaces indices).length = indices.length / 3 := by
  induction indices using meshFaces.induct with
  | case1 idx0 idx1 idx2 rest ih =>
    simp only [meshFaces, List.length_cons, ih]
    omega
  | case2 l h =>
    have hlen : l.length < 3 := by
      match l, h with
      | [], _ => simp
      | [_], _ => simp
      | [_, _], _ => simp
      | a :: b :: c :: r, h => exact absurd rfl (h a b c r)
    have : meshFaces l = [] := by
      match l, h with
      | [], _ => rfl
      | [_], _ => rfl
      | [_, _], _ => rfl
      | a :: b :: c :: r, h => exact absurd rfl (h a b c r)
    rw [this]
    simp
    omega

theorem length_cornerFloats (format : VertexFormat) (position normal : vec3 F)
    (texCoord : vec2 F) :
    (cornerFloats format position normal texCoord).length = floatsPerVertex format := by
  unfold cornerFloats floatsPerVertex
  cases format.Position3 <;> cases format.Normal3 <;> cases format.TexCoord2 <;> rfl

theorem length_faceFloats (format : VertexFormat) (arrays : FaceArrays F) :
    (faceFloats format arrays).length = 3 * floatsPerVertex format := by
  simp only [faceFloats, List.length_append, length_cornerFloats]
  omega

end Buffers

section Buffers2
variable {F : Type}

theorem emitCorner_indices [LT F] [∀ a b : F, Decidable (a < b)]
    (format : VertexFormat) (out : ObjBuffers F) (position normal : vec3 F)
    (texCoord : vec2 F) :
    (LoadObjFile.emitCorner format out position normal texCoord).indices = out.indices := by
  unfold LoadObjFile.emitCorner
  cases format.Position3 <;> cases format.Normal3 <;> cases format.TexCoord2 <;> simp

theorem emitFace_indices [LT F] [∀ a b : F, Decidable (a < b)]
    (format : VertexFormat) (out : ObjBuffers F) (arrays : FaceArrays F) :
    (LoadObjFile.emitFace format out arrays).indices = out.indices := by
  simp [LoadObjFile.emitFace, emitCorner_indices]

/-- The face loop, when it returns, has appended the floats of the faces in order and has
not touched the index buffer. -/
theorem LoadObjFile_faces_buffers [Zero F] [One F] [Sub F] [Mul F] [DecidableEq F] [LT F]
    [∀ a b : F, Decidable (a < b)] (normalize : vec3 F → vec3 F) (attrib : attrib_t F)
    (m : NormalMap F) (format : VertexFormat) (faces : List (index_t × index_t × index_t)) :
    ∀ out out1 : ObjBuffers F,
      LoadObjFile.faces normalize attrib m format out faces = some out1 →
      out1.vertices = out.vertices ++ facesFloats normalize attrib m format faces ∧
      out1.indices = out.indices := by
  induction faces with
  | nil =>
    intro out out1 h
    simp only [LoadObjFile.faces, Option.some.injEq] at h
    subst h
    simp [facesFloats]
  | cons face rest ih =>
    intro out out1 h
    simp only [LoadObjFile.faces] at h
    cases ha : LoadObjFile.faceArrays normalize attrib m format face with
    | none => rw [ha] at h; cases h
    | some arrays =>
      rw [ha] at h
      obtain ⟨h1, h2⟩ := ih _ _ h
      refine ⟨?_, by rw [h2, emitFace_indices]⟩
      rw [h1, emitFace_vertices]
      simp [facesFloats, ha, faceFloats, List.append_assoc]

/-- The face loop returns when the attribute blocks of every face succeed. -/
theorem LoadObjFile_faces_isSome [Zero F] [One F] [Sub F] [Mul F] [DecidableEq F] [LT F]
    [∀ a b : F, Decidable (a < b)] (normalize : vec3 F → vec3 F) (attrib : attrib_t F)
    (m : NormalMap F) (format : VertexFormat) (faces : List (index_t × index_t × index_t))
    (hall : ∀ face ∈ faces, ∃ arrays,
      LoadObjFile.faceArrays normalize attrib m format face = some arrays) :
    ∀ out : ObjBuffers F, ∃ out1,
      LoadObjFile.faces normalize attrib m format out faces = some out1 := by
  induction faces with
  | nil => intro out; exact ⟨out, rfl⟩
  | cons face rest ih =>
    intro out
    obtain ⟨arrays, ha⟩ := hall face (List.mem_cons_self _ _)
    obtain ⟨out1, h1⟩ := ih (fun f hf => hall f (List.mem_cons_of_mem _ hf))
      (LoadObjFile.emitFace format out arrays)
    exact ⟨out1, by simp only [LoadObjFile.faces, ha, h1]⟩

theorem length_facesFloats [Zero F] [One F] [Sub F] [Mul F] [DecidableEq F]
    (normalize : vec3 F → vec3 F) (attrib : attrib_t F)
    (m : NormalMap F) (format : VertexFormat) (faces : List (index_t × index_t × index_t))
    (hall : ∀ face ∈ faces, ∃ arrays,
      LoadObjFile.faceArrays normalize attrib m format face = some arrays) :
    (facesFloats normalize attrib m format faces).length =
      3 * faces.length * floatsPerVertex format := by
  induction faces with
  | nil => simp [facesFloats]
  | cons face rest ih =>
    obtain ⟨arrays, ha⟩ := hall face (List.mem_cons_self _ _)
    have ih1 := ih (fun f hf => hall f (List.mem_cons_of_mem _ hf))
    simp only [facesFloats, List.flatMap_cons, List.length_append, ha, length_faceFloats,
      List.length_cons] at ih1 ⊢
    rw [ih1]
    ring

end Buffers2

section Buffers3
variable {F : Type}

theorem readTexCoord_of_inRange [One F] [Sub F] (xs : List F) (f : Int) (h0 : 0 ≤ f)
    (h1 : 2 * f + 1 < xs.length) : ∃ t, readTexCoord xs f = some t := by
  obtain ⟨u, hu⟩ := readAt_of_lt xs (2 * f) (by omega) (by omega)
  obtain ⟨v, hv⟩ := readAt_of_lt xs (2 * f + 1) (by omega) (by omega)
  exact ⟨⟨u, 1 - v⟩, by simp [readTexCoord, hu, hv]⟩

theorem LoadObjFile_positions_isSome [Zero F] (attrib : attrib_t F) (format : VertexFormat)
    (face : index_t × index_t × index_t)
    (hv : ∀ f ∈ [face.1.vertex_index, face.2.1.vertex_index, face.2.2.vertex_index],
      0 ≤ f ∧ 3 * f + 2 < attrib.vertices.length) :
    ∃ position, LoadObjFile.positions attrib format face.1 face.2.1 face.2.2 =
      some position := by
  obtain ⟨p0, h0⟩ := readVec3_of_inRange attrib.vertices face.1.vertex_index
    (hv _ (by simp)).1 (hv _ (by simp)).2
  obtain ⟨p1, h1⟩ := readVec3_of_inRange attrib.vertices face.2.1.vertex_index
    (hv _ (by simp)).1 (hv _ (by simp)).2
  obtain ⟨p2, h2⟩ := readVec3_of_inRange attrib.vertices face.2.2.vertex_index
    (hv _ (by simp)).1 (hv _ (by simp)).2
  have g0 := (hv face.1.vertex_index (by simp)).1
  have g1 := (hv face.2.1.vertex_index (by simp)).1
  have g2 := (hv face.2.2.vertex_index (by simp)).1
  unfold LoadObjFile.positions
  cases format.Position3 with
  | false => exact ⟨(vec3.zero, vec3.zero, vec3.zero), by simp⟩
  | true => exact ⟨(p0, p1, p2), by simp [g0, g1, g2, h0, h1, h2]⟩

theorem LoadObjFile_normals_isSome [Zero F] [Sub F] [Mul F] [DecidableEq F]
    (normalize : vec3 F → vec3 F) (attrib : attrib_t F) (m : NormalMap F)
    (format : VertexFormat) (face : index_t × index_t × index_t)
    (position : vec3 F × vec3 F × vec3 F)
    (ha : AttributeIndicesInRange attrib face) :
    ∃ normal, LoadObjFile.normals normalize attrib m format face.1 face.2.1 face.2.2
      position = some normal := by
  unfold LoadObjFile.normals
  cases format.Normal3 with
  | false => exact ⟨(vec3.zero, vec3.zero, vec3.zero), by simp⟩
  | true =>
    simp only [if_true]
    by_cases hflag : (if attrib.normals.length > 0 then
        decide (face.1.normal_index < 0 ∨ face.2.1.normal_index < 0 ∨
          face.2.2.normal_index < 0) else true) = true
    · rw [if_pos hflag]
      split_ifs <;> exact ⟨_, rfl⟩
    · rw [if_neg hflag]
      have hlen : attrib.normals.length > 0 := by
        by_contra hc
        exact hflag (by simp [hc])
      have hnn : ¬ (face.1.normal_index < 0 ∨ face.2.1.normal_index < 0 ∨
          face.2.2.normal_index < 0) := by
        intro hc
        exact hflag (by simp [hlen, hc])
      have a0 := (ha face.1 (by simp)).1
      have a1 := (ha face.2.1 (by simp)).1
      have a2 := (ha face.2.2 (by simp)).1
      obtain ⟨n0, e0⟩ := readVec3_of_inRange attrib.normals face.1.normal_index
        (by omega) (by omega)
      obtain ⟨n1, e1⟩ := readVec3_of_inRange attrib.normals face.2.1.normal_index
        (by omega) (by omega)
      obtain ⟨n2, e2⟩ := readVec3_of_inRange attrib.normals face.2.2.normal_index
        (by omega) (by omega)
      exact ⟨(n0, n1, n2), by simp [e0, e1, e2]⟩

theorem LoadObjFile_texCoords_isSome [Zero F] [One F] [Sub F] (attrib : attrib_t F)
    (format : VertexFormat) (face : index_t × index_t × index_t)
    (ha : AttributeIndicesInRange attrib face) :
    ∃ texCoord, LoadObjFile.texCoords attrib format face.1 face.2.1 face.2.2 =
      some texCoord := by
  unfold LoadObjFile.texCoords
  cases format.TexCoord2 with
  | false => exact ⟨(vec2.zero, vec2.zero, vec2.zero), by simp⟩
  | true =>
    simp only [if_true]
    by_cases hlen : attrib.texcoords.length > 0
    · rw [if_pos hlen]
      by_cases hneg : face.1.texcoord_index < 0 ∨ face.2.1.texcoord_index < 0 ∨
          face.2.2.texcoord_index < 0
      · exact ⟨(vec2.zero, vec2.zero, vec2.zero), by simp only [hneg, if_true]⟩
      · have a0 := (ha face.1 (by simp)).2
        have a1 := (ha face.2.1 (by simp)).2
        have a2 := (ha face.2.2 (by simp)).2
        obtain ⟨t0, e0⟩ := readTexCoord_of_inRange attrib.texcoords face.1.texcoord_index
          (by omega) (by omega)
        obtain ⟨t1, e1⟩ := readTexCoord_of_inRange attrib.texcoords face.2.1.texcoord_index
          (by omega) (by omega)
        obtain ⟨t2, e2⟩ := readTexCoord_of_inRange attrib.texcoords face.2.2.texcoord_index
          (by omega) (by omega)
        exact ⟨(t0, t1, t2), by simp only [hneg, if_false, e0, e1, e2]⟩
    · exact ⟨(vec2.zero, vec2.zero, vec2.zero), by simp only [hlen, if_false]⟩

theorem LoadObjFile_faceArrays_isSome [Zero F] [One F] [Sub F] [Mul F] [DecidableEq F]
    (normalize : vec3 F → vec3 F) (attrib : attrib_t F) (m : NormalMap F)
    (format : VertexFormat) (face : index_t × index_t × index_t)
    (hv : ∀ f ∈ [face.1.vertex_index, face.2.1.vertex_index, face.2.2.vertex_index],
      0 ≤ f ∧ 3 * f + 2 < attrib.vertices.length)
    (ha : AttributeIndicesInRange attrib face) :
    ∃ arrays, LoadObjFile.faceArrays normalize attrib m format face = some arrays := by
  obtain ⟨p, hp⟩ := LoadObjFile_positions_isSome attrib format face hv
  obtain ⟨n, hn⟩ := LoadObjFile_normals_isSome normalize attrib m format face p ha
  obtain ⟨t, ht⟩ := LoadObjFile_texCoords_isSome attrib format face ha
  exact ⟨{ position := p, normal := n, texCoord := t },
    by simp only [LoadObjFile.faceArrays, hp, hn, ht]⟩

end Buffers3

section Buffers4
variable {F : Type}

theorem LoadObjFile_smoothVertexNormals_isSome [Zero F] [Add F] [Sub F] [Mul F]
    [DecidableEq F] (normalize : vec3 F → vec3 F) (attrib : attrib_t F) (shape : shape_t)
    (hr : VertexIndicesInRange attrib.vertices (meshFaces shape.mesh.indices)) :
    ∃ m, LoadObjFile.smoothVertexNormals normalize attrib shape = some m := by
  unfold LoadObjFile.smoothVertexNormals
  cases HasSmoothingGroup shape with
  | false => exact ⟨[], by simp⟩
  | true =>
    obtain ⟨m, hm, _⟩ := ComputeSmoothingNormals_find normalize attrib shape hr
    exact ⟨m, by simp [hm]⟩

/-- The body of the shape loop, when it returns, has appended the floats of the shape and
has not touched the index buffer. -/
theorem LoadObjFile_shape_buffers [Zero F] [One F] [Add F] [Sub F] [Mul F] [DecidableEq F]
    [LT F] [∀ a b : F, Decidable (a < b)] (normalize : vec3 F → vec3 F) (attrib : attrib_t F)
    (format : VertexFormat) (out out1 : ObjBuffers F) (shape : shape_t)
    (h : LoadObjFile.shape normalize attrib format out shape = some out1) :
    out1.vertices = out.vertices ++ shapeFloats normalize attrib format shape ∧
    out1.indices = out.indices := by
  unfold LoadObjFile.shape at h
  unfold shapeFloats
  cases hm : LoadObjFile.smoothVertexNormals normalize attrib shape with
  | none => rw [hm] at h; cases h
  | some m =>
    rw [hm] at h
    exact LoadObjFile_faces_buffers normalize attrib m format _ out out1 h

theorem LoadObjFile_shapes_buffers [Zero F] [One F] [Add F] [Sub F] [Mul F] [DecidableEq F]
    [LT F] [∀ a b : F, Decidable (a < b)] (normalize : vec3 F → vec3 F) (attrib : attrib_t F)
    (format : VertexFormat) (shapes : List shape_t) :
    ∀ out out1 : ObjBuffers F,
      LoadObjFile.shapes normalize attrib format out shapes = some out1 →
      out1.vertices = out.vertices ++ shapes.flatMap (shapeFloats normalize attrib format) ∧
      out1.indices = out.indices := by
  induction shapes with
  | nil =>
    intro out out1 h
    simp only [LoadObjFile.shapes, Option.some.injEq] at h
    subst h
    simp
  | cons shape rest ih =>
    intro out out1 h
    simp only [LoadObjFile.shapes] at h
    cases hs : LoadObjFile.shape normalize attrib format out shape with
    | none => rw [hs] at h; cases h
    | some out0 =>
      rw [hs] at h
      obtain ⟨h1, h2⟩ := LoadObjFile_shape_buffers normalize attrib format out out0 shape hs
      obtain ⟨h3, h4⟩ := ih out0 out1 h
      exact ⟨by rw [h3, h1, List.flatMap_cons, List.append_assoc], by rw [h4, h2]⟩

/-- The faces of a shape whose references are in range all have their attribute blocks. -/
theorem LoadObjFile_shape_faceArrays [Zero F] [One F] [Add F] [Sub F] [Mul F] [DecidableEq F]
    (normalize : vec3 F → vec3 F) (attrib : attrib_t F) (format : VertexFormat)
    (shape : shape_t)
    (hv : VertexIndicesInRange attrib.vertices (meshFaces shape.mesh.indices))
    (ha : ∀ face ∈ meshFaces shape.mesh.indices, AttributeIndicesInRange attrib face) :
    ∃ m, LoadObjFile.smoothVertexNormals normalize attrib shape = some m ∧
      ∀ face ∈ meshFaces shape.mesh.indices, ∃ arrays,
        LoadObjFile.faceArrays normalize attrib m format face = some arrays := by
  obtain ⟨m, hm⟩ := LoadObjFile_smoothVertexNormals_isSome normalize attrib shape hv
  exact ⟨m, hm, fun face hf =>
    LoadObjFile_faceArrays_isSome normalize attrib m format face (hv face hf) (ha face hf)⟩

theorem LoadObjFile_shape_isSome [Zero F] [One F] [Add F] [Sub F] [Mul F] [DecidableEq F]
    [LT F] [∀ a b : F, Decidable (a < b)] (normalize : vec3 F → vec3 F) (attrib : attrib_t F)
    (format : VertexFormat) (out : ObjBuffers F) (shape : shape_t)
    (hv : VertexIndicesInRange attrib.vertices (meshFaces shape.mesh.indices))
    (ha : ∀ face ∈ meshFaces shape.mesh.indices, AttributeIndicesInRange attrib face) :
    ∃ out1, LoadObjFile.shape normalize attrib format out shape = some out1 := by
  obtain ⟨m, hm, hall⟩ := LoadObjFile_shape_faceArrays normalize attrib format shape hv ha
  obtain ⟨out1, h1⟩ := LoadObjFile_faces_isSome normalize attrib m format _ hall out
  exact ⟨out1, by simp only [LoadObjFile.shape, hm, h1]⟩

theorem LoadObjFile_shapes_isSome [Zero F] [One F] [Add F] [Sub F] [Mul F] [DecidableEq F]
    [LT F] [∀ a b : F, Decidable (a < b)] (normalize : vec3 F → vec3 F) (attrib : attrib_t F)
    (format : VertexFormat) (shapes : List shape_t) (hr : ShapesInRange attrib shapes) :
    ∀ out : ObjBuffers F, ∃ out1,
      LoadObjFile.shapes normalize attrib format out shapes = some out1 := by
  induction shapes with
  | nil => intro out; exact ⟨out, rfl⟩
  | cons shape rest ih =>
    intro out
    obtain ⟨hv, ha⟩ := hr shape (List.mem_cons_self _ _)
    obtain ⟨out0, h0⟩ := LoadObjFile_shape_isSome normalize attrib format out shape hv ha
    obtain ⟨out1, h1⟩ := ih (fun s hs => hr s (List.mem_cons_of_mem _ hs)) out0
    exact ⟨out1, by simp only [LoadObjFile.shapes, h0, h1]⟩

theorem length_shapeFloats [Zero F] [One F] [Add F] [Sub F] [Mul F] [DecidableEq F]
    (normalize : vec3 F → vec3 F) (attrib : attrib_t F) (format : VertexFormat)
    (shape : shape_t)
    (hv : VertexIndicesInRange attrib.vertices (meshFaces shape.mesh.indices))
    (ha : ∀ face ∈ meshFaces shape.mesh.indices, AttributeIndicesInRange attrib face) :
    (shapeFloats normalize attrib format shape).length =
      3 * (shape.mesh.indices.length / 3) * floatsPerVertex format := by
  obtain ⟨m, hm, hall⟩ := LoadObjFile_shape_faceArrays normalize attrib format shape hv ha
  simp only [shapeFloats, hm]
  rw [length_facesFloats normalize attrib m format _ hall, length_meshFaces]

theorem length_shapesFloats [Zero F] [One F] [Add F] [Sub F] [Mul F] [DecidableEq F]
    (normalize : vec3 F → vec3 F) (attrib : attrib_t F) (format : VertexFormat)
    (shapes : List shape_t) (hr : ShapesInRange attrib shapes) :
    (shapes.flatMap (shapeFloats normalize attrib format)).length =
      3 * triangleCount shapes * floatsPerVertex format := by
  induction shapes with
  | nil => simp [triangleCount]
  | cons shape rest ih =>
    obtain ⟨hv, ha⟩ := hr shape (List.mem_cons_self _ _)
    have ih1 := ih (fun s hs => hr s (List.mem_cons_of_mem _ hs))
    simp only [List.flatMap_cons, List.length_append, ih1,
      length_shapeFloats normalize attrib format shape hv ha, triangleCount, List.map_cons,
      List.sum_cons]
    ring

/-- What `LoadObjFile` returns on a parse result with at least one shape and all
references in range. -/
theorem LoadObjFile_inRange [Zero F] [One F] [Add F] [Sub F] [Mul F] [DecidableEq F]
    [LT F] [∀ a b : F, Decidable (a < b)] (normalize : vec3 F → vec3 F) (floatMax floatMin : F)
    (attrib : attrib_t F) (shapes : List shape_t) (out : ObjBuffers F) (format : VertexFormat)
    (hne : shapes ≠ []) (hr : ShapesInRange attrib shapes) :
    ∃ out1, LoadObjFile normalize floatMax floatMin (some (attrib, shapes)) out format =
        some (true, out1) ∧
      out1.vertices = out.vertices ++ shapes.flatMap (shapeFloats normalize attrib format) ∧
      out1.indices = out.indices := by
  obtain ⟨out1, h1⟩ := LoadObjFile_shapes_isSome normalize attrib format shapes hr
    { out with
      minCorner := { x := floatMax, y := floatMax, z := floatMax }
      maxCorner := { x := floatMin, y := floatMin, z := floatMin } }
  obtain ⟨h2, h3⟩ := LoadObjFile_shapes_buffers normalize attrib format shapes _ out1 h1
  have hemp : shapes.isEmpty = false := by
    cases shapes with
    | nil => exact absurd rfl hne
    | cons _ _ => rfl
  refine ⟨out1, ?_, h2, h3⟩
  simp only [LoadObjFile, hemp, h1]
  rfl

end Buffers4

section Claims11
variable {F : Type}

theorem shapesInRange_sample : ShapesInRange sampleAttrib [sampleShape, sampleFlatShape] := by
  unfold ShapesInRange VertexIndicesInRange AttributeIndicesInRange
  decide

/-- C11: on a parse result with at least one shape and all references in range,
`LoadObjFile` returns success; the vertex buffer is the one passed followed by the floats
of every face of every shape, in shape order, face order and corner order, each corner
laid out as position, normal, texture coordinate (only the attributes of the format);
every face contributes (no attribute block fails, nothing is merged); and the buffer
grows by `3 * F * (3 * [Position3] + 3 * [Normal3] + 2 * [TexCoord2])` floats for `F`
triangles. -/
theorem LoadObjFile_three_vertices_per_face [Zero F] [One F] [Add F] [Sub F] [Mul F]
    [DecidableEq F] [LT F] [∀ a b : F, Decidable (a < b)] (normalize : vec3 F → vec3 F)
    (floatMax floatMin : F) (attrib : attrib_t F) (shapes : List shape_t) (out : ObjBuffers F)
    (format : VertexFormat) (hne : shapes ≠ []) (hr : ShapesInRange attrib shapes) :
    ∃ out1, LoadObjFile normalize floatMax floatMin (some (attrib, shapes)) out format =
        some (true, out1) ∧
      out1.vertices = out.vertices ++ shapes.flatMap (shapeFloats normalize attrib format) ∧
      (∀ shape ∈ shapes, ∃ m,
        LoadObjFile.smoothVertexNormals normalize attrib shape = some m ∧
        ∀ face ∈ meshFaces shape.mesh.indices, ∃ arrays,
          LoadObjFile.faceArrays normalize attrib m format face = some arrays) ∧
      out1.vertices.length =
        out.vertices.length + 3 * triangleCount shapes * floatsPerVertex format := by
  obtain ⟨out1, h1, h2, _⟩ := LoadObjFile_inRange normalize floatMax floatMin attrib shapes out
    format hne hr
  refine ⟨out1, h1, h2, ?_, ?_⟩
  · intro shape hs
    exact LoadObjFile_shape_faceArrays normalize attrib format shape (hr shape hs).1
      (hr shape hs).2
  · rw [h2, List.length_append, length_shapesFloats normalize attrib format shapes hr]

theorem LoadObjFile_three_vertices_per_face_witness :
    [sampleShape, sampleFlatShape] ≠ [] ∧ ShapesInRange sampleAttrib [sampleShape, sampleFlatShape] ∧
    ∃ out1, LoadObjFile normalizeAxis 1000 1 (some (sampleAttrib, [sampleShape, sampleFlatShape]))
        emptyBuffers { Position3 := true, Normal3 := true, TexCoord2 := true } =
        some (true, out1) ∧
      out1.vertices = emptyBuffers.vertices ++
        [sampleShape, sampleFlatShape].flatMap (shapeFloats normalizeAxis sampleAttrib
          { Position3 := true, Normal3 := true, TexCoord2 := true }) ∧
      (∀ shape ∈ [sampleShape, sampleFlatShape], ∃ m,
        LoadObjFile.smoothVertexNormals normalizeAxis sampleAttrib shape = some m ∧
        ∀ face ∈ meshFaces shape.mesh.indices, ∃ arrays,
          LoadObjFile.faceArrays normalizeAxis sampleAttrib m
            { Position3 := true, Normal3 := true, TexCoord2 := true } face = some arrays) ∧
      out1.vertices.length =
        emptyBuffers.vertices.length + 3 * triangleCount [sampleShape, sampleFlatShape] *
          floatsPerVertex { Position3 := true, Normal3 := true, TexCoord2 := true } :=
  ⟨by decide, shapesInRange_sample,
   LoadObjFile_three_vertices_per_face normalizeAxis 1000 1 sampleAttrib
     [sampleShape, sampleFlatShape] emptyBuffers
     { Position3 := true, Normal3 := true, TexCoord2 := true } (by decide)
     shapesInRange_sample⟩

/-- The index buffer is never written: whatever `LoadObjFile` returns, the index buffer
is the one the caller passed. -/
theorem LoadObjFile_indices_unchanged [Zero F] [One F] [Add F] [Sub F] [Mul F]
    [DecidableEq F] [LT F] [∀ a b : F, Decidable (a < b)] (normalize : vec3 F → vec3 F)
    (floatMax floatMin : F) (parsed : Option (attrib_t F × List shape_t)) (out : ObjBuffers F)
    (format : VertexFormat) (result : Bool × ObjBuffers F)
    (h : LoadObjFile normalize floatMax floatMin parsed out format = some result) :
    result.2.indices = out.indices := by
  unfold LoadObjFile at h
  match parsed, h with
  | none, h =>
    simp only [Option.some.injEq] at h
    rw [← h]
  | some (attrib, shapes), h =>
    simp only at h
    split_ifs at h with hemp
    · simp only [Option.some.injEq] at h
      rw [← h]
    · cases hs : LoadObjFile.shapes normalize attrib format
          { out with
            minCorner := { x := floatMax, y := floatMax, z := floatMax }
            maxCorner := { x := floatMin, y := floatMin, z := floatMin } } shapes with
      | none => rw [hs] at h; cases h
      | some out1 =>
        rw [hs] at h
        simp only [Option.map_some', Option.some.injEq] at h
        rw [← h]
        exact (LoadObjFile_shapes_buffers normalize attrib format shapes _ out1 hs).2

/-- C12 (evaluation at the failing input): for the three triangles of `sampleShape`,
loaded into empty buffers, `LoadObjFile` returns success with `9` vertices of `8` floats
in the vertex buffer and an empty index buffer. -/
theorem LoadObjFile_index_buffer_empty :
    (LoadObjFile normalizeAxis 1000 1 (some (sampleAttrib, [sampleShape])) emptyBuffers
        { Position3 := true, Normal3 := true, TexCoord2 := true }).map
      (fun result => (result.1, result.2.indices, result.2.vertices.length)) =
      some (true, [], 72) := by
  decide

/-- C13 (evaluation at the failing input): for one triangle with the corners
`(-1, -1, -1)`, `(-2, -1, -1)`, `(-1, -2, -1)`, with `1000` for
`std::numeric_limits<float>::max()` and the smallest positive scalar `1` for
`std::numeric_limits<float>::min()`, `LoadObjFile` returns `minCorner = (-2, -2, -1)` and
`maxCorner = (1, 1, 1)`, although the largest coordinates are `(-1, -1, -1)`. -/
theorem LoadObjFile_maxCorner_of_negative_mesh :
    LoadObjFile normalizeAxis 1000 1 (some (negativeAttrib, [negativeShape])) emptyBuffers
        { Position3 := true, Normal3 := false, TexCoord2 := false } =
      some (true,
        { vertices := [-1, -1, -1, -2, -1, -1, -1, -2, -1]
          indices := []
          minCorner := { x := -2, y := -2, z := -1 }
          maxCorner := { x := 1, y := 1, z := 1 } }) := by
  decide

end Claims11

section Claims13
variable {R : Type} [LinearOrderedRing R]

theorem std_max_ge_right (a b : R) : b ≤ std.max a b := by
  unfold std.max
  split_ifs with h
  · exact le_refl b
  · exact not_lt.mp h

theorem emitCorner_maxCorner_ge (format : VertexFormat) (out : ObjBuffers R)
    (position normal : vec3 R) (texCoord : vec2 R) (c : R)
    (h : c ≤ out.maxCorner.x ∧ c ≤ out.maxCorner.y ∧ c ≤ out.maxCorner.z) :
    c ≤ (LoadObjFile.emitCorner format out position normal texCoord).maxCorner.x ∧
    c ≤ (LoadObjFile.emitCorner format out position normal texCoord).maxCorner.y ∧
    c ≤ (LoadObjFile.emitCorner format out position normal texCoord).maxCorner.z := by
  obtain ⟨hx, hy, hz⟩ := h
  unfold LoadObjFile.emitCorner
  cases format.Position3 <;> cases format.Normal3 <;> cases format.TexCoord2 <;>
    simp only [if_true, if_false, Bool.false_eq_true] <;>
    first
      | exact ⟨hx, hy, hz⟩
      | exact ⟨le_trans hx (std_max_ge_right _ _), le_trans hy (std_max_ge_right _ _),
          le_trans hz (std_max_ge_right _ _)⟩

theorem emitFace_maxCorner_ge (format : VertexFormat) (out : ObjBuffers R)
    (arrays : FaceArrays R) (c : R)
    (h : c ≤ out.maxCorner.x ∧ c ≤ out.maxCorner.y ∧ c ≤ out.maxCorner.z) :
    c ≤ (LoadObjFile.emitFace format out arrays).maxCorner.x ∧
    c ≤ (LoadObjFile.emitFace format out arrays).maxCorner.y ∧
    c ≤ (LoadObjFile.emitFace format out arrays).maxCorner.z := by
  unfold LoadObjFile.emitFace
  exact emitCorner_maxCorner_ge _ _ _ _ _ c
    (emitCorner_maxCorner_ge _ _ _ _ _ c (emitCorner_maxCorner_ge _ _ _ _ _ c h))

theorem LoadObjFile_faces_maxCorner_ge (normalize : vec3 R → vec3 R) (attrib : attrib_t R)
    (m : NormalMap R) (format : VertexFormat) (faces : List (index_t × index_t × index_t))
    (c : R) :
    ∀ out out1 : ObjBuffers R,
      LoadObjFile.faces normalize attrib m format out faces = some out1 →
      (c ≤ out.maxCorner.x ∧ c ≤ out.maxCorner.y ∧ c ≤ out.maxCorner.z) →
      c ≤ out1.maxCorner.x ∧ c ≤ out1.maxCorner.y ∧ c ≤ out1.maxCorner.z := by
  induction faces with
  | nil =>
    intro out out1 h hc
    simp only [LoadObjFile.faces, Option.some.injEq] at h
    rw [← h]; exact hc
  | cons face rest ih =>
    intro out out1 h hc
    simp only [LoadObjFile.faces] at h
    cases ha : LoadObjFile.faceArrays normalize attrib m format face with
    | none => rw [ha] at h; cases h
    | some arrays =>
      rw [ha] at h
      exact ih _ _ h (emitFace_maxCorner_ge format out arrays c hc)

theorem LoadObjFile_shapes_maxCorner_ge (normalize : vec3 R → vec3 R) (attrib : attrib_t R)
    (format : VertexFormat) (shapes : List shape_t) (c : R) :
    ∀ out out1 : ObjBuffers R,
      LoadObjFile.shapes normalize attrib format out shapes = some out1 →
      (c ≤ out.maxCorner.x ∧ c ≤ out.maxCorner.y ∧ c ≤ out.maxCorner.z) →
      c ≤ out1.maxCorner.x ∧ c ≤ out1.maxCorner.y ∧ c ≤ out1.maxCorner.z := by
  induction shapes with
  | nil =>
    intro out out1 h hc
    simp only [LoadObjFile.shapes, Option.some.injEq] at h
    rw [← h]; exact hc
  | cons shape rest ih =>
    intro out out1 h hc
    simp only [LoadObjFile.shapes] at h
    cases hs : LoadObjFile.shape normalize attrib format out shape with
    | none => rw [hs] at h; cases h
    | some out0 =>
      rw [hs] at h
      refine ih out0 out1 h ?_
      unfold LoadObjFile.shape at hs
      cases hm : LoadObjFile.smoothVertexNormals normalize attrib shape with
      | none => rw [hm] at hs; cases hs
      | some m =>
        rw [hm] at hs
        exact LoadObjFile_faces_maxCorner_ge normalize attrib m format _ c out out0 hs hc

/-- Over any ordered scalars, a successful `LoadObjFile` returns a `maxCorner` whose three
coordinates are at least `std::numeric_limits<float>::min()`, a positive number, whatever
the mesh. -/
theorem LoadObjFile_maxCorner_ge_floatMin (normalize : vec3 R → vec3 R) (floatMax floatMin : R)
    (attrib : attrib_t R) (shapes : List shape_t) (out out1 : ObjBuffers R)
    (format : VertexFormat)
    (h : LoadObjFile normalize floatMax floatMin (some (attrib, shapes)) out format =
      some (true, out1)) :
    floatMin ≤ out1.maxCorner.x ∧ floatMin ≤ out1.maxCorner.y ∧
    floatMin ≤ out1.maxCorner.z := by
  unfold LoadObjFile at h
  simp only at h
  split_ifs at h with hemp
  · simp at h
  · cases hs : LoadObjFile.shapes normalize attrib format
        { out with
          minCorner := { x := floatMax, y := floatMax, z := floatMax }
          maxCorner := { x := floatMin, y := floatMin, z := floatMin } } shapes with
    | none => rw [hs] at h; cases h
    | some out2 =>
      rw [hs] at h
      simp only [Option.map_some', Option.some.injEq, Prod.mk.injEq, true_and] at h
      rw [← h]
      exact LoadObjFile_shapes_maxCorner_ge normalize attrib format shapes floatMin _ out2 hs
        ⟨le_refl _, le_refl _, le_refl _⟩

end Claims13

section Claims14
variable {F : Type}

/-- C14: `LoadObjFile` returns failure with the four output parameters exactly as passed
when the parser reports failure and when the shape list is empty; on any other parse
result it never returns failure, and it returns success when all references are in
range. -/
theorem LoadObjFile_failure_cases [Zero F] [One F] [Add F] [Sub F] [Mul F]
    [DecidableEq F] [LT F] [∀ a b : F, Decidable (a < b)] (normalize : vec3 F → vec3 F)
    (floatMax floatMin : F) (out : ObjBuffers F) (format : VertexFormat) :
    LoadObjFile normalize floatMax floatMin none out format = some (false, out) ∧
    (∀ attrib : attrib_t F,
      LoadObjFile normalize floatMax floatMin (some (attrib, [])) out format =
        some (false, out)) ∧
    (∀ (attrib : attrib_t F) (shapes : List shape_t), shapes ≠ [] →
      (∀ result, LoadObjFile normalize floatMax floatMin (some (attrib, shapes)) out format =
          some result → result.1 = true) ∧
      (ShapesInRange attrib shapes →
        ∃ out1, LoadObjFile normalize floatMax floatMin (some (attrib, shapes)) out format =
          some (true, out1))) := by
  refine ⟨rfl, fun attrib => rfl, ?_⟩
  intro attrib shapes hne
  have hemp : shapes.isEmpty = false := by
    cases shapes with
    | nil => exact absurd rfl hne
    | cons _ _ => rfl
  constructor
  · intro result h
    simp only [LoadObjFile, hemp] at h
    cases hs : LoadObjFile.shapes normalize attrib format
        { out with
          minCorner := { x := floatMax, y := floatMax, z := floatMax }
          maxCorner := { x := floatMin, y := floatMin, z := floatMin } } shapes with
    | none => rw [hs] at h; simp at h
    | some out1 =>
      rw [hs] at h
      simp at h
      rw [← h]
  · intro hr
    obtain ⟨out1, h1, _⟩ := LoadObjFile_inRange normalize floatMax floatMin attrib shapes out
      format hne hr
    exact ⟨out1, h1⟩

theorem LoadObjFile_failure_cases_witness :
    LoadObjFile normalizeAxis 1000 1 none emptyBuffers
        { Position3 := true, Normal3 := true, TexCoord2 := true } = some (false, emptyBuffers) ∧
    LoadObjFile normalizeAxis 1000 1 (some (sampleAttrib, [])) emptyBuffers
        { Position3 := true, Normal3 := true, TexCoord2 := true } = some (false, emptyBuffers) ∧
    (∀ result, LoadObjFile normalizeAxis 1000 1 (some (sampleAttrib, [sampleShape, sampleFlatShape]))
        emptyBuffers { Position3 := true, Normal3 := true, TexCoord2 := true } = some result →
      result.1 = true) ∧
    ∃ out1, LoadObjFile normalizeAxis 1000 1 (some (sampleAttrib, [sampleShape, sampleFlatShape]))
        emptyBuffers { Position3 := true, Normal3 := true, TexCoord2 := true } =
      some (true, out1) :=
  ⟨(LoadObjFile_failure_cases normalizeAxis 1000 1 emptyBuffers
      { Position3 := true, Normal3 := true, TexCoord2 := true }).1,
   (LoadObjFile_failure_cases normalizeAxis 1000 1 emptyBuffers
      { Position3 := true, Normal3 := true, TexCoord2 := true }).2.1 sampleAttrib,
   ((LoadObjFile_failure_cases normalizeAxis 1000 1 emptyBuffers
      { Position3 := true, Normal3 := true, TexCoord2 := true }).2.2 sampleAttrib
      [sampleShape, sampleFlatShape] (by decide)).1,
   ((LoadObjFile_failure_cases normalizeAxis 1000 1 emptyBuffers
      { Position3 := true, Normal3 := true, TexCoord2 := true }).2.2 sampleAttrib
      [sampleShape, sampleFlatShape] (by decide)).2 shapesInRange_sample⟩

end Claims14




/-! ## Scene upload -/

/-- The result of `GLTFScene::initialize` is the result of `loadScene`, whatever the fence
waits of the upload functions return. -/
theorem GLTFScene_initialize_result (waitOk : Nat → Bool) (loadSceneOk : Bool)
    (numImages : Nat) (st : UploadState) :
    ( GLTFScene.initialize waitOk loadSceneOk numImages st).1 = loadSceneOk := by
  unfold GLTFScene.initialize
  cases loadSceneOk <;> simp

/-- C15 (evaluation at the failing input): when the fence wait of `uploadBuffer` fails
(fence `0`) and every other wait succeeds, `uploadBuffer` returns `false`, yet
`GLTFScene::initialize` goes on to call `uploadImage`, `uploadMaterialBuffer` and
`uploadMatrixBuffer`, releases the source data and returns `true`. -/
theorem GLTFScene_initialize_ignores_upload_failure :
    (GLTFScene.uploadBuffer (fun fence => decide (fence ≠ 0))
      { nextFence := 0, events := [] }).1 = false ∧
    ( GLTFScene.initialize (fun fence => decide (fence ≠ 0)) true 0 UploadState.initial).1 =
      true ∧
    callsOf ( GLTFScene.initialize (fun fence => decide (fence ≠ 0)) true 0
        UploadState.initial).2.events =
      [UploadStep.uploadBuffer, UploadStep.uploadImage, UploadStep.uploadMaterialBuffer,
       UploadStep.uploadMatrixBuffer] ∧
    ( GLTFScene.initialize (fun fence => decide (fence ≠ 0)) true 0
        UploadState.initial).2.events.getLast? = some UploadEvent.releaseSourceData := by
  decide

/-- C16: when `loadScene` fails, `GLTFScene::initialize` returns `false` and leaves the
upload state as it was: no buffer is created, no upload function is entered, nothing is
submitted and the source data is not released. -/
theorem GLTFScene_initialize_loadScene_failure (waitOk : Nat → Bool) (numImages : Nat)
    (st : UploadState) :
    GLTFScene.initialize waitOk false numImages st = (false, st) ∧
    ( GLTFScene.initialize waitOk false numImages UploadState.initial).2.events = [] := by
  constructor <;> simp [ GLTFScene.initialize, UploadState.initial]

/-- C17 (evaluation at the failing input): with two textures and every fence wait failing,
`GLTFScene::uploadImage` still records, submits and waits for all three command buffers
of both textures, adds both textures and returns `true`. -/
theorem GLTFScene_uploadImage_ignores_wait_failure :
    GLTFScene.uploadImage (fun _ => false) 2 UploadState.initial =
      (true,
       { nextFence := 6
         events :=
          [UploadEvent.call UploadStep.uploadImage,
           UploadEvent.recordImage 0 ImageStage.copy,
           UploadEvent.submitCmdBuffer 1 0, UploadEvent.waitForAllFences 0 false,
           UploadEvent.recordImage 0 ImageStage.blit,
           UploadEvent.submitCmdBuffer 1 1, UploadEvent.waitForAllFences 1 false,
           UploadEvent.recordImage 0 ImageStage.finalTransition,
           UploadEvent.submitCmdBuffer 1 2, UploadEvent.waitForAllFences 2 false,
           UploadEvent.addTexture 0,
           UploadEvent.recordImage 1 ImageStage.copy,
           UploadEvent.submitCmdBuffer 1 3, UploadEvent.waitForAllFences 3 false,
           UploadEvent.recordImage 1 ImageStage.blit,
           UploadEvent.submitCmdBuffer 1 4, UploadEvent.waitForAllFences 4 false,
           UploadEvent.recordImage 1 ImageStage.finalTransition,
           UploadEvent.submitCmdBuffer 1 5, UploadEvent.waitForAllFences 5 false,
           UploadEvent.addTexture 1] }) := by
  decide

/-- The result of `GLTFScene::uploadImage` is `true`, whatever the fence waits return. -/
theorem GLTFScene_uploadImage_result (waitOk : Nat → Bool) (numImages : Nat)
    (st : UploadState) : (GLTFScene.uploadImage waitOk numImages st).1 = true := rfl

/-- C18: each of `uploadBuffer`, `uploadMaterialBuffer` and `uploadMatrixBuffer` records
its copies, then submits one command buffer with one new fence and waits on that fence;
these are its only events, and it returns the result of that wait. -/
theorem GLTFScene_upload_single_submit (waitOk : Nat → Bool) (st : UploadState) :
    (GLTFScene.uploadBuffer waitOk st =
      (waitOk st.nextFence,
       { nextFence := st.nextFence + 1
         events := st.events ++
          [UploadEvent.call UploadStep.uploadBuffer,
           UploadEvent.copyBuffer BufferName.position, UploadEvent.copyBuffer BufferName.normal,
           UploadEvent.copyBuffer BufferName.texCoord,
           UploadEvent.copyBuffer BufferName.tangent,
           UploadEvent.copyBuffer BufferName.index,
           UploadEvent.submitCmdBuffer 1 st.nextFence,
           UploadEvent.waitForAllFences st.nextFence (waitOk st.nextFence)] })) ∧
    (GLTFScene.uploadMaterialBuffer waitOk st =
      (waitOk st.nextFence,
       { nextFence := st.nextFence + 1
         events := st.events ++
          [UploadEvent.call UploadStep.uploadMaterialBuffer,
           UploadEvent.copyBuffer BufferName.material,
           UploadEvent.submitCmdBuffer 1 st.nextFence,
           UploadEvent.waitForAllFences st.nextFence (waitOk st.nextFence)] })) ∧
    (GLTFScene.uploadMatrixBuffer waitOk st =
      (waitOk st.nextFence,
       { nextFence := st.nextFence + 1
         events := st.events ++
          [UploadEvent.call UploadStep.uploadMatrixBuffer,
           UploadEvent.copyBuffer BufferName.matrix,
           UploadEvent.submitCmdBuffer 1 st.nextFence,
           UploadEvent.waitForAllFences st.nextFence (waitOk st.nextFence)] })) ∧
    submitsOf ((GLTFScene.uploadBuffer waitOk st).2.events.drop st.events.length) =
      [(1, st.nextFence)] ∧
    submitsOf ((GLTFScene.uploadMaterialBuffer waitOk st).2.events.drop st.events.length) =
      [(1, st.nextFence)] ∧
    submitsOf ((GLTFScene.uploadMatrixBuffer waitOk st).2.events.drop st.events.length) =
      [(1, st.nextFence)] ∧
    ((GLTFScene.uploadBuffer waitOk st).1 = true ↔ waitOk st.nextFence = true) ∧
    ((GLTFScene.uploadMaterialBuffer waitOk st).1 = true ↔ waitOk st.nextFence = true) ∧
    ((GLTFScene.uploadMatrixBuffer waitOk st).1 = true ↔ waitOk st.nextFence = true) := by
  have hb : GLTFScene.uploadBuffer waitOk st =
      (waitOk st.nextFence,
       { nextFence := st.nextFence + 1
         events := st.events ++
          [UploadEvent.call UploadStep.uploadBuffer,
           UploadEvent.copyBuffer BufferName.position, UploadEvent.copyBuffer BufferName.normal,
           UploadEvent.copyBuffer BufferName.texCoord,
           UploadEvent.copyBuffer BufferName.tangent,
           UploadEvent.copyBuffer BufferName.index,
           UploadEvent.submitCmdBuffer 1 st.nextFence,
           UploadEvent.waitForAllFences st.nextFence (waitOk st.nextFence)] }) := by
    unfold GLTFScene.uploadBuffer submitAndWait
    cases h : waitOk st.nextFence <;> simp [h]
  have hm : GLTFScene.uploadMaterialBuffer waitOk st =
      (waitOk st.nextFence,
       { nextFence := st.nextFence + 1
         events := st.events ++
          [UploadEvent.call UploadStep.uploadMaterialBuffer,
           UploadEvent.copyBuffer BufferName.material,
           UploadEvent.submitCmdBuffer 1 st.nextFence,
           UploadEvent.waitForAllFences st.nextFence (waitOk st.nextFence)] }) := by
    unfold GLTFScene.uploadMaterialBuffer submitAndWait
    cases h : waitOk st.nextFence <;> simp [h]
  have hx : GLTFScene.uploadMatrixBuffer waitOk st =
      (waitOk st.nextFence,
       { nextFence := st.nextFence + 1
         events := st.events ++
          [UploadEvent.call UploadStep.uploadMatrixBuffer,
           UploadEvent.copyBuffer BufferName.matrix,
           UploadEvent.submitCmdBuffer 1 st.nextFence,
           UploadEvent.waitForAllFences st.nextFence (waitOk st.nextFence)] }) := by
    unfold GLTFScene.uploadMatrixBuffer submitAndWait
    cases h : waitOk st.nextFence <;> simp [h]
  refine ⟨hb, hm, hx, ?_, ?_, ?_, ?_, ?_, ?_⟩
  · rw [hb]; simp [submitsOf]
  · rw [hm]; simp [submitsOf]
  · rw [hx]; simp [submitsOf]
  · rw [hb]
  · rw [hm]
  · rw [hx]




/-! ## Camera input -/

section CameraTheorems

variable {F : Type} [LinearOrderedField F]

/-- On a first call the offsets `xoffset` and `yoffset` are zero. -/
theorem Camera_processInput_offsets_first (camera : Camera F) (input : CameraInput F)
    (hfirst : camera.firstCall = true) :
    Camera.processInput.offsets camera input = (0, 0) := by
  simp [Camera.processInput.offsets, Camera.processInput.seededCursorPos, hfirst]

/-- The rotation by the angle zero about any axis is the identity quaternion. -/
theorem glm_angleAxis_zero (M : GlmMath F) (hsin : M.sin 0 = 0) (hcos : M.cos 0 = 1)
    (v : vec3 F) : glm.angleAxis M 0 v = { w := 1, x := 0, y := 0, z := 0 } := by
  simp [glm.angleAxis, hsin, hcos]

/-- Rotating by the normalised product of two identity quaternions changes nothing. -/
theorem quat_rotate_identity (M : GlmMath F) (hsqrt : M.sqrt 1 = 1) (v : vec3 F) :
    quat.rotate (glm.normalizeQuat M
      (quat.mul { w := 1, x := 0, y := 0, z := 0 } { w := 1, x := 0, y := 0, z := 0 })) v = v := by
  cases v
  simp [quat.rotate, glm.normalizeQuat, quat.mul, hsqrt, cross, vec3.add, vec3.mulScalar]

/-- C19: on the first `Camera::processInput` call (`_firstCall` set), for every cursor
position and every button and key state, `xoffset` and `yoffset` are both zero, the yaw and
pitch quaternions are built from the angle zero, the direction is unchanged, and after the
call `_firstCall` is cleared and `_lastCursorPos` is the sampled cursor position. The
functions `sin`, `cos`, `sqrt` are only assumed to satisfy `sin 0 = 0`, `cos 0 = 1` and
`sqrt 1 = 1`. -/
theorem Camera_processInput_first_call (M : GlmMath F) (camera : Camera F)
    (input : CameraInput F) (deltaTime : F) (hfirst : camera.firstCall = true)
    (hsin : M.sin 0 = 0) (hcos : M.cos 0 = 1) (hsqrt : M.sqrt 1 = 1) :
    Camera.processInput.offsets camera input = (0, 0) ∧
    glm.radians M (Camera.processInput.offsets camera input).1 = 0 ∧
    glm.radians M (Camera.processInput.offsets camera input).2 = 0 ∧
    (Camera.processInput M camera input deltaTime).direction = camera.direction ∧
    (Camera.processInput M camera input deltaTime).firstCall = false ∧
    (Camera.processInput M camera input deltaTime).lastCursorPos = input.cursorPos := by
  have hoff := Camera_processInput_offsets_first camera input hfirst
  refine ⟨hoff, ?_, ?_, ?_, ?_, rfl⟩
  · simp [hoff, glm.radians]
  · simp [hoff, glm.radians]
  · show Camera.processInput.direction M camera input = camera.direction
    unfold Camera.processInput.direction
    by_cases hb : input.rightButton = true
    · simp only [hb, if_true, hoff]
      have hr : glm.radians M 0 = 0 := by simp [glm.radians]
      rw [hr, glm_angleAxis_zero M hsin hcos, glm_angleAxis_zero M hsin hcos]
      exact quat_rotate_identity M hsqrt camera.direction
    · simp [hb]
  · show (if camera.firstCall then false else camera.firstCall) = false
    simp [hfirst]

/-- The stand-in functions satisfy the three facts about `sin`, `cos`, `sqrt` used above,
and the sample call leaves the direction unchanged. -/
theorem Camera_processInput_first_call_witness :
    sampleCamera.firstCall = true ∧ sampleMath.sin 0 = 0 ∧ sampleMath.cos 0 = 1 ∧
    sampleMath.sqrt 1 = 1 ∧
    (Camera.processInput.offsets sampleCamera sampleInput = (0, 0) ∧
     glm.radians sampleMath (Camera.processInput.offsets sampleCamera sampleInput).1 = 0 ∧
     glm.radians sampleMath (Camera.processInput.offsets sampleCamera sampleInput).2 = 0 ∧
     (Camera.processInput sampleMath sampleCamera sampleInput (1 / 60)).direction
       = sampleCamera.direction ∧
     (Camera.processInput sampleMath sampleCamera sampleInput (1 / 60)).firstCall = false ∧
     (Camera.processInput sampleMath sampleCamera sampleInput (1 / 60)).lastCursorPos
       = sampleInput.cursorPos) :=
  ⟨rfl, by norm_num [sampleMath], by norm_num [sampleMath], by norm_num [sampleMath],
   Camera_processInput_first_call sampleMath sampleCamera sampleInput (1 / 60) rfl
     (by norm_num [sampleMath]) (by norm_num [sampleMath]) (by norm_num [sampleMath])⟩

/-- In exact arithmetic (an ordered field), for every `Camera::processInput` call, with `d`
the direction after the orientation update, the five successive updates sum to the old
position plus `((W - S) * d + (A - D) * cross(d, up) - Space * up) * speed * deltaTime`,
where each key counts `1` when pressed and `0` otherwise; the position is unchanged when
none of the five keys is pressed. -/
theorem Camera_processInput_position_exact (M : GlmMath F) (camera : Camera F)
    (input : CameraInput F) (deltaTime : F) :
    (Camera.processInput M camera input deltaTime).position
      = vec3.add camera.position
          (vec3.mulScalar
            (vec3.mulScalar
              (vec3.sub
                (vec3.add
                  (vec3.mulScalar (Camera.processInput M camera input deltaTime).direction
                    (pressed input.keyW - pressed input.keyS))
                  (vec3.mulScalar
                    (cross (Camera.processInput M camera input deltaTime).direction camera.up)
                    (pressed input.keyA - pressed input.keyD)))
                (vec3.mulScalar camera.up (pressed input.keySpace)))
              camera.speed)
            deltaTime) ∧
    ((input.keyW = false ∧ input.keyA = false ∧ input.keyS = false ∧ input.keyD = false ∧
        input.keySpace = false) →
      (Camera.processInput M camera input deltaTime).position = camera.position) := by
  constructor
  · show (Camera.processInput M camera input deltaTime).position = vec3.add camera.position
      (vec3.mulScalar (vec3.mulScalar (vec3.sub (vec3.add
        (vec3.mulScalar (Camera.processInput.direction M camera input)
          (pressed input.keyW - pressed input.keyS))
        (vec3.mulScalar (cross (Camera.processInput.direction M camera input) camera.up)
          (pressed input.keyA - pressed input.keyD)))
        (vec3.mulScalar camera.up (pressed input.keySpace))) camera.speed) deltaTime)
    unfold Camera.processInput
    simp only []
    generalize Camera.processInput.direction M camera input = d
    obtain ⟨cursorPos, rightButton, keyW, keyA, keyS, keyD, keySpace⟩ := input
    obtain ⟨position, direction, up, speed, lastCursorPos, firstCall⟩ := camera
    obtain ⟨px, py, pz⟩ := position
    obtain ⟨ux, uy, uz⟩ := up
    obtain ⟨dx, dy, dz⟩ := d
    cases keyW <;> cases keyA <;> cases keyS <;> cases keyD <;> cases keySpace <;>
      simp only [pressed, vec3.add, vec3.sub, vec3.mulScalar, cross, if_true, if_false,
        Bool.false_eq_true, vec3.mk.injEq, eq_self_iff_true] <;>
      refine ⟨?_, ?_, ?_⟩ <;> ring
  · rintro ⟨hW, hA, hS, hD, hSpace⟩
    unfold Camera.processInput
    simp only [hW, hA, hS, hD, hSpace, if_false, Bool.false_eq_true]

/-- The sample camera keeps its position when the sample input has no key pressed. -/
theorem Camera_processInput_position_exact_witness :
    (Camera.processInput sampleMath sampleCamera
        { sampleInput with keyW := false } (1 / 60)).position = sampleCamera.position :=
  (Camera_processInput_position_exact sampleMath sampleCamera { sampleInput with keyW := false }
    (1 / 60)).2 ⟨rfl, rfl, rfl, rfl, rfl⟩

end CameraTheorems




/-! ## Mip chain: barriers and extents -/

theorem mipLoopBody_levelCount (mip : Nat) (st : MipLoopState) :
    (mipLoopBody mip st).mipmapBarrier.levelCount = st.mipmapBarrier.levelCount := by
  obtain ⟨w, h, b, cmds⟩ := st
  rfl

theorem cmds_mipLoop (mipLevels : Nat) :
    ∀ (count mip : Nat) (st : MipLoopState), mipLevels - mip = count →
    st.mipmapBarrier.levelCount = 1 →
    (mipLoop mipLevels mip st).cmds =
      st.cmds ++ expectedCmds count mip st.mipWidth st.mipHeight := by
  intro count
  induction count with
  | zero =>
    intro mip st h _
    rw [mipLoop, if_neg (by omega)]
    simp [expectedCmds]
  | succ n ih =>
    intro mip st h hc
    rw [mipLoop, if_pos (by omega), ih (mip + 1) (mipLoopBody mip st) (by omega)
      (by rw [mipLoopBody_levelCount, hc])]
    obtain ⟨w, h, b, cmds⟩ := st
    obtain ⟨b1, b2, b3, b4, b5, b6⟩ := b
    simp only at hc
    subst hc
    simp [mipLoopBody, expectedCmds]

theorem blitCmds_eq_expectedCmds (width height : Int) :
    blitCmds width height = expectedCmds (mipLevels width height - 1) 1 width height := by
  rw [blitCmds, cmds_mipLoop _ (mipLevels width height - 1) 1 _ rfl rfl]
  simp

theorem length_expectedCmds (count : Nat) :
    ∀ (mip : Nat) (w h : Int), (expectedCmds count mip w h).length = 3 * count := by
  induction count with
  | zero => intro mip w h; rfl
  | succ n ih => intro mip w h; simp [expectedCmds, ih]; omega

theorem expectedCmds_getElem (count : Nat) :
    ∀ (mip : Nat) (w h : Int) (k : Nat), k < count →
    (∃ blit : ImageBlit,
      (expectedCmds count mip w h)[3 * k + 1]? =
        some (TransferCmd.blitImage ImageLayout.transferSrcOptimal
          ImageLayout.transferDstOptimal blit) ∧
      blit.srcMipLevel = mip + k - 1 ∧ blit.dstMipLevel = mip + k) ∧
    (expectedCmds count mip w h)[3 * k + 2]? =
      some (TransferCmd.pipelineBarrier PipelineStage.transfer PipelineStage.transfer
        { srcAccessMask := AccessMask.transferWrite
          dstAccessMask := AccessMask.transferRead
          oldLayout := ImageLayout.transferDstOptimal
          newLayout := ImageLayout.transferSrcOptimal
          baseMipLevel := mip + k
          levelCount := 1 }) := by
  induction count with
  | zero => intro mip w h k hk; omega
  | succ n ih =>
    intro mip w h k hk
    cases k with
    | zero =>
      exact ⟨⟨{ srcMipLevel := mip - 1
                srcExtent := (w, h)
                dstMipLevel := mip
                dstExtent := (if w > 1 then w >>> (1 : Nat) else 1,
                              if h > 1 then h >>> (1 : Nat) else 1) },
        by simp [expectedCmds], rfl, rfl⟩, by simp [expectedCmds]⟩
    | succ j =>
      obtain ⟨⟨blit, h1, h2, h3⟩, h4⟩ := ih (mip + 1) (if w > 1 then w >>> (1 : Nat) else w)
        (if h > 1 then h >>> (1 : Nat) else h) j (by omega)
      have e1 : 3 * (j + 1) + 1 = (3 * j + 1) + 3 := by omega
      have e2 : 3 * (j + 1) + 2 = (3 * j + 2) + 3 := by omega
      refine ⟨⟨blit, ?_, by omega, by omega⟩, ?_⟩
      · rw [e1, expectedCmds]
        simpa [List.getElem?_cons_succ] using h1
      · rw [e2, expectedCmds]
        have : mip + (j + 1) = mip + 1 + j := by omega
        rw [this]
        simpa [List.getElem?_cons_succ] using h4

theorem log2_two : Nat.log2 2 = 1 := by
  rw [Nat.log2_eq_log_two]
  exact (Nat.log_eq_iff (by norm_num)).mpr ⟨by norm_num, by norm_num⟩

theorem mipLevels_two_two : mipLevels 2 2 = 2 := by
  have hmax : (vfs.max 2 2).toNat = 2 := by decide
  rw [mipLevels, hmax, log2_two]

theorem log2_five : Nat.log2 5 = 2 := by
  rw [Nat.log2_eq_log_two]
  exact (Nat.log_eq_iff (by norm_num)).mpr ⟨by norm_num, by norm_num⟩

theorem mipLevels_five_three : mipLevels 5 3 = 3 := by
  have hmax : (vfs.max 5 3).toNat = 5 := by decide
  rw [mipLevels, hmax, log2_five]

/-- C23 (as stated, at a `2 × 2` texture): the loop runs once, for `m = 1`, and the barrier
it records after the blit has `baseMipLevel = 1`, not `m - 1 = 0`: it transitions the level
just written, not the level just read. -/
theorem blitCmds_barrier_after_blit_level :
    blitCmds 2 2 =
      [TransferCmd.pipelineBarrier PipelineStage.transfer PipelineStage.transfer
         { srcAccessMask := AccessMask.none
           dstAccessMask := AccessMask.transferWrite
           oldLayout := ImageLayout.undefined
           newLayout := ImageLayout.transferDstOptimal
           baseMipLevel := 1
           levelCount := 1 },
       TransferCmd.blitImage ImageLayout.transferSrcOptimal ImageLayout.transferDstOptimal
         { srcMipLevel := 0, srcExtent := (2, 2), dstMipLevel := 1, dstExtent := (1, 1) },
       TransferCmd.pipelineBarrier PipelineStage.transfer PipelineStage.transfer
         { srcAccessMask := AccessMask.transferWrite
           dstAccessMask := AccessMask.transferRead
           oldLayout := ImageLayout.transferDstOptimal
           newLayout := ImageLayout.transferSrcOptimal
           baseMipLevel := 1
           levelCount := 1 }] ∧
    ¬ ∃ barrier : ImageMemoryBarrier,
      (blitCmds 2 2)[2]? =
        some (TransferCmd.pipelineBarrier PipelineStage.transfer PipelineStage.transfer barrier) ∧
      barrier.baseMipLevel = 1 - 1 := by
  have e : blitCmds 2 2 = expectedCmds 1 1 2 2 := by
    rw [blitCmds_eq_expectedCmds, mipLevels_two_two]
  rw [e]
  constructor
  · decide
  · rintro ⟨barrier, h1, h2⟩
    have h3 : (expectedCmds 1 1 2 2)[2]? =
        some (TransferCmd.pipelineBarrier PipelineStage.transfer PipelineStage.transfer
          { srcAccessMask := AccessMask.transferWrite
            dstAccessMask := AccessMask.transferRead
            oldLayout := ImageLayout.transferDstOptimal
            newLayout := ImageLayout.transferSrcOptimal
            baseMipLevel := 1
            levelCount := 1 }) := by decide
    rw [h3] at h1
    simp only [Option.some.injEq, TransferCmd.pipelineBarrier.injEq, true_and] at h1
    rw [← h1] at h2
    simp at h2

/-- C23 (amended): in each iteration `m` (`1 ≤ m ≤ L - 1`) of the mipmap loop of
`uploadImage`, the blit reads level `m - 1` and writes level `m`, and the barrier recorded
right after the blit transitions the single level `m`, the level just written as blit
destination, from transfer-destination to transfer-source-optimal layout. -/
theorem mipLoop_barrier_after_blit (w h : Int) (m : Nat) (hm1 : 1 ≤ m)
    (hm : m < mipLevels w h) :
    (∃ blit : ImageBlit,
      (blitCmds w h)[3 * (m - 1) + 1]? =
        some (TransferCmd.blitImage ImageLayout.transferSrcOptimal
          ImageLayout.transferDstOptimal blit) ∧
      blit.srcMipLevel = m - 1 ∧ blit.dstMipLevel = m) ∧
    (blitCmds w h)[3 * (m - 1) + 2]? =
      some (TransferCmd.pipelineBarrier PipelineStage.transfer PipelineStage.transfer
        { srcAccessMask := AccessMask.transferWrite
          dstAccessMask := AccessMask.transferRead
          oldLayout := ImageLayout.transferDstOptimal
          newLayout := ImageLayout.transferSrcOptimal
          baseMipLevel := m
          levelCount := 1 }) := by
  rw [blitCmds_eq_expectedCmds]
  obtain ⟨⟨blit, h1, h2, h3⟩, h4⟩ :=
    expectedCmds_getElem (mipLevels w h - 1) 1 w h (m - 1) (by omega)
  have e : 1 + (m - 1) = m := by omega
  rw [e] at h2 h3 h4
  exact ⟨⟨blit, h1, h2, h3⟩, h4⟩

/-- The second iteration for a `5 × 3` texture (three levels) transitions level `2`. -/
theorem mipLoop_barrier_after_blit_witness :
    1 ≤ 2 ∧ 2 < mipLevels 5 3 ∧
    (blitCmds 5 3)[3 * (2 - 1) + 2]? =
      some (TransferCmd.pipelineBarrier PipelineStage.transfer PipelineStage.transfer
        { srcAccessMask := AccessMask.transferWrite
          dstAccessMask := AccessMask.transferRead
          oldLayout := ImageLayout.transferDstOptimal
          newLayout := ImageLayout.transferSrcOptimal
          baseMipLevel := 2
          levelCount := 1 }) :=
  ⟨by decide, by rw [mipLevels_five_three]; decide,
   (mipLoop_barrier_after_blit 5 3 2 (by decide) (by rw [mipLevels_five_three]; decide)).2⟩


theorem int_div_two_pow (x : Int) (hx : 0 ≤ x) (j : Nat) :
    x / 2 / 2 ^ j = x / 2 ^ (j + 1) ∧ x / 2 ^ j / 2 = x / 2 ^ (j + 1) := by
  obtain ⟨n, rfl⟩ := Int.eq_ofNat_of_zero_le hx
  constructor
  · have : n / 2 / 2 ^ j = n / 2 ^ (j + 1) := by
      rw [Nat.div_div_eq_div_mul, pow_succ, mul_comm]
    exact_mod_cast this
  · have : n / 2 ^ j / 2 = n / 2 ^ (j + 1) := by
      rw [Nat.div_div_eq_div_mul, pow_succ]
    exact_mod_cast this

theorem halve_div_pow (x : Int) (hx : 1 ≤ x) (j : Nat) :
    max (1 : Int) ((if x > 1 then x >>> (1 : Nat) else x) / 2 ^ j) =
      max (1 : Int) (x / 2 ^ (j + 1)) := by
  rw [shiftRight_one]
  split_ifs with h
  · rw [(int_div_two_pow x (by omega) j).1]
  · have h1 : x = 1 := by omega
    subst h1
    have hp : (1 : Int) ≤ 2 ^ j := one_le_pow₀ (by norm_num)
    have hp2 : (1 : Int) < 2 ^ (j + 1) := by
      rw [pow_succ]; omega
    have e1 : (1 : Int) / 2 ^ (j + 1) = 0 := Int.ediv_eq_zero_of_lt (by norm_num) hp2
    have e2 : (1 : Int) / 2 ^ j ≤ 1 := Int.ediv_le_self _ (by norm_num)
    rw [e1, max_eq_left e2, max_eq_left (by norm_num)]

theorem max_one_halve (x : Int) (hx : 0 ≤ x) :
    max (1 : Int) ((max (1 : Int) x) >>> (1 : Nat)) = max (1 : Int) (x / 2) := by
  rw [shiftRight_one]
  rcases le_or_lt 1 x with h | h
  · rw [max_eq_right h]
  · have h0 : x = 0 := by omega
    subst h0
    norm_num

theorem expectedBlits_srcExtent (count : Nat) :
    ∀ (mip : Nat) (w h : Int) (k : Nat) (blit : ImageBlit), 1 ≤ w → 1 ≤ h →
    (expectedBlits count mip w h)[k]? = some blit →
    blit.srcExtent = (max (1 : Int) (w / 2 ^ k), max (1 : Int) (h / 2 ^ k)) := by
  induction count with
  | zero => intro mip w h k blit _ _ hk; simp [expectedBlits] at hk
  | succ n ih =>
    intro mip w h k blit hw hh hk
    cases k with
    | zero =>
      simp only [expectedBlits, List.getElem?_cons_zero, Option.some.injEq] at hk
      subst hk
      simp [max_eq_right hw, max_eq_right hh]
    | succ j =>
      simp only [expectedBlits, List.getElem?_cons_succ] at hk
      rw [ih (mip + 1) _ _ j blit (halve_pos w hw) (halve_pos h hh) hk,
        halve_div_pow w hw, halve_div_pow h hh]

theorem expectedBlits_dstExtent (count mip : Nat) (w h : Int) (k : Nat) (blit : ImageBlit)
    (hw : 1 ≤ w) (hh : 1 ≤ h) (hmip : 1 ≤ mip)
    (hk : (expectedBlits count mip w h)[k]? = some blit) :
    blit.dstExtent =
      (max (1 : Int) (w / 2 ^ (k + 1)), max (1 : Int) (h / 2 ^ (k + 1))) := by
  obtain ⟨_, _, _, h4⟩ := expectedBlits_getElem count mip w h k blit hmip hk
  have h5 := expectedBlits_srcExtent count mip w h k blit hw hh hk
  have p : (0 : Int) < 2 ^ k := by positivity
  rw [h4, h5]
  simp only
  rw [max_one_halve _ (Int.ediv_nonneg (by omega) (le_of_lt p)),
    max_one_halve _ (Int.ediv_nonneg (by omega) (le_of_lt p)),
    (int_div_two_pow w (by omega) k).2, (int_div_two_pow h (by omega) k).2]

/-- C25: for every texture of size `w × h` with `w, h ≥ 1` and at least two mip levels,
the last blit of the mipmap loop writes the last level `L - 1` with the destination extent
`1 × 1`, and no earlier blit has the destination extent `1 × 1`. -/
theorem mipLoop_last_blit_extent (w h : Int) (hw : 1 ≤ w) (hh : 1 ≤ h)
    (hL : 2 ≤ mipLevels w h) :
    (∃ blit : ImageBlit, (blitsOf (blitCmds w h)).getLast? = some blit ∧
      blit.dstExtent = (1, 1) ∧ blit.dstMipLevel = mipLevels w h - 1) ∧
    (∀ (k : Nat) (blit : ImageBlit), (blitsOf (blitCmds w h))[k]? = some blit →
      k + 2 < mipLevels w h → blit.dstExtent ≠ (1, 1)) := by
  have hpos : 1 ≤ max w h := le_trans hw (le_max_left w h)
  obtain ⟨M, hM⟩ : ∃ M : ℕ, max w h = (M : ℤ) :=
    ⟨(max w h).toNat, (Int.toNat_of_nonneg (by omega)).symm⟩
  have hM1 : 1 ≤ M := by omega
  have hLe : mipLevels w h = Nat.log2 M + 1 := by
    simp [mipLevels, vfs_max_eq, hM]
  obtain ⟨b1, b2, -⟩ := mipLevels_bounds M hM1
  simp only [Nat.add_sub_cancel] at b1
  have hlen : (blitsOf (blitCmds w h)).length = mipLevels w h - 1 := by
    rw [blitsOf_blitCmds]; exact length_expectedBlits _ _ _ _
  constructor
  · have hidx : mipLevels w h - 1 - 1 < (blitsOf (blitCmds w h)).length := by omega
    refine ⟨(blitsOf (blitCmds w h))[mipLevels w h - 1 - 1], ?_, ?_, ?_⟩
    · rw [List.getLast?_eq_getElem?, hlen, List.getElem?_eq_getElem hidx]
    · have hk : (expectedBlits (mipLevels w h - 1) 1 w h)[mipLevels w h - 1 - 1]? =
          some (blitsOf (blitCmds w h))[mipLevels w h - 1 - 1] := by
        rw [← blitsOf_blitCmds, List.getElem?_eq_getElem hidx]
      rw [expectedBlits_dstExtent _ 1 w h _ _ hw hh (le_refl 1) hk]
      have e : mipLevels w h - 1 - 1 + 1 = Nat.log2 M := by omega
      rw [e]
      have hbound : ∀ x : Int, 1 ≤ x → x ≤ max w h → max (1 : Int) (x / 2 ^ Nat.log2 M) = 1 := by
        intro x hx1 hx
        apply max_eq_left
        have hlt : x < 2 * 2 ^ Nat.log2 M := by
          have : (M : Int) < 2 ^ (Nat.log2 M + 1) := by exact_mod_cast b2
          rw [pow_succ] at this
          omega
        have := Int.ediv_lt_of_lt_mul (by positivity) hlt
        omega
      rw [hbound w hw (le_max_left w h), hbound h hh (le_max_right w h)]
    · have hk : (expectedBlits (mipLevels w h - 1) 1 w h)[mipLevels w h - 1 - 1]? =
          some (blitsOf (blitCmds w h))[mipLevels w h - 1 - 1] := by
        rw [← blitsOf_blitCmds, List.getElem?_eq_getElem hidx]
      obtain ⟨_, h2, _, _⟩ := expectedBlits_getElem _ 1 w h _ _ (le_refl 1) hk
      omega
  · intro k blit hk hlt
    rw [blitsOf_blitCmds] at hk
    rw [expectedBlits_dstExtent _ 1 w h _ _ hw hh (le_refl 1) hk]
    have hpow : (2 : Int) * 2 ^ (k + 1) ≤ M := by
      have h1 : (2 : Nat) ^ (k + 2) ≤ 2 ^ Nat.log2 M :=
        Nat.pow_le_pow_right (by norm_num) (by omega)
      have h2 : (2 : Nat) ^ (k + 2) ≤ M := le_trans h1 b1
      have h3 : ((2 : Nat) ^ (k + 2) : Int) ≤ M := by exact_mod_cast h2
      rw [pow_succ] at h3
      push_cast at h3
      omega
    have hge : ∀ x : Int, x = max w h → 2 ≤ x / 2 ^ (k + 1) := by
      intro x hx
      rw [hx, hM]
      exact (Int.le_ediv_iff_mul_le (by positivity)).mpr hpow
    intro hcontra
    simp only [Prod.mk.injEq] at hcontra
    rcases le_total w h with hwh | hwh
    · have := hge h (max_eq_right hwh).symm
      have h2 := hcontra.2
      rw [max_eq_right (by omega)] at h2
      omega
    · have := hge w (max_eq_left hwh).symm
      have h2 := hcontra.1
      rw [max_eq_right (by omega)] at h2
      omega

/-- The chain of a `5 × 3` texture (three levels) ends with a `1 × 1` blit into level `2`. -/
theorem mipLoop_last_blit_extent_witness :
    (1 : Int) ≤ 5 ∧ (1 : Int) ≤ 3 ∧ 2 ≤ mipLevels 5 3 ∧
    ∃ blit : ImageBlit, (blitsOf (blitCmds 5 3)).getLast? = some blit ∧
      blit.dstExtent = (1, 1) ∧ blit.dstMipLevel = mipLevels 5 3 - 1 :=
  ⟨by decide, by decide, by rw [mipLevels_five_three]; decide,
   (mipLoop_last_blit_extent 5 3 (by decide) (by decide)
     (by rw [mipLevels_five_three]; decide)).1⟩


/-! ## Mip chain: layouts -/

theorem trackLayouts_append (strict : Bool) (levels : Nat) (a b : List ImageCmd) :
    ∀ layouts : MipLayouts, trackLayouts strict levels (a ++ b) layouts =
      (trackLayouts strict levels a layouts).bind (trackLayouts strict levels b) := by
  induction a with
  | nil => intro layouts; rfl
  | cons c cs ih =>
    intro layouts
    simp only [List.cons_append, trackLayouts]
    cases applyCmd strict levels layouts c with
    | none => rfl
    | some l => simpa using ih l

theorem covers_single (src dst : AccessMask) (old new : ImageLayout) (mip level : Nat) :
    ImageMemoryBarrier.covers
      { srcAccessMask := src, dstAccessMask := dst, oldLayout := old, newLayout := new,
        baseMipLevel := mip, levelCount := 1 } level = true ↔ level = mip := by
  simp only [ImageMemoryBarrier.covers, Bool.and_eq_true, decide_eq_true_eq]
  omega

theorem applyBarrier_of_ok (strict : Bool) (levels : Nat) (barrier : ImageMemoryBarrier)
    (layouts : MipLayouts)
    (hok : ∀ level < levels, barrier.covers level = true →
      (layouts level = barrier.oldLayout ∨
        (strict = false ∧ barrier.oldLayout = ImageLayout.undefined))) :
    applyBarrier strict levels barrier layouts =
      some fun level =>
        if level < levels ∧ barrier.covers level = true then barrier.newLayout
        else layouts level :=
  if_pos hok

theorem trackLayouts_cons_of (strict : Bool) (levels : Nat) (cmd : ImageCmd)
    (cmds : List ImageCmd) (layouts next : MipLayouts)
    (h : applyCmd strict levels layouts cmd = some next) :
    trackLayouts strict levels (cmd :: cmds) layouts = trackLayouts strict levels cmds next := by
  rw [trackLayouts, h]
  rfl

theorem trackLayouts_cons_barrier (strict : Bool) (levels : Nat) (srcStage dstStage : PipelineStage)
    (barrier : ImageMemoryBarrier) (cmds : List ImageCmd) (layouts next : MipLayouts)
    (h : applyBarrier strict levels barrier layouts = some next) :
    trackLayouts strict levels
      (ImageCmd.transfer (TransferCmd.pipelineBarrier srcStage dstStage barrier) :: cmds) layouts =
      trackLayouts strict levels cmds next :=
  trackLayouts_cons_of strict levels _ cmds layouts next h

/-- One iteration of the loop, entered with level `mip - 1` in transfer-source layout and
level `mip` fresh, passes the layout checks and leaves level `mip` in transfer-source
layout and the other levels as they were. -/
theorem trackLayouts_iteration (strict : Bool) (levels mip : Nat) (w h : Int)
    (layouts : MipLayouts) (hmip : 1 ≤ mip) (hlt : mip < levels)
    (hsrc : layouts (mip - 1) = ImageLayout.transferSrcOptimal)
    (hnew : layouts mip = ImageLayout.undefined ∨ strict = false) :
    ∃ next : MipLayouts,
      trackLayouts strict levels ((expectedCmds 1 mip w h).map ImageCmd.transfer) layouts =
        some next ∧
      next mip = ImageLayout.transferSrcOptimal ∧
      ∀ level, level ≠ mip → next level = layouts level := by
  have hne : mip - 1 ≠ mip := by omega
  have s1 := applyBarrier_of_ok strict levels
    { srcAccessMask := AccessMask.none, dstAccessMask := AccessMask.transferWrite,
      oldLayout := ImageLayout.undefined, newLayout := ImageLayout.transferDstOptimal,
      baseMipLevel := mip, levelCount := 1 } layouts (by
    intro level _ hc
    rw [covers_single] at hc
    subst hc
    rcases hnew with h1 | h1
    · exact Or.inl h1
    · exact Or.inr ⟨h1, rfl⟩)
  generalize hl1 : (fun level =>
      if level < levels ∧ ImageMemoryBarrier.covers
        { srcAccessMask := AccessMask.none, dstAccessMask := AccessMask.transferWrite,
          oldLayout := ImageLayout.undefined, newLayout := ImageLayout.transferDstOptimal,
          baseMipLevel := mip, levelCount := 1 } level = true
      then ImageLayout.transferDstOptimal else layouts level) = lay1 at s1
  have v1 : lay1 mip = ImageLayout.transferDstOptimal := by
    rw [← hl1]; simp [covers_single, hlt]
  have v2 : ∀ level, level ≠ mip → lay1 level = layouts level := by
    intro level hl; rw [← hl1]; simp [covers_single, hl]
  have s2 : applyCmd strict levels lay1
      (ImageCmd.transfer (TransferCmd.blitImage ImageLayout.transferSrcOptimal
        ImageLayout.transferDstOptimal
        { srcMipLevel := mip - 1
          srcExtent := (w, h)
          dstMipLevel := mip
          dstExtent := (if w > 1 then w >>> (1 : Nat) else 1,
                        if h > 1 then h >>> (1 : Nat) else 1) })) = some lay1 :=
    if_pos ⟨by rw [v2 _ hne]; exact hsrc, v1, (by show mip - 1 < levels; omega), hlt⟩
  have s3 := applyBarrier_of_ok strict levels
    { srcAccessMask := AccessMask.transferWrite, dstAccessMask := AccessMask.transferRead,
      oldLayout := ImageLayout.transferDstOptimal, newLayout := ImageLayout.transferSrcOptimal,
      baseMipLevel := mip, levelCount := 1 } lay1 (by
    intro level _ hc
    rw [covers_single] at hc
    subst hc
    exact Or.inl v1)
  obtain ⟨lay2, s4, p1, p2⟩ : ∃ lay2 : MipLayouts,
      applyBarrier strict levels
        { srcAccessMask := AccessMask.transferWrite, dstAccessMask := AccessMask.transferRead,
          oldLayout := ImageLayout.transferDstOptimal,
          newLayout := ImageLayout.transferSrcOptimal,
          baseMipLevel := mip, levelCount := 1 } lay1 = some lay2 ∧
      lay2 mip = ImageLayout.transferSrcOptimal ∧
      ∀ level, level ≠ mip → lay2 level = lay1 level :=
    ⟨_, s3, by simp [covers_single, hlt], fun level hl => by simp [covers_single, hl]⟩
  refine ⟨lay2, ?_, p1, fun level hl => by rw [p2 level hl, v2 level hl]⟩
  show trackLayouts strict levels (_ :: _ :: _ :: []) layouts = _
  rw [trackLayouts_cons_barrier _ _ _ _ _ _ _ _ s1, trackLayouts_cons_of _ _ _ _ _ _ s2,
    trackLayouts_cons_barrier _ _ _ _ _ _ _ _ s4]
  rfl

/-- The loop from level `mip` on, entered with every level below `mip` in transfer-source
layout and every other level fresh, passes the layout checks and ends with every level in
transfer-source layout. -/
theorem trackLayouts_expectedCmds (strict : Bool) (levels : Nat) :
    ∀ (count mip : Nat) (w h : Int) (layouts : MipLayouts), 1 ≤ mip → mip + count = levels →
    (∀ level, level < mip → layouts level = ImageLayout.transferSrcOptimal) →
    (∀ level, mip ≤ level → level < levels → layouts level = ImageLayout.undefined ∨
      (strict = false ∧ layouts level = ImageLayout.transferSrcOptimal)) →
    ∃ final : MipLayouts,
      trackLayouts strict levels ((expectedCmds count mip w h).map ImageCmd.transfer) layouts =
        some final ∧
      ∀ level, level < levels → final level = ImageLayout.transferSrcOptimal := by
  intro count
  induction count with
  | zero =>
    intro mip w h layouts _ hL hlow _
    exact ⟨layouts, rfl, fun level hl => hlow level (by omega)⟩
  | succ n ih =>
    intro mip w h layouts hmip hL hlow hhigh
    have hsplit : expectedCmds (n + 1) mip w h =
        expectedCmds 1 mip w h ++ expectedCmds n (mip + 1)
          (if w > 1 then w >>> (1 : Nat) else w) (if h > 1 then h >>> (1 : Nat) else h) := by
      simp [expectedCmds]
    obtain ⟨next, h1, h2, h3⟩ := trackLayouts_iteration strict levels mip w h layouts hmip
      (by omega) (hlow (mip - 1) (by omega))
      (by rcases hhigh mip (le_refl mip) (by omega) with hc | hc
          · exact Or.inl hc
          · exact Or.inr hc.1)
    obtain ⟨final, h4, h5⟩ := ih (mip + 1) (if w > 1 then w >>> (1 : Nat) else w)
      (if h > 1 then h >>> (1 : Nat) else h) next (by omega) (by omega)
      (fun level hl => by
        by_cases hc : level = mip
        · rw [hc]; exact h2
        · rw [h3 level hc]; exact hlow level (by omega))
      (fun level hl1 hl2 => by
        rw [h3 level (by omega)]; exact hhigh level (by omega) hl2)
    refine ⟨final, ?_, h5⟩
    rw [hsplit, List.map_append, trackLayouts_append, h1]
    exact h4

/-- The copy stage leaves level `0` in transfer-source layout and every other level fresh
(or, when the range of `generateMemoryBarrier` is wider than level `0`, in transfer-source
layout). -/
theorem trackLayouts_copyCmds (strict : Bool) (levels : Nat) (range : Nat × Nat)
    (hlevels : 1 ≤ levels) (hbase : range.1 = 0) (hcount : 1 ≤ range.2)
    (hstrict : strict = true → range.2 = 1) :
    ∃ layouts : MipLayouts,
      trackLayouts strict levels (GLTFScene.uploadImage.copyCmds range) MipLayouts.initial =
        some layouts ∧
      layouts 0 = ImageLayout.transferSrcOptimal ∧
      ∀ level, 1 ≤ level → level < levels → layouts level = ImageLayout.undefined ∨
        (strict = false ∧ layouts level = ImageLayout.transferSrcOptimal) := by
  obtain ⟨base, count⟩ := range
  simp only at hbase hcount hstrict
  subst hbase
  have hcov : ∀ (src dst : AccessMask) (old new : ImageLayout) (level : Nat),
      ImageMemoryBarrier.covers (Image.generateMemoryBarrier (0, count) src dst old new) level =
        true ↔ level < count := by
    intro src dst old new level
    simp [ImageMemoryBarrier.covers, Image.generateMemoryBarrier]
  have s1 := applyBarrier_of_ok strict levels
    (Image.generateMemoryBarrier (0, count) AccessMask.none AccessMask.transferWrite
      ImageLayout.undefined ImageLayout.transferDstOptimal) MipLayouts.initial
    (fun _ _ _ => Or.inl rfl)
  generalize hl1 : (fun level =>
      if level < levels ∧ ImageMemoryBarrier.covers
        (Image.generateMemoryBarrier (0, count) AccessMask.none AccessMask.transferWrite
          ImageLayout.undefined ImageLayout.transferDstOptimal) level = true
      then (Image.generateMemoryBarrier (0, count) AccessMask.none AccessMask.transferWrite
          ImageLayout.undefined ImageLayout.transferDstOptimal).newLayout
      else MipLayouts.initial level) = lay1 at s1
  have v1 : ∀ level, level < levels → level < count →
      lay1 level = ImageLayout.transferDstOptimal := by
    intro level h1 h2
    rw [← hl1]; simp only [hcov, if_pos (And.intro h1 h2)]; rfl
  have v2 : ∀ level, ¬ (level < levels ∧ level < count) →
      lay1 level = ImageLayout.undefined := by
    intro level h1
    rw [← hl1]; simp only [hcov, if_neg h1]; rfl
  have s2 : applyCmd strict levels lay1 (ImageCmd.copyBufferToImage 0) = some lay1 := rfl
  have s3 := applyBarrier_of_ok strict levels
    (Image.generateMemoryBarrier (0, count) AccessMask.transferWrite AccessMask.transferRead
      ImageLayout.transferDstOptimal ImageLayout.transferSrcOptimal) lay1 (by
    intro level h1 hc
    rw [hcov] at hc
    exact Or.inl (v1 level h1 hc))
  obtain ⟨lay2, s4, p1, p2⟩ : ∃ lay2 : MipLayouts,
      applyBarrier strict levels
        (Image.generateMemoryBarrier (0, count) AccessMask.transferWrite
          AccessMask.transferRead ImageLayout.transferDstOptimal
          ImageLayout.transferSrcOptimal) lay1 = some lay2 ∧
      (∀ level, level < levels → level < count →
        lay2 level = ImageLayout.transferSrcOptimal) ∧
      ∀ level, ¬ (level < levels ∧ level < count) → lay2 level = lay1 level :=
    ⟨_, s3, fun level h1 h2 => by simp only [hcov, if_pos (And.intro h1 h2)]; rfl,
      fun level hc => by simp only [hcov, if_neg hc]⟩
  refine ⟨lay2, ?_, p1 0 (by omega) (by omega), ?_⟩
  · show trackLayouts strict levels (_ :: _ :: _ :: []) MipLayouts.initial = _
    rw [trackLayouts_cons_barrier _ _ _ _ _ _ _ _ s1, trackLayouts_cons_of _ _ _ _ _ _ s2,
      trackLayouts_cons_barrier _ _ _ _ _ _ _ _ s4]
    rfl
  · intro level h1 h2
    by_cases hc : level < levels ∧ level < count
    · right
      refine ⟨?_, p1 level hc.1 hc.2⟩
      cases hs : strict with
      | true => have := hstrict hs; omega
      | false => rfl
    · left
      rw [p2 level hc]
      exact v2 level hc

theorem blit_of_mem_expectedCmds (count : Nat) :
    ∀ (mip : Nat) (w h : Int) (srcLayout dstLayout : ImageLayout) (blit : ImageBlit), 1 ≤ mip →
    TransferCmd.blitImage srcLayout dstLayout blit ∈ expectedCmds count mip w h →
    srcLayout = ImageLayout.transferSrcOptimal ∧ dstLayout = ImageLayout.transferDstOptimal ∧
      blit.srcMipLevel + 1 = blit.dstMipLevel := by
  induction count with
  | zero => intro mip w h s d blit _ hmem; simp [expectedCmds] at hmem
  | succ n ih =>
    intro mip w h s d blit hmip hmem
    simp only [expectedCmds, List.cons_append, List.nil_append, List.mem_cons] at hmem
    rcases hmem with hc | hc | hc | hc
    · cases hc
    · simp only [TransferCmd.blitImage.injEq] at hc
      obtain ⟨h1, h2, h3⟩ := hc
      subst h3
      exact ⟨h1, h2, by simp; omega⟩
    · cases hc
    · exact ih (mip + 1) _ _ s d blit (by omega) hc

theorem trackLayouts_prefix (strict : Bool) (levels : Nat) (pre post : List ImageCmd)
    (cmd : ImageCmd) (layouts final : MipLayouts)
    (h : trackLayouts strict levels (pre ++ cmd :: post) layouts = some final) :
    ∃ before after : MipLayouts, trackLayouts strict levels pre layouts = some before ∧
      applyCmd strict levels before cmd = some after := by
  rw [trackLayouts_append] at h
  cases h1 : trackLayouts strict levels pre layouts with
  | none => rw [h1] at h; simp at h
  | some before =>
    rw [h1] at h
    simp only [Option.some_bind, trackLayouts] at h
    cases h2 : applyCmd strict levels before cmd with
    | none => rw [h2] at h; simp at h
    | some after => exact ⟨before, after, rfl, h2⟩

theorem mipLevels_pos (w h : Int) : 1 ≤ mipLevels w h := by
  unfold mipLevels
  omega

theorem finalTransitionCmds_eq (w h : Int) :
    GLTFScene.uploadImage.finalTransitionCmds w h =
      [ImageCmd.transfer
        (TransferCmd.pipelineBarrier PipelineStage.transfer PipelineStage.fragmentShader
          { srcAccessMask := AccessMask.transferRead
            dstAccessMask := AccessMask.shaderRead
            oldLayout := ImageLayout.transferSrcOptimal
            newLayout := ImageLayout.shaderReadOnlyOptimal
            baseMipLevel := 0
            levelCount := mipLevels w h })] := rfl

/-- The copy stage and the mipmap loop pass the layout checks and leave every level in
transfer-source layout. -/
theorem trackLayouts_before_final (strict : Bool) (range : Nat × Nat) (w h : Int)
    (hbase : range.1 = 0) (hcount : 1 ≤ range.2) (hstrict : strict = true → range.2 = 1) :
    ∃ beforeFinal : MipLayouts,
      trackLayouts strict (mipLevels w h)
        (GLTFScene.uploadImage.copyCmds range ++ (blitCmds w h).map ImageCmd.transfer)
        MipLayouts.initial = some beforeFinal ∧
      ∀ level, level < mipLevels w h → beforeFinal level = ImageLayout.transferSrcOptimal := by
  obtain ⟨lay, h1, h2, h3⟩ := trackLayouts_copyCmds strict (mipLevels w h) range
    (mipLevels_pos w h) hbase hcount hstrict
  obtain ⟨final, h4, h5⟩ := trackLayouts_expectedCmds strict (mipLevels w h)
    (mipLevels w h - 1) 1 w h lay (le_refl 1) (by have := mipLevels_pos w h; omega)
    (fun level hl => by
      have : level = 0 := by omega
      rw [this]; exact h2)
    h3
  refine ⟨final, ?_, h5⟩
  rw [trackLayouts_append, h1, blitCmds_eq_expectedCmds]
  exact h4

/-- C24: tracking the layout of each mip level through the commands `uploadImage` records
for one texture with `L = mipLevels w h` levels, from the image's initial layout: no command
declares a layout a level does not have. Every blit finds its source level `m - 1` in
transfer-source layout and its destination level `m` in transfer-destination layout. When
the single final barrier (base level `0`, level count `L`, old layout transfer-source) is
recorded every level `0 .. L - 1` is in transfer-source layout, and after it every level is
shader-read-only. The barriers of the copy stage cover a mip range that contains level `0`;
with `strict = true` (an old layout `UNDEFINED` must be the real layout as well) that range
is level `0` alone. -/
theorem uploadImage_layouts_tracked (strict : Bool) (range : Nat × Nat) (w h : Int)
    (hbase : range.1 = 0) (hcount : 1 ≤ range.2) (hstrict : strict = true → range.2 = 1) :
    (∀ (pre post : List ImageCmd) (srcLayout dstLayout : ImageLayout) (blit : ImageBlit),
      GLTFScene.uploadImage.textureCmds range w h =
        pre ++ ImageCmd.transfer (TransferCmd.blitImage srcLayout dstLayout blit) :: post →
      ∃ layouts : MipLayouts,
        trackLayouts strict (mipLevels w h) pre MipLayouts.initial = some layouts ∧
        blit.srcMipLevel + 1 = blit.dstMipLevel ∧
        layouts blit.srcMipLevel = ImageLayout.transferSrcOptimal ∧
        layouts blit.dstMipLevel = ImageLayout.transferDstOptimal) ∧
    GLTFScene.uploadImage.finalTransitionCmds w h =
      [ImageCmd.transfer
        (TransferCmd.pipelineBarrier PipelineStage.transfer PipelineStage.fragmentShader
          { srcAccessMask := AccessMask.transferRead
            dstAccessMask := AccessMask.shaderRead
            oldLayout := ImageLayout.transferSrcOptimal
            newLayout := ImageLayout.shaderReadOnlyOptimal
            baseMipLevel := 0
            levelCount := mipLevels w h })] ∧
    ∃ beforeFinal afterFinal : MipLayouts,
      trackLayouts strict (mipLevels w h)
        (GLTFScene.uploadImage.copyCmds range ++ (blitCmds w h).map ImageCmd.transfer)
        MipLayouts.initial = some beforeFinal ∧
      (∀ level, level < mipLevels w h → beforeFinal level = ImageLayout.transferSrcOptimal) ∧
      trackLayouts strict (mipLevels w h) (GLTFScene.uploadImage.textureCmds range w h)
        MipLayouts.initial = some afterFinal ∧
      (∀ level, level < mipLevels w h →
        afterFinal level = ImageLayout.shaderReadOnlyOptimal) := by
  obtain ⟨beforeFinal, h1, h2⟩ := trackLayouts_before_final strict range w h hbase hcount hstrict
  have hfinal := applyBarrier_of_ok strict (mipLevels w h)
    { srcAccessMask := AccessMask.transferRead
      dstAccessMask := AccessMask.shaderRead
      oldLayout := ImageLayout.transferSrcOptimal
      newLayout := ImageLayout.shaderReadOnlyOptimal
      baseMipLevel := 0
      levelCount := mipLevels w h } beforeFinal (fun level hl _ => Or.inl (h2 level hl))
  obtain ⟨afterFinal, h3, h4⟩ : ∃ afterFinal : MipLayouts,
      applyBarrier strict (mipLevels w h)
        { srcAccessMask := AccessMask.transferRead
          dstAccessMask := AccessMask.shaderRead
          oldLayout := ImageLayout.transferSrcOptimal
          newLayout := ImageLayout.shaderReadOnlyOptimal
          baseMipLevel := 0
          levelCount := mipLevels w h } beforeFinal = some afterFinal ∧
      ∀ level, level < mipLevels w h → afterFinal level = ImageLayout.shaderReadOnlyOptimal :=
    ⟨_, hfinal, fun level hl => by simp [ImageMemoryBarrier.covers, hl]⟩
  have hall : trackLayouts strict (mipLevels w h) (GLTFScene.uploadImage.textureCmds range w h)
      MipLayouts.initial = some afterFinal := by
    rw [GLTFScene.uploadImage.textureCmds, trackLayouts_append, h1, finalTransitionCmds_eq]
    show trackLayouts strict (mipLevels w h) (_ :: []) beforeFinal = _
    rw [trackLayouts_cons_barrier _ _ _ _ _ _ _ _ h3]
    rfl
  refine ⟨?_, finalTransitionCmds_eq w h, beforeFinal, afterFinal, h1, h2, hall, h4⟩
  intro pre post srcLayout dstLayout blit hsplit
  have hmem : ImageCmd.transfer (TransferCmd.blitImage srcLayout dstLayout blit) ∈
      GLTFScene.uploadImage.textureCmds range w h := by
    rw [hsplit]; simp
  have hblit : TransferCmd.blitImage srcLayout dstLayout blit ∈
      expectedCmds (mipLevels w h - 1) 1 w h := by
    rw [GLTFScene.uploadImage.textureCmds, List.mem_append, List.mem_append] at hmem
    rcases hmem with (hc | hc) | hc
    · simp [GLTFScene.uploadImage.copyCmds] at hc
    · rw [List.mem_map] at hc
      obtain ⟨c, hc1, hc2⟩ := hc
      simp only [ImageCmd.transfer.injEq] at hc2
      rw [← hc2, ← blitCmds_eq_expectedCmds]
      exact hc1
    · simp [finalTransitionCmds_eq] at hc
  obtain ⟨e1, e2, e3⟩ := blit_of_mem_expectedCmds _ 1 w h srcLayout dstLayout blit (le_refl 1) hblit
  rw [hsplit] at hall
  obtain ⟨before, after, p1, p2⟩ := trackLayouts_prefix strict (mipLevels w h) pre post _ _ _ hall
  refine ⟨before, p1, e3, ?_, ?_⟩
  · by_contra hne
    have : applyCmd strict (mipLevels w h) before
        (ImageCmd.transfer (TransferCmd.blitImage srcLayout dstLayout blit)) = none :=
      if_neg (fun hc => hne (by rw [hc.1, e1]))
    rw [this] at p2
    simp at p2
  · by_contra hne
    have : applyCmd strict (mipLevels w h) before
        (ImageCmd.transfer (TransferCmd.blitImage srcLayout dstLayout blit)) = none :=
      if_neg (fun hc => hne (by rw [hc.2.1, e2]))
    rw [this] at p2
    simp at p2

/-- For a `5 × 3` texture whose copy-stage barriers cover level `0` alone, under the strict
reading, the three levels end in shader-read-only layout. -/
theorem uploadImage_layouts_tracked_witness :
    ((0, 1) : Nat × Nat).1 = 0 ∧ 1 ≤ ((0, 1) : Nat × Nat).2 ∧
    ∃ beforeFinal afterFinal : MipLayouts,
      trackLayouts true (mipLevels 5 3)
        (GLTFScene.uploadImage.copyCmds (0, 1) ++ (blitCmds 5 3).map ImageCmd.transfer)
        MipLayouts.initial = some beforeFinal ∧
      (∀ level, level < mipLevels 5 3 → beforeFinal level = ImageLayout.transferSrcOptimal) ∧
      trackLayouts true (mipLevels 5 3) (GLTFScene.uploadImage.textureCmds (0, 1) 5 3)
        MipLayouts.initial = some afterFinal ∧
      (∀ level, level < mipLevels 5 3 →
        afterFinal level = ImageLayout.shaderReadOnlyOptimal) :=
  ⟨rfl, le_refl 1,
   (uploadImage_layouts_tracked true (0, 1) 5 3 rfl (le_refl 1) (fun _ => rfl)).2.2⟩

/-- The layout check is not vacuous: a blit recorded on a fresh two-level image, without
the barriers before it, is rejected. -/
theorem trackLayouts_rejects_unprepared_blit :
    (trackLayouts true 2
      [ImageCmd.transfer (TransferCmd.blitImage ImageLayout.transferSrcOptimal
        ImageLayout.transferDstOptimal
        { srcMipLevel := 0, srcExtent := (2, 2), dstMipLevel := 1, dstExtent := (1, 1) })]
      MipLayouts.initial).isSome = false := by
  decide


/-! ## OBJ decoder: degenerate triangles and smoothed normals -/

/-- C26 (evaluation at the failing input): for the triangle `(0,0,0)`, `(1,0,0)`,
`(0,0,1)`, which is not collinear, `CheckTriangle` is false and `CalculateNormal` returns
the zero vector whatever `glm::normalize` computes, although the normalized cross product
of `v2 - v1` and `v3 - v2` is `(0, -1, 0)`. -/
theorem CalculateNormal_zero_for_vertical_triangle :
    ¬ Collinear verticalTriangle.1 verticalTriangle.2.1 verticalTriangle.2.2 ∧
    CheckTriangle verticalTriangle.1 verticalTriangle.2.1 verticalTriangle.2.2 = false ∧
    (∀ normalize : vec3 Int → vec3 Int,
      CalculateNormal normalize verticalTriangle.1 verticalTriangle.2.1 verticalTriangle.2.2 =
        vec3.zero) ∧
    normalizeAxis (cross (vec3.sub verticalTriangle.2.1 verticalTriangle.1)
      (vec3.sub verticalTriangle.2.2 verticalTriangle.2.1)) = { x := 0, y := -1, z := 0 } := by
  refine ⟨by unfold Collinear; decide, by decide, fun normalize => ?_, by decide⟩
  have h : CheckTriangle verticalTriangle.1 verticalTriangle.2.1 verticalTriangle.2.2 = false := by
    decide
  simp [CalculateNormal, h]

/-- C27 (evaluation at the failing inputs): for a shape whose only face is collinear,
`ComputeSmoothingNormals` calls `glm::normalize` on the zero vector at each of the three
vertex indices, whatever `glm::normalize` computes; and for the two sides of one triangle
the face normals `(0, 0, 1)` and `(0, 0, -1)` cancel, so the sums that the final loop
normalizes are the zero vector as well. -/
theorem ComputeSmoothingNormals_normalizes_zero :
    (∀ normalize : vec3 Int → vec3 Int,
      ComputeSmoothingNormals normalize degenerateAttrib degenerateShape =
        some [(0, normalize vec3.zero), (1, normalize vec3.zero), (2, normalize vec3.zero)]) ∧
    ComputeSmoothingNormals.faces normalizeAxis sampleAttrib.vertices []
        (meshFaces twoSidedShape.mesh.indices) =
      some [(0, vec3.zero), (1, vec3.zero), (2, vec3.zero)] ∧
    (∀ normalize : vec3 Int → vec3 Int,
      (LoadObjFile normalize 1000 1 (some (degenerateAttrib, [degenerateShape])) emptyBuffers
          { Position3 := true, Normal3 := true, TexCoord2 := false }).map
        (fun r => r.2.vertices.take 6) =
      some [0, 0, 0, (normalize vec3.zero).x, (normalize vec3.zero).y,
        (normalize vec3.zero).z]) := by
  refine ⟨fun normalize => ?_, by decide, fun normalize => ?_⟩
  · rfl
  · rfl




/-! ## Device teardown -/

/-- The destroy calls of one `destroyDevice` call: one per non-null handle, the messenger
only under `_enableValidationLayer`, in the order allocator, logical device, debug
messenger, instance; afterwards the handles whose block ran are null. -/
theorem Device_destroyDevice_eq (d : Device) :
    Device.destroyDevice d =
      ({ d with
          memoryAllocator := none
          device := none
          debugMessenger := if d.enableValidationLayer then none else d.debugMessenger
          instanceHandle := none },
       d.memoryAllocator.toList.map DeviceEvent.vmaDestroyAllocator ++
       d.device.toList.map DeviceEvent.vkDestroyDevice ++
       (if d.enableValidationLayer then
          d.debugMessenger.toList.map (DeviceEvent.vkDestroyDebugUtilsMessengerEXT d.instanceHandle)
        else []) ++
       d.instanceHandle.toList.map DeviceEvent.vkDestroyInstance) := by
  obtain ⟨enable, inst, messenger, physical, device, allocator⟩ := d
  cases enable <;> cases inst <;> cases messenger <;> cases device <;> cases allocator <;> rfl

/-- A `destroyDevice` call on an object that one `destroyDevice` call has left does
nothing. -/
theorem Device_destroyDevice_again (d : Device) :
    Device.destroyDevice (Device.destroyDevice d).1 = ((Device.destroyDevice d).1, []) := by
  obtain ⟨enable, inst, messenger, physical, device, allocator⟩ := d
  cases enable <;> cases inst <;> cases messenger <;> cases device <;> cases allocator <;> rfl

theorem Device_destroyDevice_repeated_fixed (d : Device)
    (h : Device.destroyDevice d = (d, [])) :
    ∀ calls : Nat, Device.destroyDevice.repeated calls d = (d, []) := by
  intro calls
  induction calls with
  | zero => rfl
  | succ n ih => simp [Device.destroyDevice.repeated, h, ih]

/-- After `Device::initialize` on an object without debug messenger, a debug messenger
exists only under `_enableValidationLayer`; `initializeLogicalDevice` and
`initializeMemoryAllocator` leave both members alone. -/
theorem Device_initialize_messenger (ndebug : Bool) (vk : VulkanCalls) (d : Device)
    (h : d.debugMessenger = none) :
    (( Device.initialize ndebug vk d).2.debugMessenger ≠ none →
      ( Device.initialize ndebug vk d).2.enableValidationLayer = true) ∧
    (Device.initializeLogicalDevice vk d).2.debugMessenger = d.debugMessenger ∧
    (Device.initializeLogicalDevice vk d).2.enableValidationLayer = d.enableValidationLayer ∧
    (Device.initializeMemoryAllocator vk d).2.debugMessenger = d.debugMessenger ∧
    (Device.initializeMemoryAllocator vk d).2.enableValidationLayer =
      d.enableValidationLayer := by
  obtain ⟨enable, inst, messenger, physical, device, allocator⟩ := d
  obtain ⟨layerFound, createInstance, createMessenger, physicalDevices, createDevice,
    createAllocator⟩ := vk
  simp only at h
  subst h
  refine ⟨?_, ?_, ?_, ?_, ?_⟩
  · cases ndebug <;> cases layerFound <;> cases createInstance <;> cases createMessenger <;>
      cases physicalDevices <;> cases physical <;>
      simp [ Device.initialize, Device.initializeInstance, Device.pickPhysicalDevice]
  · cases createDevice <;> rfl
  · cases createDevice <;> rfl
  · cases createAllocator <;> rfl
  · cases createAllocator <;> rfl

/-- C21: for every `Device` and every number of `destroyDevice` calls (the destructor's
included), the destroy calls made are those of the first call: one for each of the memory
allocator, the logical device, the debug messenger and the instance whose handle is not
null (the messenger only under `_enableValidationLayer`), each at most once, in this
order. After the first call the allocator, device and instance handles are null, and so is
the debug messenger handle when a messenger exists only under `_enableValidationLayer`, as
`initialize` guarantees; every further call does nothing. -/
theorem Device_destroyDevice_once (d : Device) (calls : Nat) :
    (Device.destroyDevice.repeated (calls + 1) d).2 =
      d.memoryAllocator.toList.map DeviceEvent.vmaDestroyAllocator ++
      d.device.toList.map DeviceEvent.vkDestroyDevice ++
      (if d.enableValidationLayer then
         d.debugMessenger.toList.map (DeviceEvent.vkDestroyDebugUtilsMessengerEXT d.instanceHandle)
       else []) ++
      d.instanceHandle.toList.map DeviceEvent.vkDestroyInstance ∧
    Device.destroyDevice.repeated (calls + 1) d = Device.destroyDevice d ∧
    (Device.destroyDevice d).1.memoryAllocator = none ∧
    (Device.destroyDevice d).1.device = none ∧
    (Device.destroyDevice d).1.instanceHandle = none ∧
    ((d.debugMessenger ≠ none → d.enableValidationLayer = true) →
      (Device.destroyDevice d).1.debugMessenger = none) ∧
    Device.destroyDevice (Device.destroyDevice d).1 = ((Device.destroyDevice d).1, []) := by
  have h2 : Device.destroyDevice.repeated (calls + 1) d = Device.destroyDevice d := by
    rw [Device.destroyDevice.repeated]
    simp only [Device_destroyDevice_repeated_fixed _ (Device_destroyDevice_again d) calls,
      List.append_nil]
  refine ⟨?_, h2, ?_, ?_, ?_, ?_, Device_destroyDevice_again d⟩
  · rw [h2, Device_destroyDevice_eq]
  · rw [Device_destroyDevice_eq]
  · rw [Device_destroyDevice_eq]
  · rw [Device_destroyDevice_eq]
  · intro hinv
    rw [Device_destroyDevice_eq]
    simp only
    cases he : d.enableValidationLayer with
    | true => rfl
    | false =>
      simp only [Bool.false_eq_true, if_false]
      by_contra hne
      have := hinv hne
      rw [he] at this
      cases this

/-- Three `destroyDevice` calls on the sample device destroy its allocator `5`, device `4`,
messenger `2` and instance `1`, once each and in this order, and leave no handle. -/
theorem Device_destroyDevice_once_witness :
    (sampleDevice.debugMessenger ≠ none → sampleDevice.enableValidationLayer = true) ∧
    (Device.destroyDevice.repeated (2 + 1) sampleDevice).2 =
      [DeviceEvent.vmaDestroyAllocator 5, DeviceEvent.vkDestroyDevice 4,
       DeviceEvent.vkDestroyDebugUtilsMessengerEXT (some 1) 2, DeviceEvent.vkDestroyInstance 1] ∧
    (Device.destroyDevice sampleDevice).1.debugMessenger = none :=
  ⟨by decide,
   (Device_destroyDevice_once sampleDevice 2).1.trans (by decide),
   (Device_destroyDevice_once sampleDevice 2).2.2.2.2.2.1 (by decide)⟩




/-! ## Constructors and pipeline teardown -/

/-- With assertions enabled a constructor runs `initialize` and keeps its result, or aborts
when `initialize` fails. -/
theorem assert_enabled {σ : Type} (expr : σ → Bool × σ) (st : σ) :
    assert false expr st = if (expr st).1 then some (expr st).2 else none := by
  unfold assert
  rcases h : expr st with ⟨ok, st1⟩
  cases ok <;> simp

/-- C28 (evaluation at the failing input): with `NDEBUG` defined, the constructors of
`PipelineBase`, `Device`, `GLTFScene` and `Camera` leave the members as they were, whatever
the arguments, because `assert(initialize(...))` does not evaluate its argument; with
assertions enabled the same constructors yield the members `initialize` produces, which
differ from the untouched ones. -/
theorem construct_skips_initialize_under_NDEBUG :
    (∀ (device : Nat) (members : PipelineBase),
      PipelineBase.construct true device members = some members) ∧
    (∀ (vk : VulkanCalls) (members : Device), Device.construct true vk members = some members) ∧
    (∀ (waitOk : Nat → Bool) (loadSceneOk : Bool) (numImages : Nat) (members : UploadState),
      GLTFScene.construct true waitOk loadSceneOk numImages members = some members) ∧
    (∀ (ok : Bool) (window frameCount : Nat) (members : CameraResources),
      Camera.construct true ok window frameCount members = some members) ∧
    PipelineBase.construct false 4 PipelineBase.null =
      some { device := some 4, shaderStages := [], pipeline := none } ∧
    PipelineBase.construct true 4 PipelineBase.null = some PipelineBase.null ∧
    (Device.construct false sampleVulkanCalls Device.null).map
      (fun d => (d.instanceHandle, d.debugMessenger, d.physicalDevice)) =
      some (some 1, some 2, some 3) ∧
    (Device.construct true sampleVulkanCalls Device.null).map
      (fun d => (d.instanceHandle, d.debugMessenger, d.physicalDevice)) =
      some (none, none, none) ∧
    (GLTFScene.construct false (fun _ => true) true 0 UploadState.initial).map
      (fun st => st.events.length) = some 25 ∧
    (GLTFScene.construct true (fun _ => true) true 0 UploadState.initial).map
      (fun st => st.events.length) = some 0 ∧
    Camera.construct false true 7 2 CameraResources.null =
      some { window := some 7, uniformBuffers := 2, descriptorPool := true,
             descriptorLayout := true, descriptorSets := 2 } ∧
    Camera.construct true true 7 2 CameraResources.null = some CameraResources.null := by
  refine ⟨fun _ _ => rfl, fun _ _ => rfl, fun _ _ _ _ => rfl, fun _ _ _ _ => rfl,
    by decide, by decide, by decide, by decide, by decide, by decide, by decide, by decide⟩

/-- C29 (evaluation at the failing input): the first `destroyPipeline` call on the sample
pipeline destroys its two non-null shader modules and its pipeline handle and empties
`_device`; for every pipeline, a second `destroyPipeline` call (the destructor's, after an
explicit one) then dereferences the empty `_device`. -/
theorem PipelineBase_destroyPipeline_twice :
    PipelineBase.destroyPipeline samplePipeline =
      some (PipelineBase.null,
        [PipelineEvent.vkDestroyShaderModule 4 10, PipelineEvent.vkDestroyShaderModule 4 11,
         PipelineEvent.vkDestroyPipeline 4 20]) ∧
    (PipelineBase.destroyPipeline samplePipeline).bind
      (fun first => PipelineBase.destroyPipeline first.1) = none ∧
    ∀ p : PipelineBase,
      (PipelineBase.destroyPipeline p).bind
        (fun first => PipelineBase.destroyPipeline first.1) = none := by
  refine ⟨by decide, by decide, fun p => ?_⟩
  obtain ⟨device, stages, pipeline⟩ := p
  cases device <;> rfl




/-! ## GUI uploads -/

theorem sliderChanged_append (tree : GuiTree) (a b : List GuiEvent) :
    sliderChanged tree (a ++ b) = (sliderChanged tree a || sliderChanged tree b) := by
  simp [sliderChanged, List.any_append]

theorem matrixUploads_append (a b : List GuiEvent) :
    matrixUploads (a ++ b) = matrixUploads a ++ matrixUploads b := by
  simp [matrixUploads, List.filter_append]

theorem materialUploads_append (a b : List GuiEvent) :
    materialUploads (a ++ b) = materialUploads a ++ materialUploads b := by
  simp [materialUploads, List.filter_append]

theorem uploads_singleton (tree : GuiTree) (n : Nat) :
    matrixUploads [GuiEvent.uploadMatrixBuffer] = [GuiEvent.uploadMatrixBuffer] ∧
    materialUploads [GuiEvent.uploadMatrixBuffer] = [] ∧
    sliderChanged tree [GuiEvent.uploadMatrixBuffer] = false ∧
    matrixUploads [GuiEvent.uploadMaterialBuffer n] = [] ∧
    materialUploads [GuiEvent.uploadMaterialBuffer n] = [GuiEvent.uploadMaterialBuffer n] ∧
    sliderChanged tree [GuiEvent.uploadMaterialBuffer n] = false :=
  ⟨rfl, rfl, rfl, rfl, rfl, rfl⟩

/-- The node loop appends only transform slider calls, and `bModified` becomes true exactly
when it was true or one of them reported a change. -/
theorem drawGUI_nodes_summary {M : Type} (gui : GuiInput) (sceneNodes : List (GLTFNode M)) :
    ∀ (index : Nat) (st : Bool × List GuiEvent),
    ∃ new : List GuiEvent,
      (GLTFScene.drawGUI.nodes gui index sceneNodes st).2 = st.2 ++ new ∧
      (GLTFScene.drawGUI.nodes gui index sceneNodes st).1 =
        (st.1 || sliderChanged GuiTree.transform new) ∧
      sliderChanged GuiTree.material new = false ∧
      matrixUploads new = [] ∧ materialUploads new = [] := by
  induction sceneNodes with
  | nil => intro index st; exact ⟨[], by simp [GLTFScene.drawGUI.nodes], by simp [GLTFScene.drawGUI.nodes, sliderChanged], rfl, rfl, rfl⟩
  | cons node rest ih =>
    intro index st
    obtain ⟨new1, s1, s2, s3, s4, s5⟩ : ∃ new1 : List GuiEvent,
        (GLTFScene.drawGUI.node gui index node st).2 = st.2 ++ new1 ∧
        (GLTFScene.drawGUI.node gui index node st).1 =
          (st.1 || sliderChanged GuiTree.transform new1) ∧
        sliderChanged GuiTree.material new1 = false ∧
        matrixUploads new1 = [] ∧ materialUploads new1 = [] := by
      unfold GLTFScene.drawGUI.node
      by_cases h1 : gui.nodeOpen index = true
      · by_cases h2 : node.primMeshes.isEmpty = true
        · exact ⟨[], by simp [h1, h2], by simp [h1, h2, sliderChanged], rfl, rfl, rfl⟩
        · refine ⟨[GuiEvent.slider GuiTree.transform index 0 (gui.nodeSlider index 0),
              GuiEvent.slider GuiTree.transform index 1 (gui.nodeSlider index 1),
              GuiEvent.slider GuiTree.transform index 2 (gui.nodeSlider index 2)],
            by simp [h1, h2], ?_, by simp [sliderChanged], rfl, rfl⟩
          simp [h1, h2, sliderChanged, Bool.or_assoc]
      · exact ⟨[], by simp [h1], by simp [h1, sliderChanged], rfl, rfl, rfl⟩
    obtain ⟨new2, t1, t2, t3, t4, t5⟩ := ih (index + 1) (GLTFScene.drawGUI.node gui index node st)
    refine ⟨new1 ++ new2, ?_, ?_, ?_, ?_, ?_⟩
    · rw [GLTFScene.drawGUI.nodes, t1, s1, List.append_assoc]
    · rw [GLTFScene.drawGUI.nodes, t2, s2, sliderChanged_append, Bool.or_assoc]
    · rw [sliderChanged_append, s3, t3]; rfl
    · rw [matrixUploads_append, s4, t4]; rfl
    · rw [materialUploads_append, s5, t5]; rfl

/-- The material loop appends only material slider calls, and `bModified` becomes true
exactly when it was true or one of them reported a change. -/
theorem drawGUI_materials_summary (gui : GuiInput) (count : Nat) :
    ∀ (index : Nat) (st : Bool × List GuiEvent),
    ∃ new : List GuiEvent,
      (GLTFScene.drawGUI.materials gui index count st).2 = st.2 ++ new ∧
      (GLTFScene.drawGUI.materials gui index count st).1 =
        (st.1 || sliderChanged GuiTree.material new) ∧
      sliderChanged GuiTree.transform new = false ∧
      matrixUploads new = [] ∧ materialUploads new = [] := by
  induction count with
  | zero => intro index st; exact ⟨[], by simp [GLTFScene.drawGUI.materials], by simp [GLTFScene.drawGUI.materials, sliderChanged], rfl, rfl, rfl⟩
  | succ n ih =>
    intro index st
    obtain ⟨new1, s1, s2, s3, s4, s5⟩ : ∃ new1 : List GuiEvent,
        (GLTFScene.drawGUI.material gui index st).2 = st.2 ++ new1 ∧
        (GLTFScene.drawGUI.material gui index st).1 =
          (st.1 || sliderChanged GuiTree.material new1) ∧
        sliderChanged GuiTree.transform new1 = false ∧
        matrixUploads new1 = [] ∧ materialUploads new1 = [] := by
      unfold GLTFScene.drawGUI.material
      by_cases h1 : gui.materialNodeOpen index = true
      · refine ⟨[GuiEvent.slider GuiTree.material index 0 (gui.materialSlider index 0),
            GuiEvent.slider GuiTree.material index 1 (gui.materialSlider index 1),
            GuiEvent.slider GuiTree.material index 2 (gui.materialSlider index 2),
            GuiEvent.slider GuiTree.material index 3 (gui.materialSlider index 3)],
          by simp [h1], ?_, by simp [sliderChanged], rfl, rfl⟩
        simp [h1, sliderChanged, Bool.or_assoc]
      · exact ⟨[], by simp [h1], by simp [h1, sliderChanged], rfl, rfl, rfl⟩
    obtain ⟨new2, t1, t2, t3, t4, t5⟩ := ih (index + 1) (GLTFScene.drawGUI.material gui index st)
    refine ⟨new1 ++ new2, ?_, ?_, ?_, ?_, ?_⟩
    · rw [GLTFScene.drawGUI.materials, t1, s1, List.append_assoc]
    · rw [GLTFScene.drawGUI.materials, t2, s2, sliderChanged_append, Bool.or_assoc]
    · rw [sliderChanged_append, s3, t3]; rfl
    · rw [matrixUploads_append, s4, t4]; rfl
    · rw [materialUploads_append, s5, t5]; rfl

theorem drawGUI_transformTree_summary {M : Type} (gui : GuiInput) (sceneNodes : List (GLTFNode M)) :
    matrixUploads (GLTFScene.drawGUI.transformTree gui sceneNodes []) =
      (if sliderChanged GuiTree.transform (GLTFScene.drawGUI.transformTree gui sceneNodes [])
       then [GuiEvent.uploadMatrixBuffer] else []) ∧
    materialUploads (GLTFScene.drawGUI.transformTree gui sceneNodes []) = [] ∧
    sliderChanged GuiTree.material (GLTFScene.drawGUI.transformTree gui sceneNodes []) = false := by
  unfold GLTFScene.drawGUI.transformTree
  by_cases h : gui.transformOpen = true
  · obtain ⟨new, s1, s2, s3, s4, s5⟩ := drawGUI_nodes_summary gui sceneNodes 0 (false, [])
    simp only [List.nil_append, Bool.false_or] at s1 s2
    simp only [h, if_true, s1, s2]
    cases hc : sliderChanged GuiTree.transform new
    · simp [hc, s3, s4, s5]
    · obtain ⟨u1, u2, u3, -, -, -⟩ := uploads_singleton GuiTree.transform 0
      obtain ⟨-, -, v3, -, -, -⟩ := uploads_singleton GuiTree.material 0
      simp [hc, s3, s4, s5, sliderChanged_append, matrixUploads_append, materialUploads_append,
        u1, u2, u3, v3]
  · simp [h, sliderChanged, matrixUploads, materialUploads]

/-- C22: in one `drawGUI` call, `uploadMatrixBuffer` is called exactly once if at least one
transform slider call reported a change and not at all otherwise, and
`uploadMaterialBuffer` is called exactly once, copying all `_sceneMaterials.size()`
materials, if at least one material slider call reported a change and not at all
otherwise; so a transform edit alone triggers no material upload and a material edit alone
no matrix upload. -/
theorem drawGUI_uploads {M : Type} (gui : GuiInput) (sceneNodes : List (GLTFNode M))
    (numMaterials : Nat) :
    matrixUploads (GLTFScene.drawGUI gui sceneNodes numMaterials) =
      (if sliderChanged GuiTree.transform (GLTFScene.drawGUI gui sceneNodes numMaterials)
       then [GuiEvent.uploadMatrixBuffer] else []) ∧
    materialUploads (GLTFScene.drawGUI gui sceneNodes numMaterials) =
      (if sliderChanged GuiTree.material (GLTFScene.drawGUI gui sceneNodes numMaterials)
       then [GuiEvent.uploadMaterialBuffer numMaterials] else []) := by
  obtain ⟨a1, a2, a3⟩ := drawGUI_transformTree_summary gui sceneNodes
  unfold GLTFScene.drawGUI GLTFScene.drawGUI.materialTree
  generalize GLTFScene.drawGUI.transformTree gui sceneNodes [] = events at a1 a2 a3
  by_cases h : gui.materialOpen = true
  · obtain ⟨new, s1, s2, s3, s4, s5⟩ := drawGUI_materials_summary gui numMaterials 0 (false, events)
    simp only [Bool.false_or] at s1 s2
    simp only [h, if_true, s1, s2]
    cases hc : sliderChanged GuiTree.material new
    · simp [hc, sliderChanged_append, matrixUploads_append, materialUploads_append, a1, a2, a3,
        s3, s4, s5]
    · obtain ⟨-, -, -, u4, u5, u6⟩ := uploads_singleton GuiTree.transform numMaterials
      obtain ⟨-, -, -, -, -, v6⟩ := uploads_singleton GuiTree.material numMaterials
      simp [hc, sliderChanged_append, matrixUploads_append, materialUploads_append, a1, a2, a3,
        s3, s4, s5, u4, u5, u6, v6]
  · simp [h, a1, a2, a3]

/-- With the sample GUI state, where only the rotation slider of node `2` reports a change
and node `1` has no mesh, `drawGUI` uploads the matrix buffer once and no material. -/
theorem drawGUI_sample :
    GLTFScene.drawGUI sampleGui sampleNodes 1 =
      [GuiEvent.slider GuiTree.transform 0 0 false, GuiEvent.slider GuiTree.transform 0 1 false,
       GuiEvent.slider GuiTree.transform 0 2 false,
       GuiEvent.slider GuiTree.transform 2 0 false, GuiEvent.slider GuiTree.transform 2 1 false,
       GuiEvent.slider GuiTree.transform 2 2 true, GuiEvent.uploadMatrixBuffer,
       GuiEvent.slider GuiTree.material 0 0 false, GuiEvent.slider GuiTree.material 0 1 false,
       GuiEvent.slider GuiTree.material 0 2 false, GuiEvent.slider GuiTree.material 0 3 false] := by
  decide




/-! ## Degenerate triangles in single precision -/

section CameraSteps

variable {F : Type} [Zero F] [One F] [NatCast F] [Add F] [Sub F] [Mul F] [Div F] [LE F]
  [DecidableRel (fun a b : F => a ≤ b)] {K : Type} [LinearOrderedField K]

/-- C20 (amended): for every `Camera::processInput` call, over any scalar arithmetic
(`float` with its rounding included), with `d` the direction after the orientation update,
the new position is the old position to which the displacements of the pressed keys are
applied one after the other, in the order `+ d * speed * deltaTime` (W),
`+ cross(d, up) * speed * deltaTime` (A), `- d * speed * deltaTime` (S),
`- cross(d, up) * speed * deltaTime` (D), `- up * speed * deltaTime` (Space); the position
is unchanged when none of the five keys is pressed. In exact arithmetic (an ordered field
`K`) the steps sum to the old position plus
`((W - S) * d + (A - D) * cross(d, up) - Space * up) * speed * deltaTime`. -/
theorem Camera_processInput_position_steps (M : GlmMath F) (camera : Camera F)
    (input : CameraInput F) (deltaTime : F) (exactM : GlmMath K) (exactCamera : Camera K)
    (exactInput : CameraInput K) (exactDeltaTime : K) :
    (Camera.processInput M camera input deltaTime).position =
      subIfPressed input.keySpace
        (vec3.mulScalar (vec3.mulScalar camera.up camera.speed) deltaTime)
        (subIfPressed input.keyD
          (vec3.mulScalar (vec3.mulScalar
            (cross (Camera.processInput M camera input deltaTime).direction camera.up)
            camera.speed) deltaTime)
          (subIfPressed input.keyS
            (vec3.mulScalar (vec3.mulScalar
              (Camera.processInput M camera input deltaTime).direction camera.speed) deltaTime)
            (addIfPressed input.keyA
              (vec3.mulScalar (vec3.mulScalar
                (cross (Camera.processInput M camera input deltaTime).direction camera.up)
                camera.speed) deltaTime)
              (addIfPressed input.keyW
                (vec3.mulScalar (vec3.mulScalar
                  (Camera.processInput M camera input deltaTime).direction camera.speed)
                  deltaTime)
                camera.position)))) ∧
    ((input.keyW = false ∧ input.keyA = false ∧ input.keyS = false ∧ input.keyD = false ∧
        input.keySpace = false) →
      (Camera.processInput M camera input deltaTime).position = camera.position) ∧
    (Camera.processInput exactM exactCamera exactInput exactDeltaTime).position =
      vec3.add exactCamera.position
        (vec3.mulScalar
          (vec3.mulScalar
            (vec3.sub
              (vec3.add
                (vec3.mulScalar
                  (Camera.processInput exactM exactCamera exactInput exactDeltaTime).direction
                  (pressed exactInput.keyW - pressed exactInput.keyS))
                (vec3.mulScalar
                  (cross
                    (Camera.processInput exactM exactCamera exactInput exactDeltaTime).direction
                    exactCamera.up)
                  (pressed exactInput.keyA - pressed exactInput.keyD)))
              (vec3.mulScalar exactCamera.up (pressed exactInput.keySpace)))
            exactCamera.speed)
          exactDeltaTime) := by
  refine ⟨rfl, ?_,
    (Camera_processInput_position_exact exactM exactCamera exactInput exactDeltaTime).1⟩
  rintro ⟨hW, hA, hS, hD, hSpace⟩
  unfold Camera.processInput
  simp only [hW, hA, hS, hD, hSpace, if_false, Bool.false_eq_true]

end CameraSteps

set_option maxRecDepth 100000 in
/-- C20 (as stated, in single precision): a camera at `z = 0.1f` looking along `+z` with
speed `1`, `deltaTime = 1`, the keys `W` and `S` pressed and the right button released. The
code adds `1` and subtracts `1` again, each step rounded, and ends at
`z = 838861 * 2^-23`; the closed formula, evaluated in `float` with `W - S = 0`, gives the
old position `z = 13421773 * 2^-27`. -/
theorem Camera_processInput_position_rounded :
    (Camera.processInput floatMath floatCamera floatInput 1).direction = floatCamera.direction ∧
    (Camera.processInput floatMath floatCamera floatInput 1).position =
      { x := 0, y := 0, z := Float32.ofDyadic 838861 (-23) } ∧
    vec3.add floatCamera.position
        (vec3.mulScalar
          (vec3.mulScalar
            (vec3.sub
              (vec3.add
                (vec3.mulScalar
                  (Camera.processInput floatMath floatCamera floatInput 1).direction
                  (pressed floatInput.keyW - pressed floatInput.keyS))
                (vec3.mulScalar
                  (cross (Camera.processInput floatMath floatCamera floatInput 1).direction
                    floatCamera.up)
                  (pressed floatInput.keyA - pressed floatInput.keyD)))
              (vec3.mulScalar floatCamera.up (pressed floatInput.keySpace)))
            floatCamera.speed)
          1) =
      { x := 0, y := 0, z := Float32.ofDyadic 13421773 (-27) } ∧
    (Camera.processInput floatMath floatCamera floatInput 1).position ≠
      vec3.add floatCamera.position
        (vec3.mulScalar
          (vec3.mulScalar
            (vec3.sub
              (vec3.add
                (vec3.mulScalar
                  (Camera.processInput floatMath floatCamera floatInput 1).direction
                  (pressed floatInput.keyW - pressed floatInput.keyS))
                (vec3.mulScalar
                  (cross (Camera.processInput floatMath floatCamera floatInput 1).direction
                    floatCamera.up)
                  (pressed floatInput.keyA - pressed floatInput.keyD)))
              (vec3.mulScalar floatCamera.up (pressed floatInput.keySpace)))
            floatCamera.speed)
          1) := by
  decide

set_option maxRecDepth 100000 in
/-- With `W` and `S` pressed the sample camera moves by the two rounded steps, and with no
key pressed it keeps its position. -/
theorem Camera_processInput_position_steps_witness :
    (Camera.processInput floatMath floatCamera floatInput 1).position =
      { x := 0, y := 0, z := Float32.ofDyadic 838861 (-23) } ∧
    (Camera.processInput floatMath floatCamera { floatInput with keyW := false, keyS := false }
      1).position = floatCamera.position :=
  ⟨(Camera_processInput_position_steps floatMath floatCamera floatInput 1
      sampleMath sampleCamera sampleInput 1).1.trans (by decide),
   (Camera_processInput_position_steps floatMath floatCamera
      { floatInput with keyW := false, keyS := false } 1
      sampleMath sampleCamera sampleInput 1).2.1 ⟨rfl, rfl, rfl, rfl, rfl⟩⟩

end vfs
